import Mathlib

/-! DZSimulator: world-state advancement, interpolation and the tick driver.

A shallow embedding of `src/sim/WorldState.cpp` and `src/sim/CsgoGame.cpp`.

Conventions of the embedding.

* `float` values and simulation time (`SimTimePoint`, `SimTimeDur`) are exact
  rationals; simulation time is counted in seconds, so the conversion
  `(float)Seconds{simtime_delta}` is the identity.
* Wall-clock time points and durations (`std::chrono` nanoseconds) are integers.
* Button masks (`uint64_t`) are natural numbers; tick ids (`size_t`, `int`) are
  unbounded.
* A division by zero gives 0 (the convention of `ℚ`) where the source produces
  an infinity or a NaN; a statement about the phase of a subtick-precise sample
  assumes a tick interval that is not 0.
* An `assert` that fires aborts the call (debug build semantics).
* Collaborators whose code lives in other translation units (the movement
  integrator, the projectile integrator, the configuration, the constants of
  `CsgoConstants.h`) are fields of `Env`.
-/

namespace DZSim

/-! ## Data model -/

/-- Three floats (`Magnum::Vector3`). -/
structure Vector3 where
  x : ℚ
  y : ℚ
  z : ℚ
deriving DecidableEq, Repr

namespace Vector3

/-- Componentwise sum. -/
def add (a b : Vector3) : Vector3 := ⟨a.x + b.x, a.y + b.y, a.z + b.z⟩

/-- Scalar multiple `k * v`. -/
def smul (k : ℚ) (v : Vector3) : Vector3 := ⟨k * v.x, k * v.y, k * v.z⟩

/-- The expression `(1.0f - phase) * a + phase * b` used by `Interpolate`. -/
def blend (phase : ℚ) (a b : Vector3) : Vector3 :=
  add (smul (1 - phase) a) (smul phase b)

end Vector3

/-- The fields of `PlayerInput::State` that the simulation reads. -/
structure PlayerInputState where
  sample_time : Int
  nButtons : Nat
  scrollwheel_jumped : Bool
  viewing_angles : ℚ × ℚ
deriving DecidableEq, Repr

/-- The fields of `CsgoMovement` that `WorldState` reads or writes. -/
structure CsgoMovement where
  m_vecViewAngles : Vector3
  m_nButtons : Nat
  m_MoveType : Nat
  m_vecAbsOrigin : Vector3
  m_vecViewOffset : Vector3
  m_vecVelocity : Vector3
  m_loadout : Nat
  m_flForwardMove : ℚ
  m_flSideMove : ℚ
  m_iSpeedCropped : Nat
  m_flMaxSpeed : ℚ
deriving DecidableEq, Repr

/-- The fields of `Entities::Player` that `WorldState` reads or writes. -/
structure Player where
  loadout : Nat
  next_primary_attack : ℚ
deriving DecidableEq, Repr

/-- The fields of `Entities::BumpmineProjectile` that `WorldState` reads or writes. -/
structure BumpmineProjectile where
  unique_id : Nat
  position : Vector3
  velocity : Vector3
  has_detonated : Bool
deriving DecidableEq, Repr

/-- One record of the subtick ledger (`struct CsgoSubtickStep`). -/
structure CsgoSubtickStep where
  inputBitmask : Nat
  tick : Int
  when : ℚ
deriving DecidableEq, Repr

/-- World state snapshot (`class sim::WorldState`). -/
structure WorldState where
  simtime : ℚ
  is_interpolated : Bool
  prev_input : PlayerInputState
  csgo_mv : CsgoMovement
  player : Player
  bumpmine_projectiles : List BumpmineProjectile
deriving DecidableEq, Repr

/-- Everything `AdvanceSimulation` and the driver take from other translation
units: the global collision world handle, the movement integrator, the
projectile integrator, the id generator, helper functions, configuration values
and named constants. -/
structure Env where
  /-- Whether `g_coll_world` is non-null (a map is loaded). -/
  g_coll_world : Bool
  /-- The method `CsgoMovement::PlayerMove(float time_delta)`. -/
  PlayerMove : ℚ → CsgoMovement → CsgoMovement
  /-- The method `CsgoMovement::FinishMove()`. -/
  FinishMove : CsgoMovement → CsgoMovement
  /-- The method `BumpmineProjectile::AdvanceSimulation(simtime_delta, world)`:
  from the step duration, the world as it stands and the projectile, the
  projectile afterwards and the movement state of the world afterwards. -/
  BumpmineAdvance : ℚ → WorldState → BumpmineProjectile → BumpmineProjectile × CsgoMovement
  /-- The value returned by the k-th call of `GenerateNewUniqueID()`. -/
  GenerateNewUniqueID : Nat → Nat
  /-- The helper `AnglesToVectors(angles, &forward)`: the forward vector. -/
  AnglesToVectors : Vector3 → Vector3
  /-- The helper `RoundToNearestSimTimeStep(secs, step)`. -/
  RoundToNearestSimTimeStep : ℚ → ℚ → ℚ
  /-- The method `g_csgo_game_sim_cfg.GetMaxPlayerRunningSpeed(loadout)`. -/
  GetMaxPlayerRunningSpeed : Nat → ℚ
  /-- What a `std::vector` holds after it has been moved from (the standard
  leaves it valid but unspecified; mainstream libraries leave it empty). -/
  movedFromVector : List BumpmineProjectile → List BumpmineProjectile
  cl_forwardspeed : ℚ
  cl_backspeed : ℚ
  cl_sidespeed : ℚ
  CSGO_BUMP_THROW_INTERVAL_SECS : ℚ
  CSGO_BUMP_THROW_SPAWN_OFFSET : ℚ
  CSGO_BUMP_THROW_SPEED : ℚ
  IN_ATTACK : Nat
  IN_JUMP : Nat
  IN_FORWARD : Nat
  IN_BACK : Nat
  IN_MOVELEFT : Nat
  IN_MOVERIGHT : Nat
  MOVETYPE_NOCLIP : Nat
  SPEED_CROPPED_RESET : Nat

/-! ## `WorldState::Interpolate` -/

/-- The body of the range-for loop of `Interpolate` for one projectile of the
copy of `stateB`: look the id up in `stateA` (`std::find_if`, first match) and
blend the position when it is found. -/
def interpolateProjectile (phase : ℚ) (projectilesA : List BumpmineProjectile)
    (bm_from_B : BumpmineProjectile) : BumpmineProjectile :=
  match projectilesA.find? (fun bm => bm.unique_id == bm_from_B.unique_id) with
  | none => bm_from_B
  | some same_bm_from_A =>
      { bm_from_B with position := Vector3.blend phase same_bm_from_A.position bm_from_B.position }

/-- The static function `WorldState::Interpolate(stateA, stateB, phase)`; `none` when the assertion
`stateA.simtime <= stateB.simtime` fires. -/
def WorldState.Interpolate (stateA stateB : WorldState) (phase : ℚ) : Option WorldState :=
  if ¬ (stateA.simtime ≤ stateB.simtime) then none
  else if phase ≤ 0 then some stateA
  else if phase ≥ 1 then some stateB
  else
    some { stateB with
      is_interpolated := true
      simtime := stateA.simtime + (stateB.simtime - stateA.simtime) * phase
      csgo_mv := { stateB.csgo_mv with
        m_vecAbsOrigin :=
          Vector3.blend phase stateA.csgo_mv.m_vecAbsOrigin stateB.csgo_mv.m_vecAbsOrigin
        m_vecViewOffset :=
          Vector3.blend phase stateA.csgo_mv.m_vecViewOffset stateB.csgo_mv.m_vecViewOffset }
      bumpmine_projectiles :=
        stateB.bumpmine_projectiles.map (interpolateProjectile phase stateA.bumpmine_projectiles) }

/-! ## `WorldState::AdvanceSimulation` -/

/-- One invocation of the movement integrator: the time slice passed to
`PlayerMove` and the movement state it was invoked on. -/
structure MoveCall where
  time_delta : ℚ
  mv : CsgoMovement
deriving DecidableEq, Repr

/-- The button mask the integrator ran with. -/
def MoveCall.buttons (c : MoveCall) : Nat := c.mv.m_nButtons

/-- How a call of `AdvanceSimulation` ends. -/
inductive AdvanceResult where
  /-- An assertion fired; the world state as it was at that moment. -/
  | aborted (state : WorldState)
  /-- The call returned: the world state afterwards, the invocations of the
  movement integrator in order, and the number of ids generated so far. -/
  | returned (state : WorldState) (moves : List MoveCall) (uid_calls : Nat)
deriving DecidableEq, Repr

/-- Input resolution (lines 101-121): with no buffered input the previous input
with the scroll-wheel jump cleared, otherwise the latest sample with the jump
flag set when any buffered sample has it. -/
def resolveInput (prev_input : PlayerInputState) (chro_input : List PlayerInputState) :
    PlayerInputState :=
  match chro_input.getLast? with
  | none => { prev_input with scrollwheel_jumped := false }
  | some latest =>
      { latest with scrollwheel_jumped := chro_input.any (fun e => e.scrollwheel_jumped) }

/-- The loop over the projectiles (lines 146-147): each one is advanced in turn
on the world as it stands; `done` holds the projectiles already advanced. -/
def simulateProjectiles (env : Env) (simtime_delta : ℚ) :
    WorldState → List BumpmineProjectile → List BumpmineProjectile → WorldState
  | w, done, [] => { w with bumpmine_projectiles := done }
  | w, done, bm :: rest =>
      let r := env.BumpmineAdvance simtime_delta
        { w with bumpmine_projectiles := done ++ bm :: rest } bm
      simulateProjectiles env simtime_delta { w with csgo_mv := r.2 } (done ++ [r.1]) rest

/-- Spawning a Bump Mine on attack (lines 150-171). -/
def spawnBumpmine (env : Env) (simtime_delta : ℚ) (uid_calls : Nat) (w : WorldState) :
    WorldState × Nat :=
  if w.csgo_mv.m_nButtons &&& env.IN_ATTACK ≠ 0 then
    if w.simtime ≥ w.player.next_primary_attack then
      let forward := env.AnglesToVectors w.csgo_mv.m_vecViewAngles
      let bm : BumpmineProjectile :=
        { unique_id := env.GenerateNewUniqueID uid_calls
          position := Vector3.add (Vector3.add w.csgo_mv.m_vecAbsOrigin w.csgo_mv.m_vecViewOffset)
            ⟨0, 0, - env.CSGO_BUMP_THROW_SPAWN_OFFSET⟩
          velocity := Vector3.add w.csgo_mv.m_vecVelocity
            (Vector3.smul env.CSGO_BUMP_THROW_SPEED forward)
          has_detonated := false }
      ({ w with
          player := { w.player with
            next_primary_attack := w.simtime +
              env.RoundToNearestSimTimeStep env.CSGO_BUMP_THROW_INTERVAL_SECS simtime_delta }
          bumpmine_projectiles := w.bumpmine_projectiles ++ [bm] },
        uid_calls + 1)
    else (w, uid_calls)
  else (w, uid_calls)

/-- The tail of the segment loop body (lines 206-234), run once the buttons of
the segment are in `mv.m_nButtons`: derive the wish speeds, reset the crop flag,
set the maximum speed, then `PlayerMove` and `FinishMove`. Returns the movement
state afterwards and the record of the `PlayerMove` invocation. -/
def moveSegment (env : Env) (player : Player) (time_delta_sec : ℚ) (mv : CsgoMovement)
    (curr_stepinterval : ℚ) : CsgoMovement × MoveCall :=
  let mv1 := { mv with m_loadout := player.loadout }
  let fwd0 : ℚ := 0
  let fwd1 := if mv1.m_nButtons &&& env.IN_FORWARD ≠ 0 then fwd0 + env.cl_forwardspeed else fwd0
  let fwd2 := if mv1.m_nButtons &&& env.IN_BACK ≠ 0 then fwd1 - env.cl_backspeed else fwd1
  let side0 : ℚ := 0
  let side1 := if mv1.m_nButtons &&& env.IN_MOVERIGHT ≠ 0 then side0 + env.cl_sidespeed else side0
  let side2 := if mv1.m_nButtons &&& env.IN_MOVELEFT ≠ 0 then side1 - env.cl_sidespeed else side1
  let mv2 := { mv1 with
    m_flForwardMove := fwd2
    m_flSideMove := side2
    m_iSpeedCropped := env.SPEED_CROPPED_RESET
    m_flMaxSpeed := env.GetMaxPlayerRunningSpeed player.loadout }
  (env.FinishMove (env.PlayerMove (time_delta_sec * curr_stepinterval) mv2),
    { time_delta := time_delta_sec * curr_stepinterval, mv := mv2 })

/-- The local variables of the segment loop that live across iterations. -/
structure SegmentLoop where
  csgo_mv : CsgoMovement
  used_input : PlayerInputState
  prev_when : ℚ
  moves : List MoveCall
deriving DecidableEq, Repr

/-- The iterations `step < SubtickSteps.size()` of the segment loop (lines
181-235), one per ledger entry, in order. -/
def subtickSegments (env : Env) (player : Player) (time_delta_sec : ℚ) :
    List CsgoSubtickStep → SegmentLoop → SegmentLoop
  | [], st => st
  | step :: rest, st =>
      let mv := { st.csgo_mv with m_nButtons := st.used_input.nButtons }
      let curr_stepinterval := step.when - st.prev_when
      let r := moveSegment env player time_delta_sec mv curr_stepinterval
      subtickSegments env player time_delta_sec rest
        { csgo_mv := r.1
          used_input := { st.used_input with nButtons := step.inputBitmask }
          prev_when := step.when
          moves := st.moves ++ [r.2] }

/-- Lines 101-136: resolve the input and apply its view angles and buttons to
the movement state, with the jump button injected on a scroll-wheel jump
outside noclip. -/
def applyInput (env : Env) (w1 : WorldState) (chro_input : List PlayerInputState) : WorldState :=
  let used_input := resolveInput w1.prev_input chro_input
  let mvA := { w1.csgo_mv with
    m_vecViewAngles := ⟨used_input.viewing_angles.1, used_input.viewing_angles.2, 0⟩
    m_nButtons := used_input.nButtons }
  let mvB :=
    if used_input.scrollwheel_jumped ∧ mvA.m_MoveType ≠ env.MOVETYPE_NOCLIP then
      { mvA with m_nButtons := mvA.m_nButtons ||| env.IN_JUMP }
    else mvA
  { w1 with csgo_mv := mvB }

/-- Lines 141-171: erase the detonated projectiles, advance the remaining ones,
spawn one on attack. -/
def simulateEntities (env : Env) (simtime_delta : ℚ) (uid_calls : Nat) (w2 : WorldState) :
    WorldState × Nat :=
  spawnBumpmine env simtime_delta uid_calls
    (simulateProjectiles env simtime_delta w2 []
      (w2.bumpmine_projectiles.filter (fun bm => ! bm.has_detonated)))

/-- Lines 175-235: the segment loop, one iteration per ledger entry and a last
one up to `fraction`, which also stores `used_input` into `prev_input` when
`fraction == 1.0f`. -/
def segmentLoop (env : Env) (time_delta_sec : ℚ) (SubtickSteps : List CsgoSubtickStep)
    (fraction : ℚ) (w4 : WorldState) : WorldState × List MoveCall :=
  let st := subtickSegments env w4.player time_delta_sec SubtickSteps
    { csgo_mv := w4.csgo_mv, used_input := w4.prev_input, prev_when := 0, moves := [] }
  let r := moveSegment env w4.player time_delta_sec
    { st.csgo_mv with m_nButtons := st.used_input.nButtons } (fraction - st.prev_when)
  let new_prev_input := if fraction = 1 then st.used_input else w4.prev_input
  ({ w4 with prev_input := new_prev_input, csgo_mv := r.1 }, st.moves ++ [r.2])

/-- Lines 101-235 of `AdvanceSimulation`, run on the state `w1` whose time point
has already been advanced, when a map is loaded. Returns the state afterwards,
the invocations of the movement integrator in order and the number of ids
generated so far. -/
def advanceLoaded (env : Env) (uid_calls : Nat) (w1 : WorldState)
    (simtime_delta : ℚ) (chro_input : List PlayerInputState)
    (SubtickSteps : List CsgoSubtickStep) (fraction : ℚ) : WorldState × List MoveCall × Nat :=
  let time_delta_sec := simtime_delta
  let spawned := simulateEntities env simtime_delta uid_calls (applyInput env w1 chro_input)
  let r := segmentLoop env time_delta_sec SubtickSteps fraction spawned.1
  (r.1, r.2, spawned.2)

/-- The method `WorldState::AdvanceSimulation(simtime_delta, chro_input, SubtickSteps,
fraction)` on the state `self`; `uid_calls` counts the ids generated before the
call. The three assertions come first, then the time point is advanced, then
the call returns early when no map is loaded. -/
def WorldState.AdvanceSimulation (env : Env) (uid_calls : Nat) (self : WorldState)
    (simtime_delta : ℚ) (chro_input : List PlayerInputState)
    (SubtickSteps : List CsgoSubtickStep) (fraction : ℚ) : AdvanceResult :=
  if self.is_interpolated then .aborted self
  else if ¬ (fraction ≤ 1) then .aborted self
  else if (match SubtickSteps.getLast? with
      | some last => decide (¬ (last.when ≤ fraction))
      | none => false) then .aborted self
  else
    let w1 := { self with simtime := self.simtime + simtime_delta }
    if ¬ env.g_coll_world then .returned w1 [] uid_calls
    else
      let r := advanceLoaded env uid_calls w1 simtime_delta chro_input SubtickSteps fraction
      .returned r.1 r.2.1 r.2.2

/-! ## `CsgoGame`: the tick driver -/

/-- The state of the driver (`class CsgoGame`), with the subtick ledger
`SubtickSteps` and its copy `prevSubtickSteps`. The field `uid_calls` is the
process-wide count of ids handed out by `GenerateNewUniqueID()`, carried here
so that every call is a function of explicit state. -/
structure CsgoGame where
  m_simtime_step_size : ℚ
  m_realtime_game_tick_interval : Int
  m_realtime_game_start : Int
  m_realtime_last_tick : Int
  m_prev_finalized_game_tick_id : Nat
  m_prev_finalized_game_tick : WorldState
  m_inputs_since_prev_finalized_game_tick : List PlayerInputState
  m_prev_predicted_game_tick : WorldState
  m_prev_drawable_worldstate : WorldState
  m_prev_drawable_worldstate_timepoint : Int
  SubtickSteps : List CsgoSubtickStep
  prevSubtickSteps : List CsgoSubtickStep
  uid_calls : Nat
deriving DecidableEq, Repr

/-- How a call into the driver ends. -/
inductive DriverResult where
  /-- The call returned, leaving the driver in this state. -/
  | ok (game : CsgoGame)
  /-- An assertion fired. -/
  | assertFailed
  /-- The catch-up loop was still running after the allotted number of tests of
  its condition. -/
  | outOfFuel
deriving DecidableEq, Repr

/-- The method `CsgoGame::HasBeenStarted()`. -/
def CsgoGame.HasBeenStarted (g : CsgoGame) : Bool := decide (g.m_simtime_step_size > 0)

/-- The conversion `std::chrono::nanoseconds{ Nanoseconds{ seconds } }`: the
whole number of nanoseconds, rounded toward zero. -/
def toNanoseconds (seconds : ℚ) : Int :=
  Int.tdiv (seconds * 1000000000).num (seconds * 1000000000).den

/-- The method `CsgoGame::UpdateTimescale(simtime_scale)`. -/
def CsgoGame.UpdateTimescale (g : CsgoGame) (simtime_scale : ℚ) : CsgoGame :=
  { g with m_realtime_game_tick_interval := toNanoseconds (g.m_simtime_step_size / simtime_scale) }

/-- The method `CsgoGame::Start(simtime_step_size, simtime_scale, initial_worldstate)`;
`current_realtime` is the value of `WallClock::now()`. -/
def CsgoGame.Start (env : Env) (current_realtime : Int) (g : CsgoGame) (simtime_step_size : ℚ)
    (simtime_scale : ℚ) (initial_worldstate : WorldState) : DriverResult :=
  if ¬ (simtime_step_size > 0) then .assertFailed
  else if ¬ (simtime_scale > 0) then .assertFailed
  else
    match initial_worldstate.AdvanceSimulation env g.uid_calls simtime_step_size [] [] 1 with
    | .aborted _ => .assertFailed
    | .returned predicted _ uid' =>
        .ok { g with
          m_simtime_step_size := simtime_step_size
          m_realtime_game_tick_interval := toNanoseconds (simtime_step_size / simtime_scale)
          m_realtime_game_start := current_realtime
          m_realtime_last_tick := current_realtime
          m_prev_finalized_game_tick_id := 0
          m_prev_finalized_game_tick := initial_worldstate
          m_inputs_since_prev_finalized_game_tick := []
          m_prev_predicted_game_tick := predicted
          m_prev_drawable_worldstate := initial_worldstate
          m_prev_drawable_worldstate_timepoint := current_realtime
          uid_calls := uid' }

/-- The method `CsgoGame::GetGameTickRealTimePoint(tick_id)`; `none` when the assertion
`HasBeenStarted()` fires. -/
def CsgoGame.GetGameTickRealTimePoint (g : CsgoGame) (tick_id : Nat) : Option Int :=
  if g.HasBeenStarted then
    some (g.m_realtime_game_start + tick_id * g.m_realtime_game_tick_interval)
  else none

/-- Step 1 of `ProcessNewPlayerInput` (lines 130-137): the catch-up loop on
`m_realtime_last_tick` and `directly_preceding_game_tick_id`. The first argument
bounds the number of tests of the loop condition; `none` when the loop is still
running after that many. -/
def catchUp (m_realtime_game_tick_interval cur_time : Int) : Nat → Int → Nat → Option (Int × Nat)
  | 0, _, _ => none
  | fuel + 1, m_realtime_last_tick, directly_preceding_game_tick_id =>
      if m_realtime_last_tick + m_realtime_game_tick_interval < cur_time then
        catchUp m_realtime_game_tick_interval cur_time fuel
          (m_realtime_last_tick + m_realtime_game_tick_interval)
          (directly_preceding_game_tick_id + 1)
      else some (m_realtime_last_tick, directly_preceding_game_tick_id)

/-- Step 2 of `ProcessNewPlayerInput` (lines 162-168): the loop that finalizes
ticks; the first argument is the number of its iterations,
`directly_preceding_game_tick_id - m_prev_finalized_game_tick_id`. -/
def finalizeTicks (env : Env) : Nat → CsgoGame → DriverResult
  | 0, g => .ok g
  | n + 1, g =>
      match g.m_prev_finalized_game_tick.AdvanceSimulation env g.uid_calls g.m_simtime_step_size
          g.m_inputs_since_prev_finalized_game_tick g.SubtickSteps 1 with
      | .aborted _ => .assertFailed
      | .returned s _ uid' =>
          finalizeTicks env n { g with
            m_prev_finalized_game_tick := s
            m_inputs_since_prev_finalized_game_tick := []
            prevSubtickSteps := g.SubtickSteps
            SubtickSteps := []
            m_prev_finalized_game_tick_id := g.m_prev_finalized_game_tick_id + 1
            uid_calls := uid' }

/-- The ledger update of `ProcessNewPlayerInput` (lines 182-212): the ledger
after the new sample has been looked at. -/
def updateLedger (g : CsgoGame) (new_input : PlayerInputState) (subticked : Bool)
    (cur_time : Int) : List CsgoSubtickStep :=
  if (g.SubtickSteps.isEmpty ∧
        g.m_prev_finalized_game_tick.prev_input.nButtons ≠ new_input.nButtons) ∨
      (¬ g.SubtickSteps.isEmpty ∧
        (g.SubtickSteps.getLast?.map CsgoSubtickStep.inputBitmask) ≠ some new_input.nButtons) ∨
      new_input.scrollwheel_jumped then
    let curr_when : ℚ :=
      ((cur_time - g.m_realtime_last_tick : Int) : ℚ) / (g.m_realtime_game_tick_interval : ℚ)
    let newStep : CsgoSubtickStep :=
      { inputBitmask := new_input.nButtons
        when := if subticked then curr_when else 0
        tick := g.m_prev_finalized_game_tick_id }
    if new_input.scrollwheel_jumped then
      let jumpStep := { newStep with inputBitmask := newStep.inputBitmask ||| 2 }
      if subticked then
        g.SubtickSteps ++
          [jumpStep, { jumpStep with inputBitmask := jumpStep.inputBitmask &&& (2 ^ 64 - 3) }]
      else g.SubtickSteps ++ [jumpStep]
    else g.SubtickSteps ++ [newStep]
  else g.SubtickSteps

/-- A `WorldState` after `std::move` has taken it: the scalar members keep
their values, the vector of projectiles is what a moved-from vector holds. -/
def movedFrom (env : Env) (w : WorldState) : WorldState :=
  { w with bumpmine_projectiles := env.movedFromVector w.bumpmine_projectiles }

/-- The phase of the drawable state (lines 239-251): `interpStep / interpRange`,
both measured from the last tick boundary when `subticked` and from the time
point of the previous drawable state otherwise. -/
def drawPhase (g : CsgoGame) (cur_time : Int) (subticked : Bool) : ℚ :=
  let next_game_tick_timepoint := g.m_realtime_last_tick + g.m_realtime_game_tick_interval
  let interpRange : Int :=
    if subticked then next_game_tick_timepoint - g.m_realtime_last_tick
    else next_game_tick_timepoint - g.m_prev_drawable_worldstate_timepoint
  let interpStep : Int :=
    if subticked then cur_time - g.m_realtime_last_tick
    else cur_time - g.m_prev_drawable_worldstate_timepoint
  (interpStep : ℚ) / (interpRange : ℚ)

/-- Lines 219-295 of `ProcessNewPlayerInput`: predict the next tick, compute the
drawable state, store both. -/
def predictAndDraw (env : Env) (g : CsgoGame) (cur_time : Int) (subticked : Bool) :
    DriverResult :=
  let phase := drawPhase g cur_time subticked
  if subticked then
    match g.m_prev_finalized_game_tick.AdvanceSimulation env g.uid_calls g.m_simtime_step_size
        g.m_inputs_since_prev_finalized_game_tick g.SubtickSteps phase with
    | .aborted _ => .assertFailed
    | .returned cur_drawable_worldstate _ uid' =>
        .ok { g with
          m_prev_predicted_game_tick := cur_drawable_worldstate
          m_prev_drawable_worldstate := movedFrom env cur_drawable_worldstate
          m_prev_drawable_worldstate_timepoint := cur_time
          uid_calls := uid' }
  else
    match g.m_prev_finalized_game_tick.AdvanceSimulation env g.uid_calls g.m_simtime_step_size
        g.m_inputs_since_prev_finalized_game_tick g.SubtickSteps 1 with
    | .aborted _ => .assertFailed
    | .returned predicted_next_game_tick _ uid' =>
        if g.m_realtime_last_tick + g.m_realtime_game_tick_interval
            - g.m_prev_drawable_worldstate_timepoint = 0 then
          .ok { g with
            m_prev_predicted_game_tick := predicted_next_game_tick
            m_prev_drawable_worldstate := predicted_next_game_tick
            m_prev_drawable_worldstate_timepoint := cur_time
            uid_calls := uid' }
        else
          match WorldState.Interpolate g.m_prev_drawable_worldstate predicted_next_game_tick
              phase with
          | none => .assertFailed
          | some cur_drawable_worldstate =>
              .ok { g with
                m_prev_predicted_game_tick := predicted_next_game_tick
                m_prev_drawable_worldstate := cur_drawable_worldstate
                m_prev_drawable_worldstate_timepoint := cur_time
                uid_calls := uid' }

/-- Lines 104-168 of `ProcessNewPlayerInput`: the two entry assertions, the
catch-up loop and the finalizing loop. -/
def catchUpAndFinalize (env : Env) (fuel : Nat) (g : CsgoGame) (new_input : PlayerInputState) :
    DriverResult :=
  if ¬ g.HasBeenStarted then .assertFailed
  else if g.m_inputs_since_prev_finalized_game_tick.any
      (fun other => decide (¬ (new_input.sample_time ≥ other.sample_time))) then .assertFailed
  else
    match catchUp g.m_realtime_game_tick_interval new_input.sample_time fuel
        g.m_realtime_last_tick g.m_prev_finalized_game_tick_id with
    | none => .outOfFuel
    | some (last_tick, directly_preceding_game_tick_id) =>
        finalizeTicks env (directly_preceding_game_tick_id - g.m_prev_finalized_game_tick_id)
          { g with m_realtime_last_tick := last_tick }

/-- Lines 174-212 of `ProcessNewPlayerInput`: buffer the new sample, then update
the ledger. -/
def bufferInput (g : CsgoGame) (new_input : PlayerInputState) (subticked : Bool) : CsgoGame :=
  let g1 := { g with
    m_inputs_since_prev_finalized_game_tick :=
      g.m_inputs_since_prev_finalized_game_tick ++ [new_input] }
  { g1 with SubtickSteps := updateLedger g1 new_input subticked new_input.sample_time }

/-- The method `CsgoGame::ProcessNewPlayerInput(new_input, subticked)`; `fuel` bounds the
number of tests of the catch-up loop condition. -/
def CsgoGame.ProcessNewPlayerInput (env : Env) (fuel : Nat) (g : CsgoGame)
    (new_input : PlayerInputState) (subticked : Bool) : DriverResult :=
  match catchUpAndFinalize env fuel g new_input with
  | .ok g1 => predictAndDraw env (bufferInput g1 new_input subticked) new_input.sample_time subticked
  | .assertFailed => .assertFailed
  | .outOfFuel => .outOfFuel

/-- A sequence of calls `ProcessNewPlayerInput(sample, subticked)`, each on the
driver the previous one left, all with the same bound on the catch-up loop; it
stops at the first call that does not return. -/
def processInputs (env : Env) (fuel : Nat) :
    CsgoGame → List (PlayerInputState × Bool) → DriverResult
  | g, [] => .ok g
  | g, (new_input, subticked) :: rest =>
      match g.ProcessNewPlayerInput env fuel new_input subticked with
      | .ok g' => processInputs env fuel g' rest
      | .assertFailed => .assertFailed
      | .outOfFuel => .outOfFuel

/-! ## Concrete values used to evaluate the definitions -/

/-- A concrete environment: a map is loaded, the movement integrator moves the
origin along the velocity, projectiles fly in a straight line, ids count up
from 1, and the button constants are those of the Source SDK. -/
def demoEnv : Env where
  g_coll_world := true
  PlayerMove := fun dt mv =>
    { mv with m_vecAbsOrigin := Vector3.add mv.m_vecAbsOrigin (Vector3.smul dt mv.m_vecVelocity) }
  FinishMove := fun mv => mv
  BumpmineAdvance := fun dt w bm =>
    ({ bm with position := Vector3.add bm.position (Vector3.smul dt bm.velocity) }, w.csgo_mv)
  GenerateNewUniqueID := fun k => k + 1
  AnglesToVectors := fun _ => ⟨1, 0, 0⟩
  RoundToNearestSimTimeStep := fun secs step => (Rat.floor (secs / step + 1 / 2) : ℚ) * step
  GetMaxPlayerRunningSpeed := fun _ => 250
  movedFromVector := fun _ => []
  cl_forwardspeed := 450
  cl_backspeed := 450
  cl_sidespeed := 450
  CSGO_BUMP_THROW_INTERVAL_SECS := 1 / 2
  CSGO_BUMP_THROW_SPAWN_OFFSET := 12
  CSGO_BUMP_THROW_SPEED := 600
  IN_ATTACK := 1
  IN_JUMP := 2
  IN_FORWARD := 8
  IN_BACK := 16
  IN_MOVELEFT := 512
  IN_MOVERIGHT := 1024
  MOVETYPE_NOCLIP := 8
  SPEED_CROPPED_RESET := 0

/-- The environment `demoEnv` with another movement integrator: `PlayerMove`
carries the origin along the x axis at unit speed, whatever the velocity, so
the x coordinate reads off the time the integrator was run for, and
`FinishMove` adds 1 to the y coordinate, which so counts its invocations. -/
def demoDriftEnv : Env :=
  { demoEnv with
    PlayerMove := fun dt mv =>
      { mv with m_vecAbsOrigin :=
          ⟨mv.m_vecAbsOrigin.x + dt, mv.m_vecAbsOrigin.y, mv.m_vecAbsOrigin.z⟩ }
    FinishMove := fun mv =>
      { mv with m_vecAbsOrigin :=
          ⟨mv.m_vecAbsOrigin.x, mv.m_vecAbsOrigin.y + 1, mv.m_vecAbsOrigin.z⟩ } }

/-- A player input sample with the given time stamp, buttons and jump flag. -/
def demoInput (sample_time : Int) (nButtons : Nat) (jumped : Bool) : PlayerInputState :=
  { sample_time := sample_time, nButtons := nButtons, scrollwheel_jumped := jumped
    viewing_angles := (0, 90) }

/-- A world state at time point 0: the player walks (move type 2) with velocity
(1, 0, 0), no projectiles, no button held. -/
def demoState : WorldState where
  simtime := 0
  is_interpolated := false
  prev_input := { sample_time := 0, nButtons := 0, scrollwheel_jumped := false
                  viewing_angles := (0, 0) }
  csgo_mv :=
    { m_vecViewAngles := ⟨0, 0, 0⟩, m_nButtons := 0, m_MoveType := 2
      m_vecAbsOrigin := ⟨0, 0, 0⟩, m_vecViewOffset := ⟨0, 0, 64⟩
      m_vecVelocity := ⟨1, 0, 0⟩, m_loadout := 0, m_flForwardMove := 0
      m_flSideMove := 0, m_iSpeedCropped := 0, m_flMaxSpeed := 0 }
  player := { loadout := 0, next_primary_attack := 0 }
  bumpmine_projectiles := []

/-- A projectile at rest. -/
def demoProjectile (unique_id : Nat) (position : Vector3) : BumpmineProjectile :=
  { unique_id := unique_id, position := position, velocity := ⟨0, 0, 0⟩, has_detonated := false }

/-- The driver as its constructor leaves it: not started. -/
def demoUnstarted : CsgoGame where
  m_simtime_step_size := 0
  m_realtime_game_tick_interval := 0
  m_realtime_game_start := 0
  m_realtime_last_tick := 0
  m_prev_finalized_game_tick_id := 0
  m_prev_finalized_game_tick := demoState
  m_inputs_since_prev_finalized_game_tick := []
  m_prev_predicted_game_tick := demoState
  m_prev_drawable_worldstate := demoState
  m_prev_drawable_worldstate_timepoint := 0
  SubtickSteps := []
  prevSubtickSteps := []
  uid_calls := 0

/-- The driver after `Start(step = 50 ms, timescale = 1.0, demoState)` at real
time 0. -/
def demoStarted : CsgoGame :=
  match CsgoGame.Start demoEnv 0 demoUnstarted (1 / 20) 1 demoState with
  | .ok g => g
  | _ => demoUnstarted

/-- The started driver after a sample at 10 ms that is not subtick-precise. -/
def demoAfterFirst : CsgoGame :=
  match demoStarted.ProcessNewPlayerInput demoEnv 2 (demoInput 10000000 0 false) false with
  | .ok g => g
  | _ => demoUnstarted

/-- The driver of `demoAfterFirst` after a second such sample at 30 ms. -/
def demoAfterSecond : CsgoGame :=
  match demoAfterFirst.ProcessNewPlayerInput demoEnv 2 (demoInput 30000000 0 false) false with
  | .ok g => g
  | _ => demoUnstarted

/-- The started driver after a subtick-precise sample at 20 ms that holds
forward and carries a scroll-wheel jump. -/
def demoAfterSubtick : CsgoGame :=
  match demoStarted.ProcessNewPlayerInput demoEnv 2 (demoInput 20000000 8 true) true with
  | .ok g => g
  | _ => demoUnstarted

/-- The state `demoState` with a detonated projectile 4 and a live projectile 5. -/
def demoArmed : WorldState :=
  { demoState with bumpmine_projectiles :=
      [{ demoProjectile 4 ⟨0, 0, 0⟩ with has_detonated := true }, demoProjectile 5 ⟨1, 1, 1⟩] }

/-- The state `demoArmed` after one full step of `1/64` with the attack button held. -/
def demoTick1 : WorldState :=
  match demoArmed.AdvanceSimulation demoEnv 0 (1 / 64) [demoInput 5 1 false] [] 1 with
  | .returned s _ _ => s
  | .aborted s => s

/-- The driver `demoAfterSubtick`, whose ledger holds two entries, after
`Start(step = 50 ms, timescale = 1.0, demoState)` is called again at real time 0. -/
def demoRestarted : CsgoGame :=
  match CsgoGame.Start demoEnv 0 demoAfterSubtick (1 / 20) 1 demoState with
  | .ok g => g
  | _ => demoUnstarted

/-- The driver `demoRestarted` after a sample at 60 ms that holds no button and
is not subtick-precise. -/
def demoRestartedNext : CsgoGame :=
  match demoRestarted.ProcessNewPlayerInput demoEnv 2 (demoInput 60000000 0 false) false with
  | .ok g => g
  | _ => demoUnstarted

/-- The driver after `Start(step = 1/64 s, timescale = 10^9, demoState)` at real
time 0. -/
def demoFastForward : CsgoGame :=
  match CsgoGame.Start demoEnv 0 demoUnstarted (1 / 64) 1000000000 demoState with
  | .ok g => g
  | _ => demoUnstarted

/-- The started driver after a subtick-precise sample holding forward exactly
at the next tick boundary, 50 ms. -/
def demoAfterBoundary : CsgoGame :=
  match demoStarted.ProcessNewPlayerInput demoEnv 2 (demoInput 50000000 8 false) true with
  | .ok g => g
  | _ => demoUnstarted

/-- The started driver after a subtick-precise sample holding forward that was
taken 10 ms before the start. -/
def demoAfterEarly : CsgoGame :=
  match demoStarted.ProcessNewPlayerInput demoEnv 2 (demoInput (-10000000) 8 false) true with
  | .ok g => g
  | _ => demoUnstarted

/-- The started driver after a subtick-precise sample at 20 ms holding forward
and then a sample at 30 ms, not subtick-precise, holding nothing. -/
def demoMixed : CsgoGame :=
  match processInputs demoEnv 2 demoStarted
      [(demoInput 20000000 8 false, true), (demoInput 30000000 0 false, false)] with
  | .ok g => g
  | _ => demoUnstarted

/-- The started driver after two subtick-precise samples: at 20 ms forward with
a scroll-wheel jump, at 50 ms nothing held. -/
def demoTwoSubticks : CsgoGame :=
  match processInputs demoEnv 2 demoStarted
      [(demoInput 20000000 8 true, true), (demoInput 50000000 0 false, true)] with
  | .ok g => g
  | _ => demoUnstarted

/-- Three samples for the driver started at 0 with a 50 ms tick: a
subtick-precise one at 20 ms (forward, scroll-wheel jump), one at 30 ms that is
not subtick-precise (nothing held), a subtick-precise one at 110 ms (attack). -/
def demoSamples : List (PlayerInputState × Bool) :=
  [(demoInput 20000000 8 true, true), (demoInput 30000000 0 false, false),
    (demoInput 110000000 1 false, true)]

/-- The driver started at 0 with a 50 ms tick after the three samples of
`demoSamples`. -/
def demoAfterSamples : CsgoGame :=
  match processInputs demoEnv 3 demoStarted demoSamples with
  | .ok g => g
  | _ => demoUnstarted

/-! ## Statement helpers -/

/-- The three preconditions asserted at the top of `AdvanceSimulation`. -/
def AdvancePre (self : WorldState) (SubtickSteps : List CsgoSubtickStep) (fraction : ℚ) : Prop :=
  self.is_interpolated = false ∧ fraction ≤ 1 ∧
    ∀ last, SubtickSteps.getLast? = some last → last.when ≤ fraction

/-- The state an `AdvanceSimulation` call ends with, aborted or not. -/
def AdvanceResult.finalState : AdvanceResult → WorldState
  | .aborted s => s
  | .returned s _ _ => s

/-- Whether the call ended in a fired assertion. -/
def AdvanceResult.failed : AdvanceResult → Bool
  | .aborted _ => true
  | .returned _ _ _ => false

/-- The invocations of the movement integrator made by the call. -/
def AdvanceResult.moveCalls : AdvanceResult → List MoveCall
  | .aborted _ => []
  | .returned _ moves _ => moves

/-- The bitmask of the last ledger entry, or `b` for an empty ledger. -/
def lastMask (b : Nat) (steps : List CsgoSubtickStep) : Nat :=
  match steps.getLast? with
  | none => b
  | some last => last.inputBitmask

/-- The offset of the last ledger entry, or `p` for an empty ledger. -/
def lastWhen (p : ℚ) (steps : List CsgoSubtickStep) : ℚ :=
  match steps.getLast? with
  | none => p
  | some last => last.when

/-- `N` consecutive full advances (`fraction` 1) with no buffered input and an
empty ledger, each on the state the previous one left. -/
def advanceFullTicks (env : Env) (T : ℚ) : Nat → Nat → WorldState → AdvanceResult
  | 0, uid, s => .returned s [] uid
  | N + 1, uid, s =>
      match s.AdvanceSimulation env uid T [] [] 1 with
      | .aborted s' => .aborted s'
      | .returned s' _ uid' => advanceFullTicks env T N uid' s'

/-- Conditions under which a call `ProcessNewPlayerInput(new_input, subticked)`
runs to its end: the driver is started with a positive tick interval, the fuel
covers the catch-up loop, the new sample is not older than a buffered one, the
finalized state is not interpolated, the last ledger offset is at most 1 and,
for a subtick-precise sample, not later than the sample, and for any other
sample the previous drawable state is not ahead of the next tick. -/
def DriverReady (g : CsgoGame) (new_input : PlayerInputState) (subticked : Bool)
    (fuel : Nat) : Prop :=
  g.HasBeenStarted = true ∧
  0 < g.m_realtime_game_tick_interval ∧
  0 < fuel ∧
  new_input.sample_time - g.m_realtime_last_tick ≤ fuel * g.m_realtime_game_tick_interval ∧
  (∀ other ∈ g.m_inputs_since_prev_finalized_game_tick,
    other.sample_time ≤ new_input.sample_time) ∧
  g.m_prev_finalized_game_tick.is_interpolated = false ∧
  (∀ last, g.SubtickSteps.getLast? = some last →
    last.when ≤ 1 ∧
    (subticked = true → last.when * (g.m_realtime_game_tick_interval : ℚ) ≤
      ((new_input.sample_time - g.m_realtime_last_tick : Int) : ℚ))) ∧
  (subticked = false → g.m_prev_drawable_worldstate.simtime ≤
    g.m_prev_finalized_game_tick.simtime + g.m_simtime_step_size)

/-- The ledger that a call of `ProcessNewPlayerInput` appends to, read off the
driver before (`g`) and after (`g'`) the call: the old ledger when the call
finalized no tick, the empty ledger otherwise. -/
def ledgerAfterFinalize (g g' : CsgoGame) : List CsgoSubtickStep :=
  if g'.m_prev_finalized_game_tick_id = g.m_prev_finalized_game_tick_id then g.SubtickSteps
  else []

/-- The offset given to a ledger entry written for the sample `new_input`: the
part of the tick interval elapsed since the tick boundary of `g'` when the
sample is subtick-precise, 0 otherwise. -/
def sampleOffset (g' : CsgoGame) (new_input : PlayerInputState) (subticked : Bool) : ℚ :=
  if subticked then
    ((new_input.sample_time - g'.m_realtime_last_tick : Int) : ℚ) /
      (g'.m_realtime_game_tick_interval : ℚ)
  else 0

/-- The button mask that lines 131-136 of `AdvanceSimulation` leave in the
movement state: the buttons of the resolved input, with `IN_JUMP` added when the
resolved input carries a scroll-wheel jump and the move type is not noclip. -/
def resolvedButtons (env : Env) (self : WorldState) (chro_input : List PlayerInputState) : Nat :=
  if (resolveInput self.prev_input chro_input).scrollwheel_jumped ∧
      self.csgo_mv.m_MoveType ≠ env.MOVETYPE_NOCLIP then
    (resolveInput self.prev_input chro_input).nButtons ||| env.IN_JUMP
  else (resolveInput self.prev_input chro_input).nButtons

/-- The projectile that line 161-169 of `AdvanceSimulation` create on the world
`w`, with the id handed out by the call number `uid_calls` of the generator. -/
def thrownBumpmine (env : Env) (uid_calls : Nat) (w : WorldState) : BumpmineProjectile :=
  { unique_id := env.GenerateNewUniqueID uid_calls
    position := Vector3.add (Vector3.add w.csgo_mv.m_vecAbsOrigin w.csgo_mv.m_vecViewOffset)
      ⟨0, 0, - env.CSGO_BUMP_THROW_SPAWN_OFFSET⟩
    velocity := Vector3.add w.csgo_mv.m_vecVelocity
      (Vector3.smul env.CSGO_BUMP_THROW_SPEED (env.AnglesToVectors w.csgo_mv.m_vecViewAngles))
    has_detonated := false }

/-- The world state on which the segment loop of a call starts (lines 93-171
done): the time point advanced, the resolved input applied, the detonated
projectiles erased, the others advanced, a Bump Mine thrown on attack. -/
def stateBeforeSegments (env : Env) (uid_calls : Nat) (self : WorldState) (T : ℚ)
    (chro_input : List PlayerInputState) : WorldState :=
  (simulateEntities env T uid_calls
    (applyInput env { self with simtime := self.simtime + T } chro_input)).1

/-- The movement state that `PlayerMove` is invoked on for a segment run with
the button mask `buttons`, from the movement state `mv` left by the segment
before: the mask and the loadout are stored, the forward wish speed is
`cl_forwardspeed` when forward is held less `cl_backspeed` when back is held,
the side wish speed likewise for right and left, the crop flag is reset and the
maximum speed is the running speed of the loadout. -/
def segmentSetup (env : Env) (loadout buttons : Nat) (mv : CsgoMovement) : CsgoMovement :=
  { mv with
    m_nButtons := buttons
    m_loadout := loadout
    m_flForwardMove :=
      (if buttons &&& env.IN_FORWARD ≠ 0 then env.cl_forwardspeed else 0) -
        (if buttons &&& env.IN_BACK ≠ 0 then env.cl_backspeed else 0)
    m_flSideMove :=
      (if buttons &&& env.IN_MOVERIGHT ≠ 0 then env.cl_sidespeed else 0) -
        (if buttons &&& env.IN_MOVELEFT ≠ 0 then env.cl_sidespeed else 0)
    m_iSpeedCropped := env.SPEED_CROPPED_RESET
    m_flMaxSpeed := env.GetMaxPlayerRunningSpeed loadout }

/-- One movement segment `(time slice, button mask)` run on the movement state
`mv`: `PlayerMove(time slice)` on the state set up for the mask, then
`FinishMove()`. -/
def integrateSegment (env : Env) (loadout : Nat) (mv : CsgoMovement) (seg : ℚ × Nat) :
    CsgoMovement :=
  env.FinishMove (env.PlayerMove seg.1 (segmentSetup env loadout seg.2 mv))

/-- The segments `(time slice, button mask)` of a call in order: the slices
`(w (i+1) - w i) * T` over the ledger offsets extended by `0` in front and `f`
behind, each with the mask `buttons` for the first one and the bitmask of the
ledger entry it starts at for the others. -/
def segmentsOf (T : ℚ) (buttons : Nat) (steps : List CsgoSubtickStep) (f : ℚ) : List (ℚ × Nat) :=
  List.zip
    (List.zipWith (fun a b => (b - a) * T) (0 :: steps.map CsgoSubtickStep.when)
      (steps.map CsgoSubtickStep.when ++ [f]))
    (buttons :: steps.map CsgoSubtickStep.inputBitmask)

/-- The invocations of `PlayerMove` made when the segments `segs` are run one
after the other from the movement state `mv`: each one gets the time slice of
its segment and is made on the state that the segments before it left, set up
for the mask of its segment. -/
def moveLog (env : Env) (loadout : Nat) : CsgoMovement → List (ℚ × Nat) → List MoveCall
  | _, [] => []
  | mv, seg :: rest =>
      { time_delta := seg.1, mv := segmentSetup env loadout seg.2 mv } ::
        moveLog env loadout (integrateSegment env loadout mv seg) rest

/-- The sample times of a sequence of calls are non-decreasing and none is
earlier than `t0`. -/
def samplesOrdered : Int → List (PlayerInputState × Bool) → Prop
  | _, [] => True
  | t0, (new_input, _) :: rest =>
      t0 ≤ new_input.sample_time ∧ samplesOrdered new_input.sample_time rest

/-- What holds of the driver between the calls of a sequence whose latest
sample was taken at `tlast`: it is started with a tick interval above 0, the
tick boundary and the buffered samples are not later than `tlast`, the finalized
state is not interpolated, the last ledger offset is at most 1 and not later
than `tlast`, and the drawable state is not ahead of the next tick. -/
def DriverInv (g : CsgoGame) (tlast : Int) : Prop :=
  g.HasBeenStarted = true ∧
  0 < g.m_realtime_game_tick_interval ∧
  g.m_realtime_last_tick ≤ tlast ∧
  (∀ other ∈ g.m_inputs_since_prev_finalized_game_tick, other.sample_time ≤ tlast) ∧
  g.m_prev_finalized_game_tick.is_interpolated = false ∧
  (∀ last, g.SubtickSteps.getLast? = some last →
    last.when ≤ 1 ∧
    last.when * (g.m_realtime_game_tick_interval : ℚ) ≤
      ((tlast - g.m_realtime_last_tick : Int) : ℚ)) ∧
  g.m_prev_drawable_worldstate.simtime ≤
    g.m_prev_finalized_game_tick.simtime + g.m_simtime_step_size

/-! ## Lemmas on the segment loop -/

theorem lastMask_cons (b : Nat) (s : CsgoSubtickStep) (r : List CsgoSubtickStep) :
    lastMask b (s :: r) = lastMask s.inputBitmask r := by
  cases r with
  | nil => simp [lastMask]
  | cons t r =>
    rw [lastMask, lastMask, List.getLast?_cons_cons]
    cases h : (t :: r).getLast? with
    | none => simp at h
    | some l => rfl

theorem lastWhen_cons (p : ℚ) (s : CsgoSubtickStep) (r : List CsgoSubtickStep) :
    lastWhen p (s :: r) = lastWhen s.when r := by
  cases r with
  | nil => simp [lastWhen]
  | cons t r =>
    rw [lastWhen, lastWhen, List.getLast?_cons_cons]
    cases h : (t :: r).getLast? with
    | none => simp at h
    | some l => rfl

theorem moveSegment_call (env : Env) (player : Player) (T : ℚ) (mv : CsgoMovement) (d : ℚ) :
    (moveSegment env player T mv d).2.time_delta = T * d ∧
      (moveSegment env player T mv d).2.buttons = mv.m_nButtons := by
  simp [moveSegment, MoveCall.buttons]

theorem subtickSegments_used_input (env : Env) (player : Player) (T : ℚ)
    (steps : List CsgoSubtickStep) (st : SegmentLoop) :
    (subtickSegments env player T steps st).used_input =
      { st.used_input with nButtons := lastMask st.used_input.nButtons steps } := by
  induction steps generalizing st with
  | nil => simp [subtickSegments, lastMask]
  | cons s r ih => rw [subtickSegments, ih, lastMask_cons]

theorem subtickSegments_prev_when (env : Env) (player : Player) (T : ℚ)
    (steps : List CsgoSubtickStep) (st : SegmentLoop) :
    (subtickSegments env player T steps st).prev_when = lastWhen st.prev_when steps := by
  induction steps generalizing st with
  | nil => simp [subtickSegments, lastWhen]
  | cons s r ih => rw [subtickSegments, ih, lastWhen_cons]

theorem subtickSegments_moves (env : Env) (player : Player) (T : ℚ)
    (steps : List CsgoSubtickStep) (st : SegmentLoop) (f : ℚ) :
    ((subtickSegments env player T steps st).moves.map MoveCall.time_delta ++
        [T * (f - (subtickSegments env player T steps st).prev_when)] =
      st.moves.map MoveCall.time_delta ++
        List.zipWith (fun a b => (b - a) * T) (st.prev_when :: steps.map CsgoSubtickStep.when)
          (steps.map CsgoSubtickStep.when ++ [f])) ∧
    ((subtickSegments env player T steps st).moves.map MoveCall.buttons ++
        [(subtickSegments env player T steps st).used_input.nButtons] =
      st.moves.map MoveCall.buttons ++
        st.used_input.nButtons :: steps.map CsgoSubtickStep.inputBitmask) := by
  induction steps generalizing st with
  | nil => simp [subtickSegments, mul_comm]
  | cons s r ih =>
    rw [subtickSegments]
    obtain ⟨h1, h2⟩ := ih
      { csgo_mv := (moveSegment env player T
          { st.csgo_mv with m_nButtons := st.used_input.nButtons } (s.when - st.prev_when)).1
        used_input := { st.used_input with nButtons := s.inputBitmask }
        prev_when := s.when
        moves := st.moves ++ [(moveSegment env player T
          { st.csgo_mv with m_nButtons := st.used_input.nButtons } (s.when - st.prev_when)).2] }
    constructor
    · rw [h1]
      simp [(moveSegment_call env player T _ _).1, mul_comm]
    · rw [h2]
      simp [(moveSegment_call env player T _ _).2]

theorem moveSegment_eq (env : Env) (player : Player) (T : ℚ) (mv : CsgoMovement) (b : Nat)
    (d : ℚ) :
    moveSegment env player T { mv with m_nButtons := b } d =
      (integrateSegment env player.loadout mv (d * T, b),
        { time_delta := d * T, mv := segmentSetup env player.loadout b mv }) := by
  have hset : segmentSetup env player.loadout b mv =
      { mv with
        m_nButtons := b
        m_loadout := player.loadout
        m_flForwardMove :=
          if b &&& env.IN_BACK ≠ 0 then
            (if b &&& env.IN_FORWARD ≠ 0 then (0 : ℚ) + env.cl_forwardspeed else 0) -
              env.cl_backspeed
          else (if b &&& env.IN_FORWARD ≠ 0 then (0 : ℚ) + env.cl_forwardspeed else 0)
        m_flSideMove :=
          if b &&& env.IN_MOVELEFT ≠ 0 then
            (if b &&& env.IN_MOVERIGHT ≠ 0 then (0 : ℚ) + env.cl_sidespeed else 0) -
              env.cl_sidespeed
          else (if b &&& env.IN_MOVERIGHT ≠ 0 then (0 : ℚ) + env.cl_sidespeed else 0)
        m_iSpeedCropped := env.SPEED_CROPPED_RESET
        m_flMaxSpeed := env.GetMaxPlayerRunningSpeed player.loadout } := by
    unfold segmentSetup
    split_ifs <;> simp
  unfold moveSegment integrateSegment
  rw [hset, mul_comm T d]

theorem subtickSegments_run (env : Env) (player : Player) (T : ℚ)
    (steps : List CsgoSubtickStep) (st : SegmentLoop) (f : ℚ) :
    (moveSegment env player T
        { (subtickSegments env player T steps st).csgo_mv with
          m_nButtons := (subtickSegments env player T steps st).used_input.nButtons }
        (f - (subtickSegments env player T steps st).prev_when)).1 =
      (List.zip
        (List.zipWith (fun a b => (b - a) * T) (st.prev_when :: steps.map CsgoSubtickStep.when)
          (steps.map CsgoSubtickStep.when ++ [f]))
        (st.used_input.nButtons :: steps.map CsgoSubtickStep.inputBitmask)).foldl
        (integrateSegment env player.loadout) st.csgo_mv ∧
    (subtickSegments env player T steps st).moves ++
        [(moveSegment env player T
          { (subtickSegments env player T steps st).csgo_mv with
            m_nButtons := (subtickSegments env player T steps st).used_input.nButtons }
          (f - (subtickSegments env player T steps st).prev_when)).2] =
      st.moves ++ moveLog env player.loadout st.csgo_mv
        (List.zip
          (List.zipWith (fun a b => (b - a) * T) (st.prev_when :: steps.map CsgoSubtickStep.when)
            (steps.map CsgoSubtickStep.when ++ [f]))
          (st.used_input.nButtons :: steps.map CsgoSubtickStep.inputBitmask)) := by
  induction steps generalizing st with
  | nil =>
    simp only [subtickSegments, List.map_nil, List.nil_append, List.zipWith_cons_cons,
      List.zipWith_nil_right, List.zip_cons_cons, List.zip_nil_right, List.foldl_cons,
      List.foldl_nil, moveLog, moveSegment_eq]
    exact ⟨trivial, trivial⟩
  | cons s r ih =>
    rw [subtickSegments]
    obtain ⟨h1, h2⟩ := ih
      { csgo_mv := (moveSegment env player T
          { st.csgo_mv with m_nButtons := st.used_input.nButtons } (s.when - st.prev_when)).1
        used_input := { st.used_input with nButtons := s.inputBitmask }
        prev_when := s.when
        moves := st.moves ++ [(moveSegment env player T
          { st.csgo_mv with m_nButtons := st.used_input.nButtons } (s.when - st.prev_when)).2] }
    constructor
    · rw [h1]
      simp only [List.map_cons, List.cons_append, List.zipWith_cons_cons, List.zip_cons_cons,
        List.foldl_cons, moveSegment_eq]
    · rw [h2]
      simp only [List.map_cons, List.cons_append, List.zipWith_cons_cons, List.zip_cons_cons,
        moveLog, moveSegment_eq, List.append_assoc, List.singleton_append]
      rfl

/-! ## Lemmas on `AdvanceSimulation` -/

theorem simulateProjectiles_frame (env : Env) (T : ℚ) (todo : List BumpmineProjectile)
    (w : WorldState) (done : List BumpmineProjectile) :
    (simulateProjectiles env T w done todo).simtime = w.simtime ∧
      (simulateProjectiles env T w done todo).is_interpolated = w.is_interpolated ∧
      (simulateProjectiles env T w done todo).prev_input = w.prev_input ∧
      (simulateProjectiles env T w done todo).player = w.player := by
  induction todo generalizing w done with
  | nil => simp [simulateProjectiles]
  | cons bm rest ih =>
    rw [simulateProjectiles]
    exact ih _ _

theorem spawnBumpmine_frame (env : Env) (T : ℚ) (uid : Nat) (w : WorldState) :
    (spawnBumpmine env T uid w).1.simtime = w.simtime ∧
      (spawnBumpmine env T uid w).1.is_interpolated = w.is_interpolated ∧
      (spawnBumpmine env T uid w).1.prev_input = w.prev_input ∧
      (spawnBumpmine env T uid w).1.csgo_mv = w.csgo_mv := by
  unfold spawnBumpmine
  split_ifs <;> simp

theorem simulateEntities_frame (env : Env) (T : ℚ) (uid : Nat) (w : WorldState) :
    (simulateEntities env T uid w).1.simtime = w.simtime ∧
      (simulateEntities env T uid w).1.is_interpolated = w.is_interpolated ∧
      (simulateEntities env T uid w).1.prev_input = w.prev_input := by
  unfold simulateEntities
  refine ⟨?_, ?_, ?_⟩
  · rw [(spawnBumpmine_frame env T uid _).1, (simulateProjectiles_frame env T _ _ _).1]
  · rw [(spawnBumpmine_frame env T uid _).2.1, (simulateProjectiles_frame env T _ _ _).2.1]
  · rw [(spawnBumpmine_frame env T uid _).2.2.1, (simulateProjectiles_frame env T _ _ _).2.2.1]

theorem segmentLoop_frame (env : Env) (T : ℚ) (steps : List CsgoSubtickStep) (f : ℚ)
    (w : WorldState) :
    (segmentLoop env T steps f w).1.simtime = w.simtime ∧
      (segmentLoop env T steps f w).1.is_interpolated = w.is_interpolated ∧
      (segmentLoop env T steps f w).1.player = w.player ∧
      (segmentLoop env T steps f w).1.bumpmine_projectiles = w.bumpmine_projectiles := by
  simp [segmentLoop]

theorem segmentLoop_prev_input (env : Env) (T : ℚ) (steps : List CsgoSubtickStep) (f : ℚ)
    (w : WorldState) :
    (segmentLoop env T steps f w).1.prev_input =
      if f = 1 then { w.prev_input with nButtons := lastMask w.prev_input.nButtons steps }
      else w.prev_input := by
  simp only [segmentLoop]
  rw [subtickSegments_used_input]

theorem segmentLoop_moves (env : Env) (T : ℚ) (steps : List CsgoSubtickStep) (f : ℚ)
    (w : WorldState) :
    (segmentLoop env T steps f w).2.map MoveCall.time_delta =
        List.zipWith (fun a b => (b - a) * T) (0 :: steps.map CsgoSubtickStep.when)
          (steps.map CsgoSubtickStep.when ++ [f]) ∧
      (segmentLoop env T steps f w).2.map MoveCall.buttons =
        w.prev_input.nButtons :: steps.map CsgoSubtickStep.inputBitmask := by
  have h := subtickSegments_moves env w.player T steps
    { csgo_mv := w.csgo_mv, used_input := w.prev_input, prev_when := 0, moves := [] } f
  simp only [List.map_nil, List.nil_append] at h
  simp only [segmentLoop, List.map_append, List.map_cons, List.map_nil,
    (moveSegment_call env _ T _ _).1, (moveSegment_call env _ T _ _).2]
  exact h

theorem applyInput_frame (env : Env) (w : WorldState) (chro : List PlayerInputState) :
    (applyInput env w chro).simtime = w.simtime ∧
      (applyInput env w chro).is_interpolated = w.is_interpolated ∧
      (applyInput env w chro).prev_input = w.prev_input := by
  simp [applyInput]

theorem advanceLoaded_frame (env : Env) (uid : Nat) (w1 : WorldState) (T : ℚ)
    (chro : List PlayerInputState) (steps : List CsgoSubtickStep) (f : ℚ) :
    (advanceLoaded env uid w1 T chro steps f).1.simtime = w1.simtime ∧
      (advanceLoaded env uid w1 T chro steps f).1.is_interpolated = w1.is_interpolated := by
  simp only [advanceLoaded]
  refine ⟨?_, ?_⟩
  · rw [(segmentLoop_frame env T steps f _).1, (simulateEntities_frame env T uid _).1,
      (applyInput_frame env w1 chro).1]
  · rw [(segmentLoop_frame env T steps f _).2.1, (simulateEntities_frame env T uid _).2.1,
      (applyInput_frame env w1 chro).2.1]

theorem advanceLoaded_prev_input (env : Env) (uid : Nat) (w1 : WorldState) (T : ℚ)
    (chro : List PlayerInputState) (steps : List CsgoSubtickStep) (f : ℚ) :
    (advanceLoaded env uid w1 T chro steps f).1.prev_input =
      if f = 1 then { w1.prev_input with nButtons := lastMask w1.prev_input.nButtons steps }
      else w1.prev_input := by
  simp only [advanceLoaded]
  rw [segmentLoop_prev_input, (simulateEntities_frame env T uid _).2.2,
    (applyInput_frame env w1 chro).2.2]

theorem advanceLoaded_moves (env : Env) (uid : Nat) (w1 : WorldState) (T : ℚ)
    (chro : List PlayerInputState) (steps : List CsgoSubtickStep) (f : ℚ) :
    (advanceLoaded env uid w1 T chro steps f).2.1.map MoveCall.time_delta =
        List.zipWith (fun a b => (b - a) * T) (0 :: steps.map CsgoSubtickStep.when)
          (steps.map CsgoSubtickStep.when ++ [f]) ∧
      (advanceLoaded env uid w1 T chro steps f).2.1.map MoveCall.buttons =
        w1.prev_input.nButtons :: steps.map CsgoSubtickStep.inputBitmask := by
  simp only [advanceLoaded]
  have h := segmentLoop_moves env T steps f
    (simulateEntities env T uid (applyInput env w1 chro)).1
  rw [(simulateEntities_frame env T uid _).2.2, (applyInput_frame env w1 chro).2.2] at h
  exact h

theorem segmentLoop_run (env : Env) (T : ℚ) (steps : List CsgoSubtickStep) (f : ℚ)
    (w : WorldState) :
    (segmentLoop env T steps f w).1.csgo_mv =
        (segmentsOf T w.prev_input.nButtons steps f).foldl
          (integrateSegment env w.player.loadout) w.csgo_mv ∧
      (segmentLoop env T steps f w).2 =
        moveLog env w.player.loadout w.csgo_mv (segmentsOf T w.prev_input.nButtons steps f) := by
  have h := subtickSegments_run env w.player T steps
    { csgo_mv := w.csgo_mv, used_input := w.prev_input, prev_when := 0, moves := [] } f
  simp only [List.nil_append] at h
  exact ⟨h.1, h.2⟩

theorem stateBeforeSegments_frame (env : Env) (uid : Nat) (self : WorldState) (T : ℚ)
    (chro : List PlayerInputState) :
    (stateBeforeSegments env uid self T chro).prev_input = self.prev_input ∧
      (stateBeforeSegments env uid self T chro).player.loadout = self.player.loadout := by
  unfold stateBeforeSegments
  refine ⟨?_, ?_⟩
  · rw [(simulateEntities_frame env T uid _).2.2, (applyInput_frame env _ chro).2.2]
  · unfold simulateEntities
    have h1 : ∀ w : WorldState, (spawnBumpmine env T uid w).1.player.loadout = w.player.loadout := by
      intro w
      unfold spawnBumpmine
      split_ifs <;> rfl
    rw [h1, (simulateProjectiles_frame env T _ _ _).2.2.2]
    rfl

theorem advanceLoaded_run (env : Env) (uid : Nat) (self : WorldState) (T : ℚ)
    (chro : List PlayerInputState) (steps : List CsgoSubtickStep) (f : ℚ) :
    (advanceLoaded env uid { self with simtime := self.simtime + T } T chro steps f).1.csgo_mv =
        (segmentsOf T self.prev_input.nButtons steps f).foldl
          (integrateSegment env self.player.loadout)
          (stateBeforeSegments env uid self T chro).csgo_mv ∧
      (advanceLoaded env uid { self with simtime := self.simtime + T } T chro steps f).2.1 =
        moveLog env self.player.loadout (stateBeforeSegments env uid self T chro).csgo_mv
          (segmentsOf T self.prev_input.nButtons steps f) := by
  have h := segmentLoop_run env T steps f (stateBeforeSegments env uid self T chro)
  rw [(stateBeforeSegments_frame env uid self T chro).1,
    (stateBeforeSegments_frame env uid self T chro).2] at h
  exact h

theorem segmentsOf_slices (T : ℚ) (b : Nat) (steps : List CsgoSubtickStep) (f : ℚ) :
    (segmentsOf T b steps f).map Prod.fst =
      List.zipWith (fun a b => (b - a) * T) (0 :: steps.map CsgoSubtickStep.when)
        (steps.map CsgoSubtickStep.when ++ [f]) := by
  unfold segmentsOf
  apply List.map_fst_zip
  simp

theorem moveLog_chain (env : Env) (loadout : Nat) (segs : List (ℚ × Nat)) (mv : CsgoMovement) :
    (∀ c, (moveLog env loadout mv segs).head? = some c →
      c.mv = segmentSetup env loadout c.buttons mv) ∧
    (∀ (i : Nat) (c c' : MoveCall), (moveLog env loadout mv segs)[i]? = some c →
      (moveLog env loadout mv segs)[i + 1]? = some c' →
      c'.mv = segmentSetup env loadout c'.buttons
        (env.FinishMove (env.PlayerMove c.time_delta c.mv))) ∧
    (∀ c, (moveLog env loadout mv segs).getLast? = some c →
      segs.foldl (integrateSegment env loadout) mv =
        env.FinishMove (env.PlayerMove c.time_delta c.mv)) := by
  induction segs generalizing mv with
  | nil =>
    refine ⟨?_, ?_, ?_⟩
    · intro c h; simp [moveLog] at h
    · intro i c c' h; simp [moveLog] at h
    · intro c h; simp [moveLog] at h
  | cons seg rest ih =>
    obtain ⟨ih1, ih2, ih3⟩ := ih (integrateSegment env loadout mv seg)
    refine ⟨?_, ?_, ?_⟩
    · intro c h
      rw [moveLog, List.head?_cons] at h
      cases h
      rfl
    · intro i c c' h h'
      rw [moveLog] at h h'
      rw [List.getElem?_cons_succ] at h'
      cases i with
      | zero =>
        rw [List.getElem?_cons_zero] at h
        cases h
        rw [← List.head?_eq_getElem?] at h'
        exact ih1 c' h'
      | succ j =>
        rw [List.getElem?_cons_succ] at h
        exact ih2 j c c' h h'
    · intro c h
      rw [List.foldl_cons]
      cases rest with
      | nil =>
        simp only [moveLog, List.getLast?_singleton] at h
        cases h
        rfl
      | cons seg' rest' =>
        rw [moveLog, moveLog, List.getLast?_cons_cons, ← moveLog] at h
        exact ih3 c h

theorem integrateSegments_elapsed (env : Env) (loadout : Nat) (elapsed : CsgoMovement → ℚ)
    (hmove : ∀ dt mv, elapsed (env.PlayerMove dt mv) = elapsed mv + dt)
    (hfinish : ∀ mv, elapsed (env.FinishMove mv) = elapsed mv)
    (hsetup : ∀ b mv, elapsed (segmentSetup env loadout b mv) = elapsed mv)
    (segs : List (ℚ × Nat)) (mv : CsgoMovement) :
    elapsed (segs.foldl (integrateSegment env loadout) mv) =
      elapsed mv + (segs.map Prod.fst).sum := by
  induction segs generalizing mv with
  | nil => simp
  | cons seg rest ih =>
    rw [List.foldl_cons, ih, List.map_cons, List.sum_cons, integrateSegment, hfinish, hmove,
      hsetup]
    ring

theorem AdvanceSimulation_of_pre (env : Env) (uid : Nat) (self : WorldState) (T : ℚ)
    (chro : List PlayerInputState) (steps : List CsgoSubtickStep) (f : ℚ)
    (h : AdvancePre self steps f) :
    self.AdvanceSimulation env uid T chro steps f =
      if env.g_coll_world = true then
        .returned (advanceLoaded env uid { self with simtime := self.simtime + T } T chro steps f).1
          (advanceLoaded env uid { self with simtime := self.simtime + T } T chro steps f).2.1
          (advanceLoaded env uid { self with simtime := self.simtime + T } T chro steps f).2.2
      else .returned { self with simtime := self.simtime + T } [] uid := by
  obtain ⟨h1, h2, h3⟩ := h
  unfold WorldState.AdvanceSimulation
  rw [if_neg (by simp [h1]), if_neg (by simpa using h2)]
  have h4 : (match steps.getLast? with
      | some last => decide (¬ (last.when ≤ f))
      | none => false) = false := by
    cases hl : steps.getLast? with
    | none => rfl
    | some last => simpa using h3 last hl
  rw [if_neg (by rw [h4]; simp)]
  by_cases hw : env.g_coll_world = true <;> simp [hw]

theorem AdvanceSimulation_of_not_pre (env : Env) (uid : Nat) (self : WorldState) (T : ℚ)
    (chro : List PlayerInputState) (steps : List CsgoSubtickStep) (f : ℚ)
    (h : ¬ AdvancePre self steps f) :
    self.AdvanceSimulation env uid T chro steps f = .aborted self := by
  unfold WorldState.AdvanceSimulation
  by_cases h1 : self.is_interpolated = true
  · rw [if_pos h1]
  · rw [if_neg h1]
    by_cases h2 : f ≤ 1
    · rw [if_neg (by simpa using h2)]
      cases hl : steps.getLast? with
      | none =>
        exact absurd ⟨by simpa using h1, h2, by simp [hl]⟩ h
      | some last =>
        by_cases h3 : last.when ≤ f
        · refine absurd ⟨by simpa using h1, h2, ?_⟩ h
          intro l hl2
          rw [hl] at hl2
          cases hl2
          exact h3
        · simp [h3]
    · rw [if_pos (by simpa using h2)]

/-! ## Claims on `AdvanceSimulation` -/

/-- C1: on a non-interpolated state with a map loaded, for every step duration
`T`, every ledger of `n` entries and every fraction `f ≤ 1` not below the last
offset, `AdvanceSimulation` returns after exactly `n + 1` invocations of the
movement integrator; the time slices are `(w (i+1) - w i) * T` for the offsets
`w` of the ledger extended by `0` in front and `f` behind, and the button masks
are the one of `prev_input` followed by the bitmasks of the ledger entries.
The invocations act on the state: the first one is made on the movement state
that the entity pass leaves, set up for its mask; each later one on the result
of `FinishMove` after the `PlayerMove` before it, set up for its mask; and the
movement state of the returned world is the result of `FinishMove` after the
last `PlayerMove`, that is, the `n + 1` segments run in order. -/
theorem AdvanceSimulation_segments (env : Env) (uid : Nat) (self : WorldState) (T : ℚ)
    (chro : List PlayerInputState) (steps : List CsgoSubtickStep) (f : ℚ)
    (hworld : env.g_coll_world = true) (hni : self.is_interpolated = false) (hf : f ≤ 1)
    (hlast : ∀ last, steps.getLast? = some last → last.when ≤ f) :
    ∃ s moves uid', self.AdvanceSimulation env uid T chro steps f = .returned s moves uid' ∧
      moves.length = steps.length + 1 ∧
      moves.map MoveCall.time_delta =
        List.zipWith (fun a b => (b - a) * T) (0 :: steps.map CsgoSubtickStep.when)
          (steps.map CsgoSubtickStep.when ++ [f]) ∧
      moves.map MoveCall.buttons =
        self.prev_input.nButtons :: steps.map CsgoSubtickStep.inputBitmask ∧
      (∀ c, moves.head? = some c →
        c.mv = segmentSetup env self.player.loadout c.buttons
          (stateBeforeSegments env uid self T chro).csgo_mv) ∧
      (∀ (i : Nat) (c c' : MoveCall), moves[i]? = some c → moves[i + 1]? = some c' →
        c'.mv = segmentSetup env self.player.loadout c'.buttons
          (env.FinishMove (env.PlayerMove c.time_delta c.mv))) ∧
      (∀ c, moves.getLast? = some c →
        s.csgo_mv = env.FinishMove (env.PlayerMove c.time_delta c.mv)) ∧
      moves = moveLog env self.player.loadout (stateBeforeSegments env uid self T chro).csgo_mv
        (segmentsOf T self.prev_input.nButtons steps f) ∧
      s.csgo_mv = (segmentsOf T self.prev_input.nButtons steps f).foldl
        (integrateSegment env self.player.loadout)
        (stateBeforeSegments env uid self T chro).csgo_mv := by
  rw [AdvanceSimulation_of_pre env uid self T chro steps f ⟨hni, hf, hlast⟩, if_pos hworld]
  obtain ⟨h1, h2⟩ := advanceLoaded_moves env uid { self with simtime := self.simtime + T } T chro
    steps f
  obtain ⟨h3, h4⟩ := advanceLoaded_run env uid self T chro steps f
  obtain ⟨c1, c2, c3⟩ := moveLog_chain env self.player.loadout
    (segmentsOf T self.prev_input.nButtons steps f)
    (stateBeforeSegments env uid self T chro).csgo_mv
  rw [← h4, ← h3] at c3
  rw [← h4] at c1 c2
  refine ⟨_, _, _, rfl, ?_, h1, h2, c1, c2, c3, h4, h3⟩
  have := congrArg List.length h2
  simpa using this

/-- Witness of C1: ledger offsets `[0, 3/10, 7/10]` with fraction 1 give four
segments of `0`, `3/10`, `4/10` and `3/10` of the tick, run with the buttons of
`prev_input` and then of the three entries. With the integrator of
`demoDriftEnv` (x advances by the slice, y counts `FinishMove`) the four
invocations are made at the origins (0, 0), (0, 1), (3/640, 2), (7/640, 3) with
the wish speeds of their masks, and the call ends at (1/64, 4) with the last
mask (move left). -/
theorem AdvanceSimulation_segments_witness :
    ∃ s moves uid',
      demoState.AdvanceSimulation demoDriftEnv 0 (1 / 64) []
        [⟨8, 0, 0⟩, ⟨520, 0, 3 / 10⟩, ⟨512, 0, 7 / 10⟩] 1 = .returned s moves uid' ∧
      moves.length = 4 ∧
      moves.map MoveCall.time_delta =
        [0 * (1 / 64), 3 / 10 * (1 / 64), 4 / 10 * (1 / 64), 3 / 10 * (1 / 64)] ∧
      moves.map MoveCall.buttons = [0, 8, 520, 512] ∧
      moves.map (fun c => c.mv.m_vecAbsOrigin) =
        [⟨0, 0, 0⟩, ⟨0, 1, 0⟩, ⟨3 / 640, 2, 0⟩, ⟨7 / 640, 3, 0⟩] ∧
      moves.map (fun c => (c.mv.m_flForwardMove, c.mv.m_flSideMove)) =
        [(0, 0), (450, 0), (450, -450), (0, -450)] ∧
      s.csgo_mv.m_vecAbsOrigin = ⟨1 / 64, 4, 0⟩ ∧
      s.csgo_mv.m_nButtons = 512 ∧ s.csgo_mv.m_flSideMove = -450 := by
  obtain ⟨s, moves, uid', h, hl, ht, hb, -⟩ :=
    AdvanceSimulation_segments demoDriftEnv 0 demoState (1 / 64) []
      [⟨8, 0, 0⟩, ⟨520, 0, 3 / 10⟩, ⟨512, 0, 7 / 10⟩] 1 rfl rfl (le_refl 1)
      (by intro last hl; simp at hl; subst hl; norm_num)
  have hm : moves = (demoState.AdvanceSimulation demoDriftEnv 0 (1 / 64) []
      [⟨8, 0, 0⟩, ⟨520, 0, 3 / 10⟩, ⟨512, 0, 7 / 10⟩] 1).moveCalls := by
    rw [h]; rfl
  have hs : s = (demoState.AdvanceSimulation demoDriftEnv 0 (1 / 64) []
      [⟨8, 0, 0⟩, ⟨520, 0, 3 / 10⟩, ⟨512, 0, 7 / 10⟩] 1).finalState := by
    rw [h]; rfl
  refine ⟨s, moves, uid', h, hl, ?_, ?_, ?_, ?_, ?_, ?_, ?_⟩
  · rw [ht]; norm_num
  · rw [hb]; rfl
  · rw [hm]; decide!
  · rw [hm]; decide!
  · rw [hs]; decide!
  · rw [hs]; decide!
  · rw [hs]; decide!

theorem AdvanceSimulation_returned (env : Env) (uid : Nat) (self : WorldState) (T : ℚ)
    (chro : List PlayerInputState) (steps : List CsgoSubtickStep) (f : ℚ)
    (h : AdvancePre self steps f) :
    ∃ s moves uid', self.AdvanceSimulation env uid T chro steps f = .returned s moves uid' ∧
      s.simtime = self.simtime + T ∧ s.is_interpolated = false ∧
      (env.g_coll_world = false → s = { self with simtime := self.simtime + T } ∧ moves = [] ∧
        uid' = uid) ∧
      (env.g_coll_world = true →
        s.prev_input =
          if f = 1 then { self.prev_input with nButtons := lastMask self.prev_input.nButtons steps }
          else self.prev_input) := by
  rw [AdvanceSimulation_of_pre env uid self T chro steps f h]
  by_cases hw : env.g_coll_world = true
  · rw [if_pos hw]
    refine ⟨_, _, _, rfl, ?_, ?_, ?_, ?_⟩
    · rw [(advanceLoaded_frame env uid _ T chro steps f).1]
    · rw [(advanceLoaded_frame env uid _ T chro steps f).2]; exact h.1
    · intro hw'; rw [hw] at hw'; cases hw'
    · intro _; rw [advanceLoaded_prev_input]
  · rw [if_neg hw]
    refine ⟨_, _, _, rfl, rfl, h.1, ?_, ?_⟩
    · intro _; exact ⟨rfl, rfl, rfl⟩
    · intro hw'; exact absurd hw' hw

theorem advanceFullTicks_simtime (env : Env) (T : ℚ) (N : Nat) (uid : Nat) (s0 : WorldState)
    (hni : s0.is_interpolated = false) :
    ∃ s moves uid', advanceFullTicks env T N uid s0 = .returned s moves uid' ∧
      s.simtime = s0.simtime + N * T ∧ s.is_interpolated = false := by
  induction N generalizing uid s0 with
  | zero => exact ⟨s0, [], uid, rfl, by simp, hni⟩
  | succ N ih =>
    obtain ⟨s1, m1, u1, h1, ht1, hi1, -⟩ := AdvanceSimulation_returned env uid s0 T [] [] 1
      ⟨hni, le_refl 1, by simp⟩
    obtain ⟨s, m, u, h, ht, hi⟩ := ih u1 s1 hi1
    refine ⟨s, m, u, ?_, ?_, hi⟩
    · rw [advanceFullTicks, h1]; exact h
    · rw [ht, ht1]; push_cast; ring

/-- C3: a call of `AdvanceSimulation` that meets the preconditions (state not
interpolated, `fraction ≤ 1`, last ledger offset `≤ fraction`) returns with
`simtime` increased by exactly the step duration `T`, whatever the fraction, the
buffered input and the ledger are and whether or not a map is loaded; hence `N`
consecutive full advances with empty input end at `simtime + N * T`. -/
theorem AdvanceSimulation_simtime (env : Env) (uid : Nat) (self : WorldState) (T : ℚ)
    (hni : self.is_interpolated = false) :
    (∀ (chro : List PlayerInputState) (steps : List CsgoSubtickStep) (f : ℚ), f ≤ 1 →
      (∀ last, steps.getLast? = some last → last.when ≤ f) →
      ∃ s moves uid', self.AdvanceSimulation env uid T chro steps f = .returned s moves uid' ∧
        s.simtime = self.simtime + T) ∧
    (∀ N : Nat, ∃ s moves uid', advanceFullTicks env T N uid self = .returned s moves uid' ∧
      s.simtime = self.simtime + N * T) := by
  constructor
  · intro chro steps f hf hlast
    obtain ⟨s, m, u, h, ht, -⟩ := AdvanceSimulation_returned env uid self T chro steps f
      ⟨hni, hf, hlast⟩
    exact ⟨s, m, u, h, ht⟩
  · intro N
    obtain ⟨s, m, u, h, ht, -⟩ := advanceFullTicks_simtime env T N uid self hni
    exact ⟨s, m, u, h, ht⟩

/-- Witness of C3: a half-tick advance with a one-entry ledger and no map
loaded moves the time point by the whole step `1/64`, and three full advances
with a map loaded end at `3 * (1/64)`. -/
theorem AdvanceSimulation_simtime_witness :
    (∃ s moves uid',
      demoState.AdvanceSimulation { demoEnv with g_coll_world := false } 0 (1 / 64)
        [demoInput 5 8 false] [⟨8, 0, 1 / 4⟩] (1 / 2) = .returned s moves uid' ∧
      s.simtime = demoState.simtime + 1 / 64) ∧
    (∃ s moves uid', advanceFullTicks demoEnv (1 / 64) 3 0 demoState = .returned s moves uid' ∧
      s.simtime = demoState.simtime + (3 : Nat) * (1 / 64)) :=
  ⟨(AdvanceSimulation_simtime { demoEnv with g_coll_world := false } 0 demoState (1 / 64) rfl).1
      [demoInput 5 8 false] [⟨8, 0, 1 / 4⟩] (1 / 2) (by norm_num)
      (by intro last hl; simp at hl; subst hl; norm_num),
    (AdvanceSimulation_simtime demoEnv 0 demoState (1 / 64) rfl).2 3⟩

/-- C4 fails as stated: a full advance (`fraction` 1, map loaded) with one
buffered sample holding forward with a scroll-wheel jump, and the ledger entry
written for such a sample (forward and jump bits, offset 0), returns; the
`prev_input` it leaves is not the resolved input of the call: its button mask is
the one of the ledger entry, not the one of the sample. -/
theorem full_advance_drops_resolved_input :
    (demoState.AdvanceSimulation demoEnv 0 (1 / 64) [demoInput 5 8 true]
      [⟨10, 0, 0⟩] 1).failed = false ∧
    (demoState.AdvanceSimulation demoEnv 0 (1 / 64) [demoInput 5 8 true]
      [⟨10, 0, 0⟩] 1).finalState.prev_input
      ≠ resolveInput demoState.prev_input [demoInput 5 8 true] ∧
    (demoState.AdvanceSimulation demoEnv 0 (1 / 64) [demoInput 5 8 true]
      [⟨10, 0, 0⟩] 1).finalState.prev_input.nButtons = 10 ∧
    (resolveInput demoState.prev_input [demoInput 5 8 true]).nButtons = 8 := by
  decide!

/-- C4 (amended): on a call with a map loaded that meets the preconditions, a
full advance (`fraction = 1`) leaves in `prev_input` the button mask of the last
ledger entry, or the old button mask of `prev_input` when the ledger is empty;
it is not taken from the input resolved from the buffered samples. A partial
advance (`fraction < 1`) leaves `prev_input` exactly as it was. -/
theorem AdvanceSimulation_prev_input (env : Env) (uid : Nat) (self : WorldState) (T : ℚ)
    (chro : List PlayerInputState) (steps : List CsgoSubtickStep) (f : ℚ)
    (hworld : env.g_coll_world = true) (hni : self.is_interpolated = false) (hf : f ≤ 1)
    (hlast : ∀ last, steps.getLast? = some last → last.when ≤ f) :
    ∃ s moves uid', self.AdvanceSimulation env uid T chro steps f = .returned s moves uid' ∧
      (f = 1 → steps = [] → s.prev_input.nButtons = self.prev_input.nButtons) ∧
      (f = 1 → ∀ last, steps.getLast? = some last →
        s.prev_input.nButtons = last.inputBitmask) ∧
      (f < 1 → s.prev_input = self.prev_input) := by
  obtain ⟨s, m, u, h, -, -, -, hp⟩ := AdvanceSimulation_returned env uid self T chro steps f
    ⟨hni, hf, hlast⟩
  have hp := hp hworld
  refine ⟨s, m, u, h, ?_, ?_, ?_⟩
  · intro h1 he
    rw [hp, if_pos h1, he]
    rfl
  · intro h1 last hl
    rw [hp, if_pos h1, lastMask, hl]
  · intro h1
    rw [hp, if_neg (ne_of_lt h1)]

/-- Witness of C4 (amended): a full advance with a buffered sample and a
one-entry ledger leaves the buttons of that entry in `prev_input`; the same
call with fraction `1/2` leaves `prev_input` alone. -/
theorem AdvanceSimulation_prev_input_witness :
    (∃ s moves uid',
      demoState.AdvanceSimulation demoEnv 0 (1 / 64) [demoInput 5 8 true] [⟨10, 0, 1 / 4⟩] 1
        = .returned s moves uid' ∧
      s.prev_input.nButtons = 10) ∧
    (∃ s moves uid',
      demoState.AdvanceSimulation demoEnv 0 (1 / 64) [demoInput 5 8 true] [⟨10, 0, 1 / 4⟩] (1 / 2)
        = .returned s moves uid' ∧
      s.prev_input = demoState.prev_input) := by
  constructor
  · obtain ⟨s, m, u, h, -, h2, -⟩ := AdvanceSimulation_prev_input demoEnv 0 demoState (1 / 64)
      [demoInput 5 8 true] [⟨10, 0, 1 / 4⟩] 1 rfl rfl (le_refl 1)
      (by intro last hl; simp at hl; subst hl; norm_num)
    exact ⟨s, m, u, h, h2 rfl ⟨10, 0, 1 / 4⟩ rfl⟩
  · obtain ⟨s, m, u, h, -, -, h3⟩ := AdvanceSimulation_prev_input demoEnv 0 demoState (1 / 64)
      [demoInput 5 8 true] [⟨10, 0, 1 / 4⟩] (1 / 2) rfl rfl (by norm_num)
      (by intro last hl; simp at hl; subst hl; norm_num)
    exact ⟨s, m, u, h, h3 (by norm_num)⟩

theorem not_AdvancePre_iff (self : WorldState) (steps : List CsgoSubtickStep) (f : ℚ) :
    ¬ AdvancePre self steps f ↔
      (self.is_interpolated = true ∨ 1 < f ∨
        ∃ last, steps.getLast? = some last ∧ f < last.when) := by
  unfold AdvancePre
  constructor
  · intro h
    by_contra hcon
    push_neg at hcon
    exact h ⟨by simpa using hcon.1, hcon.2.1, hcon.2.2⟩
  · rintro (h | h | ⟨last, hl, hlt⟩) ⟨h1, h2, h3⟩
    · rw [h1] at h; cases h
    · exact absurd h2 (not_le.mpr h)
    · exact absurd (h3 last hl) (not_le.mpr hlt)

theorem Interpolate_mid (A B : WorldState) (phase : ℚ) (hAB : A.simtime ≤ B.simtime)
    (h0 : 0 < phase) (h1 : phase < 1) :
    WorldState.Interpolate A B phase = some { B with
      is_interpolated := true
      simtime := A.simtime + (B.simtime - A.simtime) * phase
      csgo_mv := { B.csgo_mv with
        m_vecAbsOrigin := Vector3.blend phase A.csgo_mv.m_vecAbsOrigin B.csgo_mv.m_vecAbsOrigin
        m_vecViewOffset := Vector3.blend phase A.csgo_mv.m_vecViewOffset B.csgo_mv.m_vecViewOffset }
      bumpmine_projectiles :=
        B.bumpmine_projectiles.map (interpolateProjectile phase A.bumpmine_projectiles) } := by
  unfold WorldState.Interpolate
  rw [if_neg (not_not.mpr hAB), if_neg (not_le.mpr h0), if_neg (not_le.mpr h1)]

/-- C8: `AdvanceSimulation` aborts on its first assertions, with the world
state as it was (time point included), whenever the state is interpolated, the
fraction exceeds 1, or the ledger is non-empty and its last offset exceeds the
fraction; and every result of `Interpolate` with `0 < phase < 1` is marked
interpolated, so advancing it aborts. -/
theorem AdvanceSimulation_precondition_failure (env : Env) (uid : Nat) (self : WorldState) (T : ℚ)
    (chro : List PlayerInputState) (steps : List CsgoSubtickStep) (f : ℚ) :
    (self.is_interpolated = true ∨ 1 < f ∨
        (∃ last, steps.getLast? = some last ∧ f < last.when) →
      self.AdvanceSimulation env uid T chro steps f = .aborted self) ∧
    (∀ (A B : WorldState) (phase : ℚ), A.simtime ≤ B.simtime → 0 < phase → phase < 1 →
      ∃ s, WorldState.Interpolate A B phase = some s ∧ s.is_interpolated = true ∧
        s.AdvanceSimulation env uid T chro steps f = .aborted s) := by
  constructor
  · intro h
    exact AdvanceSimulation_of_not_pre env uid self T chro steps f
      ((not_AdvancePre_iff self steps f).mpr h)
  · intro A B phase hAB h0 h1
    refine ⟨_, Interpolate_mid A B phase hAB h0 h1, rfl, ?_⟩
    exact AdvanceSimulation_of_not_pre env uid _ T chro steps f
      ((not_AdvancePre_iff _ steps f).mpr (Or.inl rfl))

/-- Witness of C8: a ledger whose last offset `3/4` exceeds the fraction `1/2`
aborts the call on the unmodified state, and the blend of two states at phase
`1/2` is interpolated and cannot be advanced. -/
theorem AdvanceSimulation_precondition_failure_witness :
    demoState.AdvanceSimulation demoEnv 0 (1 / 64) [] [⟨8, 0, 3 / 4⟩] (1 / 2)
      = .aborted demoState ∧
    ∃ s, WorldState.Interpolate demoState { demoState with simtime := 1 } (1 / 2) = some s ∧
      s.is_interpolated = true ∧
      s.AdvanceSimulation demoEnv 0 (1 / 64) [] [⟨8, 0, 3 / 4⟩] (1 / 2) = .aborted s :=
  ⟨(AdvanceSimulation_precondition_failure demoEnv 0 demoState (1 / 64) [] [⟨8, 0, 3 / 4⟩] (1 / 2)).1
      (Or.inr (Or.inr ⟨⟨8, 0, 3 / 4⟩, rfl, by norm_num⟩)),
    (AdvanceSimulation_precondition_failure demoEnv 0 demoState (1 / 64) [] [⟨8, 0, 3 / 4⟩] (1 / 2)).2
      demoState { demoState with simtime := 1 } (1 / 2) (by decide) (by norm_num) (by norm_num)⟩

/-- C9 fails as stated: the ledger with offsets `1/2` then `1/5` is not
monotonic, yet with fraction 1 the call does not abort; it integrates three
segments, the second one over a negative time slice. -/
theorem nonmonotonic_ledger_is_integrated :
    (demoState.AdvanceSimulation demoEnv 0 1 [] [⟨8, 0, 1 / 2⟩, ⟨0, 0, 1 / 5⟩] 1).failed = false ∧
    (demoState.AdvanceSimulation demoEnv 0 1 [] [⟨8, 0, 1 / 2⟩, ⟨0, 0, 1 / 5⟩] 1).moveCalls.map
      MoveCall.time_delta = [1 / 2, -3 / 10, 4 / 5] := by
  decide!

/-- C9 (amended): `AdvanceSimulation` aborts exactly when the state is
interpolated, the fraction exceeds 1, or the last ledger offset exceeds the
fraction. The order of the ledger offsets is not examined: every other call
returns, and with a map loaded it has integrated one movement segment per ledger
entry plus one. -/
theorem AdvanceSimulation_abort_conditions (env : Env) (uid : Nat) (self : WorldState) (T : ℚ)
    (chro : List PlayerInputState) (steps : List CsgoSubtickStep) (f : ℚ) :
    ((self.AdvanceSimulation env uid T chro steps f).failed = true ↔
      (self.is_interpolated = true ∨ 1 < f ∨
        ∃ last, steps.getLast? = some last ∧ f < last.when)) ∧
    ((self.AdvanceSimulation env uid T chro steps f).failed = false →
      env.g_coll_world = true →
      (self.AdvanceSimulation env uid T chro steps f).moveCalls.length = steps.length + 1) := by
  by_cases hpre : AdvancePre self steps f
  · have hno := (not_AdvancePre_iff self steps f).not.mp (not_not.mpr hpre)
    rw [AdvanceSimulation_of_pre env uid self T chro steps f hpre]
    by_cases hw : env.g_coll_world = true
    · rw [if_pos hw]
      refine ⟨⟨fun h => (by cases h), fun h => absurd h hno⟩, fun _ _ => ?_⟩
      have := congrArg List.length
        (advanceLoaded_moves env uid { self with simtime := self.simtime + T } T chro steps f).2
      simpa [AdvanceResult.moveCalls] using this
    · rw [if_neg hw]
      exact ⟨⟨fun h => (by cases h), fun h => absurd h hno⟩, fun _ h => absurd h hw⟩
  · rw [AdvanceSimulation_of_not_pre env uid self T chro steps f hpre]
    exact ⟨⟨fun _ => (not_AdvancePre_iff self steps f).mp hpre, fun _ => rfl⟩,
      fun h => by cases h⟩

/-- Witness of C9 (amended): the non-monotonic ledger `1/2, 1/5` with fraction
1 meets none of the three abort conditions, so the call returns after three
segments. -/
theorem AdvanceSimulation_abort_conditions_witness :
    (demoState.AdvanceSimulation demoEnv 0 1 [] [⟨8, 0, 1 / 2⟩, ⟨0, 0, 1 / 5⟩] 1).failed = false ∧
    (demoState.AdvanceSimulation demoEnv 0 1 [] [⟨8, 0, 1 / 2⟩, ⟨0, 0, 1 / 5⟩] 1).moveCalls.length
      = 3 :=
  ⟨by decide!,
    (AdvanceSimulation_abort_conditions demoEnv 0 demoState 1 [] [⟨8, 0, 1 / 2⟩, ⟨0, 0, 1 / 5⟩] 1).2
      (by decide!) rfl⟩

/-! ## Claims on `Interpolate` -/

/-- C5: for states with `A.simtime ≤ B.simtime`, `Interpolate A B phase` is `A`
itself (every field, the interpolated flag included) for every `phase ≤ 0` and
`B` itself for every `phase ≥ 1`; in particular at phase 0 it is `A` and at
phase 1 it is `B`. -/
theorem Interpolate_endpoints (A B : WorldState) (phase : ℚ) (hAB : A.simtime ≤ B.simtime) :
    (phase ≤ 0 → WorldState.Interpolate A B phase = some A) ∧
    (1 ≤ phase → WorldState.Interpolate A B phase = some B) ∧
    WorldState.Interpolate A B 0 = some A ∧
    WorldState.Interpolate A B 1 = some B := by
  unfold WorldState.Interpolate
  refine ⟨?_, ?_, ?_, ?_⟩
  · intro h
    rw [if_neg (not_not.mpr hAB), if_pos h]
  · intro h
    rw [if_neg (not_not.mpr hAB), if_neg (by linarith), if_pos h]
  · rw [if_neg (not_not.mpr hAB), if_pos (le_refl 0)]
  · rw [if_neg (not_not.mpr hAB), if_neg (by norm_num), if_pos (le_refl 1)]

/-- Witness of C5: between the state at time 0 and its copy at time 1, phase
`-1` gives the first state and phase `2` the second. -/
theorem Interpolate_endpoints_witness :
    WorldState.Interpolate demoState { demoState with simtime := 1 } (-1) = some demoState ∧
    WorldState.Interpolate demoState { demoState with simtime := 1 } 2
      = some { demoState with simtime := 1 } :=
  ⟨(Interpolate_endpoints demoState { demoState with simtime := 1 } (-1) (by decide)).1
      (by norm_num),
    (Interpolate_endpoints demoState { demoState with simtime := 1 } 2 (by decide)).2.1
      (by norm_num)⟩

theorem Interpolate_simtime (A B : WorldState) (phase : ℚ) (hAB : A.simtime ≤ B.simtime) :
    ∃ s, WorldState.Interpolate A B phase = some s ∧
      s.simtime = A.simtime + (B.simtime - A.simtime) * max 0 (min 1 phase) := by
  by_cases h0 : phase ≤ 0
  · refine ⟨A, ?_, ?_⟩
    · unfold WorldState.Interpolate
      rw [if_neg (not_not.mpr hAB), if_pos h0]
    · rw [max_eq_left (le_trans (min_le_right _ _) h0)]; ring
  · by_cases h1 : 1 ≤ phase
    · refine ⟨B, ?_, ?_⟩
      · unfold WorldState.Interpolate
        rw [if_neg (not_not.mpr hAB), if_neg h0, if_pos h1]
      · rw [min_eq_left h1, max_eq_right (by norm_num)]; ring
    · push_neg at h0 h1
      refine ⟨_, Interpolate_mid A B phase hAB h0 h1, ?_⟩
      rw [min_eq_right (le_of_lt h1), max_eq_right (le_of_lt h0)]

/-- C6: for states with `A.simtime ≤ B.simtime` the time point of
`Interpolate A B phase` is monotonic in the phase over `[0, 1]`; for
`0 < phase < 1` it is `A.simtime + (B.simtime - A.simtime) * phase`, which lies
between the two time points. -/
theorem Interpolate_simtime_monotone (A B : WorldState) (p q : ℚ)
    (hAB : A.simtime ≤ B.simtime) (hp : 0 ≤ p) (hpq : p ≤ q) (hq : q ≤ 1) :
    ∃ sp sq, WorldState.Interpolate A B p = some sp ∧ WorldState.Interpolate A B q = some sq ∧
      sp.simtime ≤ sq.simtime ∧
      (0 < p → p < 1 →
        sp.simtime = A.simtime + (B.simtime - A.simtime) * p ∧
        A.simtime ≤ sp.simtime ∧ sp.simtime ≤ B.simtime) := by
  obtain ⟨sp, hsp, htp⟩ := Interpolate_simtime A B p hAB
  obtain ⟨sq, hsq, htq⟩ := Interpolate_simtime A B q hAB
  have hd : 0 ≤ B.simtime - A.simtime := sub_nonneg.mpr hAB
  rw [min_eq_right (le_trans hpq hq), max_eq_right hp] at htp
  rw [min_eq_right hq, max_eq_right (le_trans hp hpq)] at htq
  refine ⟨sp, sq, hsp, hsq, ?_, ?_⟩
  · rw [htp, htq]
    have := mul_le_mul_of_nonneg_left hpq hd
    linarith
  · intro h0 h1
    refine ⟨htp, ?_, ?_⟩
    · rw [htp]
      have := mul_nonneg hd hp
      linarith
    · rw [htp]
      have := mul_le_mul_of_nonneg_left (le_of_lt h1) hd
      linarith

/-- Witness of C6: between time points 0 and 1, phase `1/4` gives time `1/4`
and phase `3/4` gives time `3/4`. -/
theorem Interpolate_simtime_monotone_witness :
    ∃ sp sq,
      WorldState.Interpolate demoState { demoState with simtime := 1 } (1 / 4) = some sp ∧
      WorldState.Interpolate demoState { demoState with simtime := 1 } (3 / 4) = some sq ∧
      sp.simtime ≤ sq.simtime ∧ sp.simtime = 1 / 4 := by
  obtain ⟨sp, sq, hp, hq, hle, hmid⟩ := Interpolate_simtime_monotone demoState
    { demoState with simtime := 1 } (1 / 4) (3 / 4) (by decide) (by norm_num) (by norm_num)
    (by norm_num)
  refine ⟨sp, sq, hp, hq, hle, ?_⟩
  rw [(hmid (by norm_num) (by norm_num)).1]
  norm_num [demoState]

theorem AdvanceSimulation_returned_inv (env : Env) (uid : Nat) (self : WorldState) (T : ℚ)
    (chro : List PlayerInputState) (steps : List CsgoSubtickStep) (f : ℚ)
    (s : WorldState) (moves : List MoveCall) (uid' : Nat)
    (h : self.AdvanceSimulation env uid T chro steps f = .returned s moves uid') :
    AdvancePre self steps f ∧ s.simtime = self.simtime + T ∧ s.is_interpolated = false := by
  by_cases hpre : AdvancePre self steps f
  · obtain ⟨s1, m1, u1, h1, ht, hi, -⟩ := AdvanceSimulation_returned env uid self T chro steps f hpre
    rw [h1] at h
    cases h
    exact ⟨hpre, ht, hi⟩
  · rw [AdvanceSimulation_of_not_pre env uid self T chro steps f hpre] at h
    cases h

theorem catchUp_spec (I t : Int) (fuel : Nat) (b : Int) (id : Nat)
    (h0 : 0 < fuel) (hfuel : t - b ≤ fuel * I) :
    ∃ k : Nat, catchUp I t fuel b id = some (b + k * I, id + k) ∧ t ≤ b + (k + 1) * I ∧
      ∀ j : Nat, j < k → b + (j + 1) * I < t := by
  induction fuel generalizing b id with
  | zero => exact absurd h0 (lt_irrefl 0)
  | succ n ih =>
    rw [catchUp]
    by_cases hlt : b + I < t
    · rw [if_pos hlt]
      have hn : 0 < n := by
        rcases Nat.eq_zero_or_pos n with hz | hp
        · subst hz
          simp at hfuel
          linarith
        · exact hp
      have hfuel' : t - (b + I) ≤ n * I := by
        push_cast at hfuel
        linarith
      obtain ⟨k, hk, hle, hj⟩ := ih (b + I) (id + 1) hn hfuel'
      refine ⟨k + 1, ?_, ?_, ?_⟩
      · rw [hk]
        congr 2
        · push_cast; ring
        · omega
      · push_cast
        linarith
      · intro j hjk
        cases j with
        | zero => simpa using hlt
        | succ j =>
          have := hj j (by omega)
          push_cast
          linarith
    · rw [if_neg hlt]
      refine ⟨0, by simp, by simpa using not_lt.mp hlt, ?_⟩
      intro j hj
      exact absurd hj (Nat.not_lt_zero j)

theorem finalizeTicks_ok (env : Env) (n : Nat) (g g' : CsgoGame)
    (h : finalizeTicks env n g = .ok g') :
    g'.m_prev_finalized_game_tick_id = g.m_prev_finalized_game_tick_id + n ∧
    g'.m_realtime_last_tick = g.m_realtime_last_tick ∧
    g'.m_realtime_game_tick_interval = g.m_realtime_game_tick_interval ∧
    g'.m_simtime_step_size = g.m_simtime_step_size ∧
    g'.m_inputs_since_prev_finalized_game_tick =
      (if n = 0 then g.m_inputs_since_prev_finalized_game_tick else []) ∧
    g'.SubtickSteps = (if n = 0 then g.SubtickSteps else []) ∧
    g'.m_prev_drawable_worldstate = g.m_prev_drawable_worldstate ∧
    g'.m_prev_drawable_worldstate_timepoint = g.m_prev_drawable_worldstate_timepoint ∧
    g'.m_prev_finalized_game_tick.simtime =
      g.m_prev_finalized_game_tick.simtime + n * g.m_simtime_step_size ∧
    (g.m_prev_finalized_game_tick.is_interpolated = false →
      g'.m_prev_finalized_game_tick.is_interpolated = false) := by
  induction n generalizing g with
  | zero =>
    rw [finalizeTicks] at h
    cases h
    simp
  | succ n ih =>
    rw [finalizeTicks] at h
    cases hadv : g.m_prev_finalized_game_tick.AdvanceSimulation env g.uid_calls
        g.m_simtime_step_size g.m_inputs_since_prev_finalized_game_tick g.SubtickSteps 1 with
    | aborted s => rw [hadv] at h; cases h
    | returned s m u =>
      rw [hadv] at h
      obtain ⟨-, ht, hi⟩ := AdvanceSimulation_returned_inv env _ _ _ _ _ _ s m u hadv
      obtain ⟨h1, h2, h3, h4, h5, h6, h7, h8, h9, h10⟩ := ih _ h
      refine ⟨?_, h2, h3, h4, ?_, ?_, h7, h8, ?_, ?_⟩
      · rw [h1]; simp only; omega
      · rw [h5]; simp
      · rw [h6]; simp
      · rw [h9]; simp only; rw [ht]; push_cast; ring
      · intro _; exact h10 hi

theorem finalizeTicks_total (env : Env) (n : Nat) (g : CsgoGame)
    (hni : g.m_prev_finalized_game_tick.is_interpolated = false)
    (hled : ∀ last, g.SubtickSteps.getLast? = some last → last.when ≤ 1) :
    ∃ g', finalizeTicks env n g = .ok g' := by
  induction n generalizing g with
  | zero => exact ⟨g, rfl⟩
  | succ n ih =>
    obtain ⟨s, m, u, hadv, -, hi, -⟩ := AdvanceSimulation_returned env g.uid_calls
      g.m_prev_finalized_game_tick g.m_simtime_step_size
      g.m_inputs_since_prev_finalized_game_tick g.SubtickSteps 1 ⟨hni, le_refl 1, hled⟩
    rw [finalizeTicks, hadv]
    exact ih _ hi (by simp)

theorem updateLedger_last (g : CsgoGame) (inp : PlayerInputState) (sub : Bool) (t : Int)
    (last : CsgoSubtickStep) (h : (updateLedger g inp sub t).getLast? = some last) :
    g.SubtickSteps.getLast? = some last ∨
      last.when = (if sub then ((t - g.m_realtime_last_tick : Int) : ℚ) /
        (g.m_realtime_game_tick_interval : ℚ) else 0) := by
  have hcat : ∀ (a b : CsgoSubtickStep),
      (g.SubtickSteps ++ [a, b]).getLast? = some b := fun a b => by
    rw [show g.SubtickSteps ++ [a, b] = (g.SubtickSteps ++ [a]) ++ [b] by simp,
      List.getLast?_concat]
  unfold updateLedger at h
  cases sub with
  | true =>
    simp only [if_true] at h ⊢
    split_ifs at h with h1 h3
    · rw [hcat] at h; cases h; exact Or.inr rfl
    · rw [List.getLast?_concat] at h; cases h; exact Or.inr rfl
    · exact Or.inl h
  | false =>
    simp only [Bool.false_eq_true, if_false] at h ⊢
    split_ifs at h with h1 h3
    · rw [List.getLast?_concat] at h; cases h; exact Or.inr rfl
    · rw [List.getLast?_concat] at h; cases h; exact Or.inr rfl
    · exact Or.inl h

theorem drawPhase_subticked (g : CsgoGame) (t : Int) :
    drawPhase g t true = ((t - g.m_realtime_last_tick : Int) : ℚ) /
      (g.m_realtime_game_tick_interval : ℚ) := by
  simp [drawPhase]

theorem drawPhase_not_subticked (g : CsgoGame) (t : Int) :
    drawPhase g t false = ((t - g.m_prev_drawable_worldstate_timepoint : Int) : ℚ) /
      ((g.m_realtime_last_tick + g.m_realtime_game_tick_interval
        - g.m_prev_drawable_worldstate_timepoint : Int) : ℚ) := by
  simp [drawPhase]

theorem predictAndDraw_ok (env : Env) (g g' : CsgoGame) (t : Int) (sub : Bool)
    (h : predictAndDraw env g t sub = .ok g') :
    (g'.m_prev_finalized_game_tick_id = g.m_prev_finalized_game_tick_id ∧
      g'.m_realtime_last_tick = g.m_realtime_last_tick ∧
      g'.m_realtime_game_tick_interval = g.m_realtime_game_tick_interval ∧
      g'.m_simtime_step_size = g.m_simtime_step_size ∧
      g'.m_inputs_since_prev_finalized_game_tick = g.m_inputs_since_prev_finalized_game_tick ∧
      g'.SubtickSteps = g.SubtickSteps ∧
      g'.m_prev_finalized_game_tick = g.m_prev_finalized_game_tick ∧
      g'.m_prev_drawable_worldstate_timepoint = t) ∧
    (sub = true → ∃ s moves uid',
      g.m_prev_finalized_game_tick.AdvanceSimulation env g.uid_calls g.m_simtime_step_size
        g.m_inputs_since_prev_finalized_game_tick g.SubtickSteps (drawPhase g t true)
          = .returned s moves uid' ∧
      g'.m_prev_predicted_game_tick = s ∧ g'.m_prev_drawable_worldstate = movedFrom env s) ∧
    (sub = false → ∃ pred moves uid',
      g.m_prev_finalized_game_tick.AdvanceSimulation env g.uid_calls g.m_simtime_step_size
        g.m_inputs_since_prev_finalized_game_tick g.SubtickSteps 1 = .returned pred moves uid' ∧
      g'.m_prev_predicted_game_tick = pred ∧
      (g.m_realtime_last_tick + g.m_realtime_game_tick_interval
          - g.m_prev_drawable_worldstate_timepoint = 0 → g'.m_prev_drawable_worldstate = pred) ∧
      (g.m_realtime_last_tick + g.m_realtime_game_tick_interval
          - g.m_prev_drawable_worldstate_timepoint ≠ 0 →
        WorldState.Interpolate g.m_prev_drawable_worldstate pred (drawPhase g t false)
          = some g'.m_prev_drawable_worldstate)) := by
  unfold predictAndDraw at h
  cases sub with
  | true =>
    simp only [if_true] at h
    cases hadv : g.m_prev_finalized_game_tick.AdvanceSimulation env g.uid_calls
        g.m_simtime_step_size g.m_inputs_since_prev_finalized_game_tick g.SubtickSteps
        (drawPhase g t true) with
    | aborted s => rw [hadv] at h; cases h
    | returned s m u =>
      rw [hadv] at h
      cases h
      exact ⟨⟨rfl, rfl, rfl, rfl, rfl, rfl, rfl, rfl⟩, fun _ => ⟨s, m, u, rfl, rfl, rfl⟩,
        fun hc => (by cases hc)⟩
  | false =>
    simp only [Bool.false_eq_true, if_false] at h
    cases hadv : g.m_prev_finalized_game_tick.AdvanceSimulation env g.uid_calls
        g.m_simtime_step_size g.m_inputs_since_prev_finalized_game_tick g.SubtickSteps 1 with
    | aborted s => rw [hadv] at h; cases h
    | returned pred m u =>
      rw [hadv] at h
      simp only at h
      by_cases hz : g.m_realtime_last_tick + g.m_realtime_game_tick_interval
          - g.m_prev_drawable_worldstate_timepoint = 0
      · rw [if_pos hz] at h
        cases h
        exact ⟨⟨rfl, rfl, rfl, rfl, rfl, rfl, rfl, rfl⟩, fun hc => (by cases hc),
          fun _ => ⟨pred, m, u, rfl, rfl, fun _ => rfl, fun hn => absurd hz hn⟩⟩
      · rw [if_neg hz] at h
        cases hint : WorldState.Interpolate g.m_prev_drawable_worldstate pred
            (drawPhase g t false) with
        | none => rw [hint] at h; cases h
        | some cur =>
          rw [hint] at h
          cases h
          exact ⟨⟨rfl, rfl, rfl, rfl, rfl, rfl, rfl, rfl⟩, fun hc => (by cases hc),
            fun _ => ⟨pred, m, u, rfl, rfl, fun hn => absurd hn hz, fun _ => hint⟩⟩

theorem predictAndDraw_total (env : Env) (g : CsgoGame) (t : Int) (sub : Bool)
    (hni : g.m_prev_finalized_game_tick.is_interpolated = false)
    (hsub : sub = true → AdvancePre g.m_prev_finalized_game_tick g.SubtickSteps
      (drawPhase g t true))
    (hled : sub = false → ∀ last, g.SubtickSteps.getLast? = some last → last.when ≤ 1)
    (hdraw : sub = false → g.m_prev_drawable_worldstate.simtime ≤
      g.m_prev_finalized_game_tick.simtime + g.m_simtime_step_size) :
    ∃ g', predictAndDraw env g t sub = .ok g' := by
  unfold predictAndDraw
  cases sub with
  | true =>
    obtain ⟨s, m, u, hadv, -⟩ := AdvanceSimulation_returned env g.uid_calls
      g.m_prev_finalized_game_tick g.m_simtime_step_size
      g.m_inputs_since_prev_finalized_game_tick g.SubtickSteps (drawPhase g t true) (hsub rfl)
    simp only [if_true, hadv]
    exact ⟨_, rfl⟩
  | false =>
    obtain ⟨pred, m, u, hadv, ht, -⟩ := AdvanceSimulation_returned env g.uid_calls
      g.m_prev_finalized_game_tick g.m_simtime_step_size
      g.m_inputs_since_prev_finalized_game_tick g.SubtickSteps 1 ⟨hni, le_refl 1, hled rfl⟩
    simp only [Bool.false_eq_true, if_false, hadv]
    by_cases hz : g.m_realtime_last_tick + g.m_realtime_game_tick_interval
        - g.m_prev_drawable_worldstate_timepoint = 0
    · rw [if_pos hz]
      exact ⟨_, rfl⟩
    · rw [if_neg hz]
      obtain ⟨cur, hcur, -⟩ := Interpolate_simtime g.m_prev_drawable_worldstate pred
        (drawPhase g t false) (by rw [ht]; exact hdraw rfl)
      rw [hcur]
      exact ⟨_, rfl⟩

theorem catchUp_some (I t : Int) (fuel : Nat) (b : Int) (id : Nat) (b' : Int) (id' : Nat)
    (h : catchUp I t fuel b id = some (b', id')) :
    ∃ k : Nat, b' = b + k * I ∧ id' = id + k ∧ t ≤ b + (k + 1) * I ∧
      ∀ j : Nat, j < k → b + (j + 1) * I < t := by
  induction fuel generalizing b id with
  | zero => rw [catchUp] at h; cases h
  | succ n ih =>
    rw [catchUp] at h
    by_cases hlt : b + I < t
    · rw [if_pos hlt] at h
      obtain ⟨k, hb, hid, hle, hj⟩ := ih (b + I) (id + 1) h
      refine ⟨k + 1, ?_, ?_, ?_, ?_⟩
      · rw [hb]; push_cast; ring
      · omega
      · push_cast; linarith
      · intro j hjk
        cases j with
        | zero => simpa using hlt
        | succ j =>
          have := hj j (by omega)
          push_cast
          linarith
    · rw [if_neg hlt] at h
      cases h
      refine ⟨0, by simp, by simp, by simpa using not_lt.mp hlt, ?_⟩
      intro j hj
      exact absurd hj (Nat.not_lt_zero j)

theorem catchUpAndFinalize_ok (env : Env) (fuel : Nat) (g : CsgoGame) (inp : PlayerInputState)
    (g1 : CsgoGame) (h : catchUpAndFinalize env fuel g inp = .ok g1) :
    ∃ k : Nat,
      inp.sample_time ≤ g.m_realtime_last_tick + (k + 1) * g.m_realtime_game_tick_interval ∧
      (∀ j : Nat, j < k →
        g.m_realtime_last_tick + (j + 1) * g.m_realtime_game_tick_interval < inp.sample_time) ∧
      finalizeTicks env k
        { g with m_realtime_last_tick :=
            g.m_realtime_last_tick + k * g.m_realtime_game_tick_interval } = .ok g1 := by
  unfold catchUpAndFinalize at h
  split_ifs at h with h1 h2
  cases hc : catchUp g.m_realtime_game_tick_interval inp.sample_time fuel
      g.m_realtime_last_tick g.m_prev_finalized_game_tick_id with
  | none => rw [hc] at h; cases h
  | some r =>
    obtain ⟨b', id'⟩ := r
    rw [hc] at h
    obtain ⟨k, hb, hid, hle, hj⟩ := catchUp_some _ _ _ _ _ _ _ hc
    refine ⟨k, hle, hj, ?_⟩
    simp only at h
    rw [hb, hid, Nat.add_sub_cancel_left] at h
    exact h

theorem catchUpAndFinalize_total (env : Env) (fuel : Nat) (g : CsgoGame)
    (inp : PlayerInputState) (sub : Bool) (hready : DriverReady g inp sub fuel) :
    ∃ g1, catchUpAndFinalize env fuel g inp = .ok g1 := by
  obtain ⟨hs, -, hf0, hfuel, hord, hni, hled, -⟩ := hready
  unfold catchUpAndFinalize
  rw [if_neg (by simp [hs])]
  have hany : g.m_inputs_since_prev_finalized_game_tick.any
      (fun other => decide (¬ (inp.sample_time ≥ other.sample_time))) = false := by
    rw [List.any_eq_false]
    intro other ho
    simpa using hord other ho
  rw [if_neg (by rw [hany]; simp)]
  obtain ⟨k, hk, -, -⟩ := catchUp_spec g.m_realtime_game_tick_interval inp.sample_time fuel
    g.m_realtime_last_tick g.m_prev_finalized_game_tick_id hf0 hfuel
  rw [hk]
  simp only
  exact finalizeTicks_total env _ _ hni (fun last hl => (hled last hl).1)

theorem ProcessNewPlayerInput_ok (env : Env) (fuel : Nat) (g : CsgoGame)
    (inp : PlayerInputState) (sub : Bool) (g' : CsgoGame)
    (h : g.ProcessNewPlayerInput env fuel inp sub = .ok g') :
    ∃ g1, catchUpAndFinalize env fuel g inp = .ok g1 ∧
      predictAndDraw env (bufferInput g1 inp sub) inp.sample_time sub = .ok g' := by
  unfold CsgoGame.ProcessNewPlayerInput at h
  cases hc : catchUpAndFinalize env fuel g inp with
  | ok g1 => rw [hc] at h; exact ⟨g1, rfl, h⟩
  | assertFailed => rw [hc] at h; cases h
  | outOfFuel => rw [hc] at h; cases h

theorem bufferInput_frame (g : CsgoGame) (inp : PlayerInputState) (sub : Bool) :
    (bufferInput g inp sub).m_prev_finalized_game_tick_id = g.m_prev_finalized_game_tick_id ∧
    (bufferInput g inp sub).m_realtime_last_tick = g.m_realtime_last_tick ∧
    (bufferInput g inp sub).m_realtime_game_tick_interval = g.m_realtime_game_tick_interval ∧
    (bufferInput g inp sub).m_simtime_step_size = g.m_simtime_step_size ∧
    (bufferInput g inp sub).m_inputs_since_prev_finalized_game_tick =
      g.m_inputs_since_prev_finalized_game_tick ++ [inp] ∧
    (bufferInput g inp sub).m_prev_finalized_game_tick = g.m_prev_finalized_game_tick ∧
    (bufferInput g inp sub).m_prev_drawable_worldstate = g.m_prev_drawable_worldstate ∧
    (bufferInput g inp sub).m_prev_drawable_worldstate_timepoint =
      g.m_prev_drawable_worldstate_timepoint ∧
    (bufferInput g inp sub).uid_calls = g.uid_calls :=
  ⟨rfl, rfl, rfl, rfl, rfl, rfl, rfl, rfl, rfl⟩

theorem bufferInput_last (g : CsgoGame) (inp : PlayerInputState) (sub : Bool)
    (last : CsgoSubtickStep) (h : (bufferInput g inp sub).SubtickSteps.getLast? = some last) :
    g.SubtickSteps.getLast? = some last ∨
      last.when = (if sub then ((inp.sample_time - g.m_realtime_last_tick : Int) : ℚ) /
        (g.m_realtime_game_tick_interval : ℚ) else 0) :=
  updateLedger_last { g with m_inputs_since_prev_finalized_game_tick :=
    g.m_inputs_since_prev_finalized_game_tick ++ [inp] } inp sub inp.sample_time last h

theorem ProcessNewPlayerInput_total (env : Env) (fuel : Nat) (g : CsgoGame)
    (inp : PlayerInputState) (sub : Bool) (hready : DriverReady g inp sub fuel) :
    ∃ g', g.ProcessNewPlayerInput env fuel inp sub = .ok g' := by
  obtain ⟨g1, hg1⟩ := catchUpAndFinalize_total env fuel g inp sub hready
  obtain ⟨k, hle, -, hfin⟩ := catchUpAndFinalize_ok env fuel g inp g1 hg1
  obtain ⟨-, hb, hI, hT, -, hsteps, hdr, -, hsim, hint⟩ := finalizeTicks_ok env k _ g1 hfin
  obtain ⟨hs, hIpos, -, -, -, hni, hled, hdraw⟩ := hready
  simp only at hb hI hT hsteps hdr hsim hint
  have hIq : (0 : ℚ) < (g.m_realtime_game_tick_interval : ℚ) := by exact_mod_cast hIpos
  have hTpos : 0 < g.m_simtime_step_size := by simpa [CsgoGame.HasBeenStarted] using hs
  unfold CsgoGame.ProcessNewPlayerInput
  rw [hg1]
  simp only
  apply predictAndDraw_total
  · exact hint hni
  · intro hsub
    refine ⟨hint hni, ?_, ?_⟩
    · rw [drawPhase_subticked]
      show ((inp.sample_time - g1.m_realtime_last_tick : Int) : ℚ) /
        (g1.m_realtime_game_tick_interval : ℚ) ≤ 1
      rw [hb, hI, div_le_one hIq]
      have : inp.sample_time - (g.m_realtime_last_tick + k * g.m_realtime_game_tick_interval)
          ≤ g.m_realtime_game_tick_interval := by linarith
      exact_mod_cast this
    · intro last hl
      rw [drawPhase_subticked]
      show last.when ≤ ((inp.sample_time - g1.m_realtime_last_tick : Int) : ℚ) /
        (g1.m_realtime_game_tick_interval : ℚ)
      rcases bufferInput_last g1 inp sub last hl with hold | hnew
      · rw [hsteps] at hold
        by_cases hk : k = 0
        · rw [if_pos hk] at hold
          rw [hb, hI, hk, le_div_iff₀ hIq]
          simpa using (hled last hold).2 hsub
        · rw [if_neg hk] at hold
          cases hold
      · rw [hnew, hsub]
        simp
  · intro hsub last hl
    rcases bufferInput_last g1 inp sub last hl with hold | hnew
    · rw [hsteps] at hold
      by_cases hk : k = 0
      · rw [if_pos hk] at hold
        exact (hled last hold).1
      · rw [if_neg hk] at hold
        cases hold
    · rw [hnew, hsub]
      simp
  · intro hsub
    show g1.m_prev_drawable_worldstate.simtime ≤
      g1.m_prev_finalized_game_tick.simtime + g1.m_simtime_step_size
    rw [hdr, hsim, hT]
    have h1 := hdraw hsub
    have h2 : (0 : ℚ) ≤ (k : ℚ) * g.m_simtime_step_size :=
      mul_nonneg (Nat.cast_nonneg k) (le_of_lt hTpos)
    linarith

/-! ## Claims on `ProcessNewPlayerInput` -/

/-- C2: a call of `ProcessNewPlayerInput` with a sample at time `t` on a driver
with tick interval `I` and last tick boundary `b` that runs to its end has
finalized exactly `k` ticks, `k` being the least natural number with
`b + (k+1) * I ≥ t` (so `k = 0` when `t ≤ b + I`): the finalized tick id has
grown by `k`, the finalized time point by `k` steps, the boundary is `b + k * I`,
and the buffered inputs are the new sample alone when `k ≥ 1` and the previous
ones followed by the new sample when `k = 0`. The call runs to its end on every
ready driver (started, `I > 0`, enough fuel for the catch-up loop). -/
theorem ProcessNewPlayerInput_finalizes (env : Env) (fuel : Nat) (g : CsgoGame)
    (inp : PlayerInputState) (sub : Bool) :
    (∀ g', g.ProcessNewPlayerInput env fuel inp sub = .ok g' →
      ∃ k : Nat,
        inp.sample_time ≤ g.m_realtime_last_tick + (k + 1) * g.m_realtime_game_tick_interval ∧
        (∀ j : Nat, j < k →
          g.m_realtime_last_tick + (j + 1) * g.m_realtime_game_tick_interval < inp.sample_time) ∧
        (inp.sample_time ≤ g.m_realtime_last_tick + g.m_realtime_game_tick_interval → k = 0) ∧
        g'.m_prev_finalized_game_tick_id = g.m_prev_finalized_game_tick_id + k ∧
        g'.m_realtime_last_tick = g.m_realtime_last_tick + k * g.m_realtime_game_tick_interval ∧
        g'.m_prev_finalized_game_tick.simtime =
          g.m_prev_finalized_game_tick.simtime + k * g.m_simtime_step_size ∧
        g'.m_inputs_since_prev_finalized_game_tick =
          (if k = 0 then g.m_inputs_since_prev_finalized_game_tick ++ [inp] else [inp])) ∧
    (DriverReady g inp sub fuel → ∃ g', g.ProcessNewPlayerInput env fuel inp sub = .ok g') := by
  refine ⟨?_, ProcessNewPlayerInput_total env fuel g inp sub⟩
  intro g' h
  obtain ⟨g1, hg1, hdraw⟩ := ProcessNewPlayerInput_ok env fuel g inp sub g' h
  obtain ⟨k, hle, hj, hfin⟩ := catchUpAndFinalize_ok env fuel g inp g1 hg1
  obtain ⟨hid, hb, -, -, hin, -, -, -, hsim, -⟩ := finalizeTicks_ok env k _ g1 hfin
  obtain ⟨⟨hid', hb', -, -, hin', -, hfz', -⟩, -, -⟩ := predictAndDraw_ok env _ g' _ sub hdraw
  simp only at hid hb hin hsim
  refine ⟨k, hle, hj, ?_, ?_, ?_, ?_, ?_⟩
  · intro ht
    rcases Nat.eq_zero_or_pos k with hk | hk
    · exact hk
    · have := hj 0 hk
      simp at this
      linarith
  · rw [hid', (bufferInput_frame g1 inp sub).1, hid]
  · rw [hb', (bufferInput_frame g1 inp sub).2.1, hb]
  · rw [hfz', (bufferInput_frame g1 inp sub).2.2.2.2.2.1, hsim]
  · rw [hin', (bufferInput_frame g1 inp sub).2.2.2.2.1, hin]
    split_ifs <;> simp

theorem demoStarted_eq :
    CsgoGame.Start demoEnv 0 demoUnstarted (1 / 20) 1 demoState = .ok demoStarted := by
  decide!

theorem demoStarted_ready (inp : PlayerInputState) (sub : Bool)
    (h1 : inp.sample_time ≤ 100000000) :
    DriverReady demoStarted inp sub 2 := by
  have hI : demoStarted.m_realtime_game_tick_interval = 50000000 := by decide!
  have hb : demoStarted.m_realtime_last_tick = 0 := by decide!
  have hin : demoStarted.m_inputs_since_prev_finalized_game_tick = [] := by decide!
  have hst : demoStarted.SubtickSteps = [] := by decide!
  refine ⟨by decide!, by decide!, by decide, ?_, ?_, by decide!, ?_, fun _ => by decide!⟩
  · rw [hI, hb]; push_cast; linarith
  · intro other ho; rw [hin] at ho; cases ho
  · intro last hl; rw [hst] at hl; cases hl

/-- Witness of C2: after `Start(step = 50 ms, timescale = 1.0)` at real time 0,
a sample at 60 ms that is not subtick-precise finalizes exactly one tick and
leaves the buffered-input list holding only that sample. -/
theorem ProcessNewPlayerInput_finalizes_witness :
    CsgoGame.Start demoEnv 0 demoUnstarted (1 / 20) 1 demoState = .ok demoStarted ∧
    ∃ g', demoStarted.ProcessNewPlayerInput demoEnv 2 (demoInput 60000000 0 false) false
        = .ok g' ∧
      g'.m_prev_finalized_game_tick_id = 1 ∧
      g'.m_realtime_last_tick = 50000000 ∧
      g'.m_inputs_since_prev_finalized_game_tick = [demoInput 60000000 0 false] := by
  refine ⟨demoStarted_eq, ?_⟩
  have hI : demoStarted.m_realtime_game_tick_interval = 50000000 := by decide!
  have hb : demoStarted.m_realtime_last_tick = 0 := by decide!
  have hid : demoStarted.m_prev_finalized_game_tick_id = 0 := by decide!
  have hT : (demoInput 60000000 0 false).sample_time = 60000000 := rfl
  obtain ⟨hpost, htotal⟩ := ProcessNewPlayerInput_finalizes demoEnv 2 demoStarted
    (demoInput 60000000 0 false) false
  obtain ⟨g', hg'⟩ := htotal (demoStarted_ready _ false (by decide))
  obtain ⟨k, hle, hj, -, h1, h2, -, h4⟩ := hpost g' hg'
  rw [hI, hb, hT] at hle hj
  have hk : k = 1 := by
    have hk1 : 0 < k := by
      rcases Nat.eq_zero_or_pos k with hz | hp
      · subst hz; norm_num at hle
      · exact hp
    have hk2 : k < 2 := by
      by_contra hc
      have := hj 1 (by omega)
      norm_num at this
    omega
  subst hk
  refine ⟨g', hg', ?_, ?_, ?_⟩
  · rw [h1, hid]
  · rw [h2, hI, hb]; norm_num
  · rw [h4]; simp

/-- C10 fails as stated: after `Start` at real time 0 with a 50 ms tick and a
first sample at 10 ms, a second sample at 30 ms (neither subtick-precise) has
elapsed `3/5` of the tick interval since the tick boundary, but the drawable
state is not the blend of the previous drawable state and the predicted tick at
phase `3/5`; it is their blend at phase `1/2`. -/
theorem drawable_blend_uses_other_phase :
    demoStarted.ProcessNewPlayerInput demoEnv 2 (demoInput 10000000 0 false) false
      = .ok demoAfterFirst ∧
    demoAfterFirst.ProcessNewPlayerInput demoEnv 2 (demoInput 30000000 0 false) false
      = .ok demoAfterSecond ∧
    (((30000000 - demoAfterSecond.m_realtime_last_tick : Int) : ℚ) /
      (demoAfterSecond.m_realtime_game_tick_interval : ℚ) = 3 / 5) ∧
    WorldState.Interpolate demoAfterFirst.m_prev_drawable_worldstate
      demoAfterSecond.m_prev_predicted_game_tick (3 / 5)
        ≠ some demoAfterSecond.m_prev_drawable_worldstate ∧
    WorldState.Interpolate demoAfterFirst.m_prev_drawable_worldstate
      demoAfterSecond.m_prev_predicted_game_tick (1 / 2)
        = some demoAfterSecond.m_prev_drawable_worldstate := by
  decide!

/-- C10 (amended): let `b` and `I` be the tick boundary and the tick interval
after the call and `t` the time of the sample. After a call of
`ProcessNewPlayerInput` with a subtick-precise sample the stored predicted state
is the finalized state advanced with the buffered inputs and the ledger up to
the fraction `(t - b) / I`, and the drawable state has the time point, the
interpolated flag, the previous input, the movement state and the player of
that state. After a call with any other sample the predicted state is the
finalized state advanced by a full step, and the drawable state is
`Interpolate(previous drawable, predicted, phase)` with
`phase = (t - t_prev) / (b + I - t_prev)`, `t_prev` being the time point of the
previous drawable state, or the predicted state itself when `b + I = t_prev`.
The tick interval is taken to be other than 0, and the call runs to its end on
every ready driver. -/
theorem ProcessNewPlayerInput_drawable (env : Env) (fuel : Nat) (g : CsgoGame)
    (inp : PlayerInputState) (sub : Bool) (_hI : g.m_realtime_game_tick_interval ≠ 0) :
    (∀ g', g.ProcessNewPlayerInput env fuel inp sub = .ok g' →
      ∃ uid,
        (sub = true → ∃ s moves uid',
          g'.m_prev_finalized_game_tick.AdvanceSimulation env uid g'.m_simtime_step_size
            g'.m_inputs_since_prev_finalized_game_tick g'.SubtickSteps
            (((inp.sample_time - g'.m_realtime_last_tick : Int) : ℚ) /
              (g'.m_realtime_game_tick_interval : ℚ)) = .returned s moves uid' ∧
          g'.m_prev_predicted_game_tick = s ∧
          g'.m_prev_drawable_worldstate.simtime = s.simtime ∧
          g'.m_prev_drawable_worldstate.is_interpolated = s.is_interpolated ∧
          g'.m_prev_drawable_worldstate.prev_input = s.prev_input ∧
          g'.m_prev_drawable_worldstate.csgo_mv = s.csgo_mv ∧
          g'.m_prev_drawable_worldstate.player = s.player) ∧
        (sub = false → ∃ pred moves uid',
          g'.m_prev_finalized_game_tick.AdvanceSimulation env uid g'.m_simtime_step_size
            g'.m_inputs_since_prev_finalized_game_tick g'.SubtickSteps 1
              = .returned pred moves uid' ∧
          g'.m_prev_predicted_game_tick = pred ∧
          (g'.m_realtime_last_tick + g'.m_realtime_game_tick_interval
              = g.m_prev_drawable_worldstate_timepoint →
            g'.m_prev_drawable_worldstate = pred) ∧
          (g'.m_realtime_last_tick + g'.m_realtime_game_tick_interval
              ≠ g.m_prev_drawable_worldstate_timepoint →
            WorldState.Interpolate g.m_prev_drawable_worldstate pred
              (((inp.sample_time - g.m_prev_drawable_worldstate_timepoint : Int) : ℚ) /
                ((g'.m_realtime_last_tick + g'.m_realtime_game_tick_interval
                  - g.m_prev_drawable_worldstate_timepoint : Int) : ℚ))
              = some g'.m_prev_drawable_worldstate))) ∧
    (DriverReady g inp sub fuel → ∃ g', g.ProcessNewPlayerInput env fuel inp sub = .ok g') := by
  refine ⟨?_, ProcessNewPlayerInput_total env fuel g inp sub⟩
  intro g' h
  obtain ⟨g1, hg1, hdraw⟩ := ProcessNewPlayerInput_ok env fuel g inp sub g' h
  obtain ⟨k, -, -, hfin⟩ := catchUpAndFinalize_ok env fuel g inp g1 hg1
  obtain ⟨-, -, -, -, -, -, hdr, hdt, -, -⟩ := finalizeTicks_ok env k _ g1 hfin
  obtain ⟨⟨-, hb, hI, hT, hin, hst, hfz, -⟩, hsub, hnot⟩ :=
    predictAndDraw_ok env _ g' _ sub hdraw
  simp only at hdr hdt
  obtain ⟨-, -, -, -, -, -, hbd, hbt, hbu⟩ := bufferInput_frame g1 inp sub
  refine ⟨g1.uid_calls, ?_, ?_⟩
  · intro hs
    obtain ⟨s, m, u, hadv, hp, hd⟩ := hsub hs
    rw [drawPhase_subticked, hbu] at hadv
    rw [hb, hI, hT, hin, hst, hfz]
    exact ⟨s, m, u, hadv, hp, by rw [hd]; rfl, by rw [hd]; rfl, by rw [hd]; rfl,
      by rw [hd]; rfl, by rw [hd]; rfl⟩
  · intro hs
    obtain ⟨pred, m, u, hadv, hp, hz, hnz⟩ := hnot hs
    rw [hbu] at hadv
    rw [drawPhase_not_subticked, hbd, hbt, hdt, hdr] at hnz
    rw [hbt, hdt] at hz
    rw [hb, hI, hT, hin, hst, hfz]
    refine ⟨pred, m, u, hadv, hp, ?_, ?_⟩
    · intro he
      exact hz (by rw [he]; simp)
    · intro hne
      exact hnz (fun he => hne (by linarith))

/-- Witness of C10 (amended): the second sample at 30 ms of the driver started
at 0 with a 50 ms tick, the first sample having been drawn at 10 ms, gives the
blend at phase `(30 - 10) / (50 - 10)` of the previous drawable state and the
predicted tick; a subtick-precise sample at 20 ms on the started driver gives
the finalized state advanced up to the fraction `20 / 50`. -/
theorem ProcessNewPlayerInput_drawable_witness :
    (demoAfterFirst.ProcessNewPlayerInput demoEnv 2 (demoInput 30000000 0 false) false
        = .ok demoAfterSecond ∧
      ∃ uid pred moves uid',
        demoAfterSecond.m_prev_finalized_game_tick.AdvanceSimulation demoEnv uid
          demoAfterSecond.m_simtime_step_size
          demoAfterSecond.m_inputs_since_prev_finalized_game_tick demoAfterSecond.SubtickSteps 1
            = .returned pred moves uid' ∧
        demoAfterSecond.m_prev_predicted_game_tick = pred ∧
        WorldState.Interpolate demoAfterFirst.m_prev_drawable_worldstate pred
            (((30000000 - 10000000 : Int) : ℚ) / ((0 + 50000000 - 10000000 : Int) : ℚ))
          = some demoAfterSecond.m_prev_drawable_worldstate) ∧
    (demoStarted.ProcessNewPlayerInput demoEnv 2 (demoInput 20000000 8 true) true
        = .ok demoAfterSubtick ∧
      ∃ uid s moves uid',
        demoAfterSubtick.m_prev_finalized_game_tick.AdvanceSimulation demoEnv uid
          demoAfterSubtick.m_simtime_step_size
          demoAfterSubtick.m_inputs_since_prev_finalized_game_tick demoAfterSubtick.SubtickSteps
          (((20000000 - 0 : Int) : ℚ) / ((50000000 : Int) : ℚ)) = .returned s moves uid' ∧
        demoAfterSubtick.m_prev_predicted_game_tick = s ∧
        demoAfterSubtick.m_prev_drawable_worldstate.csgo_mv = s.csgo_mv) := by
  constructor
  · have hrun : demoAfterFirst.ProcessNewPlayerInput demoEnv 2 (demoInput 30000000 0 false) false
        = .ok demoAfterSecond := by decide!
    refine ⟨hrun, ?_⟩
    obtain ⟨uid, -, hnot⟩ := (ProcessNewPlayerInput_drawable demoEnv 2 demoAfterFirst
      (demoInput 30000000 0 false) false (by decide!)).1 demoAfterSecond hrun
    obtain ⟨pred, m, u, hadv, hp, -, hint⟩ := hnot rfl
    have hb : demoAfterSecond.m_realtime_last_tick = 0 := by decide!
    have hI : demoAfterSecond.m_realtime_game_tick_interval = 50000000 := by decide!
    have ht : demoAfterFirst.m_prev_drawable_worldstate_timepoint = 10000000 := by decide!
    have hint' := hint (by rw [hb, hI, ht]; decide)
    rw [hb, hI, ht] at hint'
    exact ⟨uid, pred, m, u, hadv, hp, hint'⟩
  · have hrun : demoStarted.ProcessNewPlayerInput demoEnv 2 (demoInput 20000000 8 true) true
        = .ok demoAfterSubtick := by decide!
    refine ⟨hrun, ?_⟩
    obtain ⟨uid, hsub, -⟩ := (ProcessNewPlayerInput_drawable demoEnv 2 demoStarted
      (demoInput 20000000 8 true) true (by decide!)).1 demoAfterSubtick hrun
    obtain ⟨s, m, u, hadv, hp, -, -, -, hmv, -⟩ := hsub rfl
    have hb : demoAfterSubtick.m_realtime_last_tick = 0 := by decide!
    have hI : demoAfterSubtick.m_realtime_game_tick_interval = 50000000 := by decide!
    have ht : (demoInput 20000000 8 true).sample_time = 20000000 := rfl
    rw [hb, hI, ht] at hadv
    exact ⟨uid, s, m, u, hadv, hp, hmv⟩

/-! ## Further claims on `AdvanceSimulation` -/

/-- C16: on a non-interpolated state, a call of `AdvanceSimulation` that meets
the preconditions while no map is loaded returns the state with `simtime`
advanced by the step duration and every other field (previous input, movement
state, player, projectiles) as it was; the movement integrator is not invoked
and no id is generated. -/
theorem AdvanceSimulation_without_world (env : Env) (uid : Nat) (self : WorldState) (T : ℚ)
    (chro : List PlayerInputState) (steps : List CsgoSubtickStep) (f : ℚ)
    (hworld : env.g_coll_world = false) (hni : self.is_interpolated = false) (hf : f ≤ 1)
    (hlast : ∀ last, steps.getLast? = some last → last.when ≤ f) :
    self.AdvanceSimulation env uid T chro steps f =
      .returned { self with simtime := self.simtime + T } [] uid := by
  rw [AdvanceSimulation_of_pre env uid self T chro steps f ⟨hni, hf, hlast⟩, if_neg (by simp [hworld])]

/-- Witness of C16: with no map loaded, a full advance of the state at time 0
with a buffered sample holding attack and a one-entry ledger only moves the
time point to `1/64`. -/
theorem AdvanceSimulation_without_world_witness :
    demoState.AdvanceSimulation { demoEnv with g_coll_world := false } 7 (1 / 64)
        [demoInput 5 1 true] [⟨1, 0, 1 / 4⟩] 1 =
      .returned { demoState with simtime := demoState.simtime + 1 / 64 } [] 7 :=
  AdvanceSimulation_without_world { demoEnv with g_coll_world := false } 7 demoState (1 / 64)
    [demoInput 5 1 true] [⟨1, 0, 1 / 4⟩] 1 rfl rfl (le_refl 1)
    (by intro last hl; simp at hl; subst hl; norm_num)

/-! ## Claims on `Start` -/

/-- C17: for a step duration and a timescale above 0, whenever
`Start(step, timescale, S)` returns, the finalized tick id is 0, the finalized
and the drawable state are `S`, the session start, the last tick boundary and
the drawable time point are the real time captured by `Start`, the buffered
inputs are empty and the predicted state is `S` advanced by one full step with
no buffered input and an empty ledger. `Start` returns for every `S` that is not
interpolated. -/
theorem Start_state (env : Env) (now : Int) (g : CsgoGame) (step scale : ℚ) (S : WorldState)
    (hstep : 0 < step) (hscale : 0 < scale) :
    (∀ g', CsgoGame.Start env now g step scale S = .ok g' →
      g'.m_prev_finalized_game_tick_id = 0 ∧
      g'.m_prev_finalized_game_tick = S ∧
      g'.m_prev_drawable_worldstate = S ∧
      g'.m_realtime_game_start = now ∧
      g'.m_realtime_last_tick = now ∧
      g'.m_prev_drawable_worldstate_timepoint = now ∧
      g'.m_inputs_since_prev_finalized_game_tick = [] ∧
      g'.m_simtime_step_size = step ∧
      ∃ moves uid', S.AdvanceSimulation env g.uid_calls step [] [] 1 =
        .returned g'.m_prev_predicted_game_tick moves uid') ∧
    (S.is_interpolated = false → ∃ g', CsgoGame.Start env now g step scale S = .ok g') := by
  unfold CsgoGame.Start
  rw [if_neg (not_not.mpr hstep), if_neg (not_not.mpr hscale)]
  constructor
  · intro g' h
    cases hadv : S.AdvanceSimulation env g.uid_calls step [] [] 1 with
    | aborted s => rw [hadv] at h; cases h
    | returned pred m u =>
      rw [hadv] at h
      cases h
      exact ⟨rfl, rfl, rfl, rfl, rfl, rfl, rfl, rfl, m, u, rfl⟩
  · intro hni
    obtain ⟨pred, m, u, hadv, -⟩ := AdvanceSimulation_returned env g.uid_calls S step [] [] 1
      ⟨hni, le_refl 1, by simp⟩
    rw [hadv]
    exact ⟨_, rfl⟩

/-- Witness of C17: `Start(50 ms, 1.0, demoState)` at real time 0 returns the
driver `demoStarted`, whose finalized and drawable states are `demoState` and
whose predicted state is `demoState` advanced by one step. -/
theorem Start_state_witness :
    CsgoGame.Start demoEnv 0 demoUnstarted (1 / 20) 1 demoState = .ok demoStarted ∧
    demoStarted.m_prev_finalized_game_tick = demoState ∧
    demoStarted.m_prev_drawable_worldstate = demoState ∧
    demoStarted.m_realtime_last_tick = 0 ∧
    ∃ moves uid', demoState.AdvanceSimulation demoEnv demoUnstarted.uid_calls (1 / 20) [] [] 1 =
      .returned demoStarted.m_prev_predicted_game_tick moves uid' := by
  have hrun : CsgoGame.Start demoEnv 0 demoUnstarted (1 / 20) 1 demoState = .ok demoStarted := by
    decide!
  obtain ⟨-, h2, h3, -, h5, -, -, -, h9⟩ :=
    (Start_state demoEnv 0 demoUnstarted (1 / 20) 1 demoState (by norm_num) (by norm_num)).1
      demoStarted hrun
  exact ⟨hrun, h2, h3, h5, h9⟩

/-! ## Lemmas on the ledger update -/

theorem jumpBit_set (x : Nat) : (x ||| 2).testBit 1 = true := by
  have h2 : Nat.testBit 2 1 = true := by decide
  rw [Nat.testBit_or, h2, Bool.or_true]

theorem jumpBit_cleared (x : Nat) : ((x ||| 2) &&& (2 ^ 64 - 3)).testBit 1 = false := by
  have h : Nat.testBit (2 ^ 64 - 3) 1 = false := by decide
  rw [Nat.testBit_and, h, Bool.and_false]

theorem updateLedger_cond (g : CsgoGame) (inp : PlayerInputState) :
    ((g.SubtickSteps.isEmpty ∧
        g.m_prev_finalized_game_tick.prev_input.nButtons ≠ inp.nButtons) ∨
      (¬ g.SubtickSteps.isEmpty ∧
        (g.SubtickSteps.getLast?.map CsgoSubtickStep.inputBitmask) ≠ some inp.nButtons) ∨
      inp.scrollwheel_jumped) ↔
    (inp.nButtons ≠ lastMask g.m_prev_finalized_game_tick.prev_input.nButtons g.SubtickSteps ∨
      inp.scrollwheel_jumped = true) := by
  unfold lastMask
  cases hs : g.SubtickSteps.getLast? with
  | none =>
    have hnil : g.SubtickSteps = [] := List.getLast?_eq_none_iff.mp hs
    rw [hnil]
    simp only [List.isEmpty_nil, true_and, not_true_eq_false, false_and, false_or]
    rw [ne_comm]
  | some last =>
    have hemp : g.SubtickSteps.isEmpty = false := by
      cases hl : g.SubtickSteps with
      | nil => rw [hl] at hs; cases hs
      | cons a l => rfl
    rw [hemp]
    simp only [Bool.false_eq_true, false_and, not_false_eq_true, true_and, false_or,
      Option.map_some', ne_eq, Option.some.injEq]
    rw [eq_comm]

theorem updateLedger_cases (g : CsgoGame) (inp : PlayerInputState) (sub : Bool) (t : Int) :
    (inp.nButtons = lastMask g.m_prev_finalized_game_tick.prev_input.nButtons g.SubtickSteps →
      inp.scrollwheel_jumped = false → updateLedger g inp sub t = g.SubtickSteps) ∧
    (inp.nButtons ≠ lastMask g.m_prev_finalized_game_tick.prev_input.nButtons g.SubtickSteps →
      inp.scrollwheel_jumped = false →
      updateLedger g inp sub t = g.SubtickSteps ++
        [⟨inp.nButtons, g.m_prev_finalized_game_tick_id,
          if sub then ((t - g.m_realtime_last_tick : Int) : ℚ) /
            (g.m_realtime_game_tick_interval : ℚ) else 0⟩]) ∧
    (inp.scrollwheel_jumped = true → sub = true →
      updateLedger g inp sub t = g.SubtickSteps ++
        [⟨inp.nButtons ||| 2, g.m_prev_finalized_game_tick_id,
            ((t - g.m_realtime_last_tick : Int) : ℚ) / (g.m_realtime_game_tick_interval : ℚ)⟩,
          ⟨(inp.nButtons ||| 2) &&& (2 ^ 64 - 3), g.m_prev_finalized_game_tick_id,
            ((t - g.m_realtime_last_tick : Int) : ℚ) / (g.m_realtime_game_tick_interval : ℚ)⟩]) ∧
    (inp.scrollwheel_jumped = true → sub = false →
      updateLedger g inp sub t = g.SubtickSteps ++
        [⟨inp.nButtons ||| 2, g.m_prev_finalized_game_tick_id, 0⟩]) := by
  have hc := updateLedger_cond g inp
  refine ⟨?_, ?_, ?_, ?_⟩
  · intro he hj
    unfold updateLedger
    rw [if_neg]
    rw [hc]
    rintro (h | h)
    · exact h he
    · rw [hj] at h; cases h
  · intro hne hj
    unfold updateLedger
    rw [if_pos (hc.mpr (Or.inl hne)), if_neg (by rw [hj]; simp)]
  · intro hj hs
    unfold updateLedger
    rw [if_pos (hc.mpr (Or.inr hj)), if_pos hj, if_pos hs]
    simp [hs]
  · intro hj hs
    unfold updateLedger
    rw [if_pos (hc.mpr (Or.inr hj)), if_pos hj, if_neg (by rw [hs]; simp)]
    simp [hs]

theorem ProcessNewPlayerInput_shape (env : Env) (fuel : Nat) (g : CsgoGame)
    (inp : PlayerInputState) (sub : Bool) (g' : CsgoGame)
    (h : g.ProcessNewPlayerInput env fuel inp sub = .ok g') :
    ∃ (k : Nat) (g1 : CsgoGame),
      catchUpAndFinalize env fuel g inp = .ok g1 ∧
      predictAndDraw env (bufferInput g1 inp sub) inp.sample_time sub = .ok g' ∧
      inp.sample_time ≤ g.m_realtime_last_tick + (k + 1) * g.m_realtime_game_tick_interval ∧
      (∀ j : Nat, j < k →
        g.m_realtime_last_tick + (j + 1) * g.m_realtime_game_tick_interval < inp.sample_time) ∧
      g'.m_prev_finalized_game_tick_id = g.m_prev_finalized_game_tick_id + k ∧
      g'.m_realtime_last_tick = g.m_realtime_last_tick + k * g.m_realtime_game_tick_interval ∧
      g'.m_realtime_game_tick_interval = g.m_realtime_game_tick_interval ∧
      g'.m_simtime_step_size = g.m_simtime_step_size ∧
      g'.m_inputs_since_prev_finalized_game_tick =
        (if k = 0 then g.m_inputs_since_prev_finalized_game_tick else []) ++ [inp] ∧
      g1.SubtickSteps = (if k = 0 then g.SubtickSteps else []) ∧
      g'.SubtickSteps = updateLedger g1 inp sub inp.sample_time ∧
      g'.m_prev_finalized_game_tick = g1.m_prev_finalized_game_tick ∧
      g1.m_prev_finalized_game_tick_id = g'.m_prev_finalized_game_tick_id ∧
      g1.m_realtime_last_tick = g'.m_realtime_last_tick ∧
      g1.m_realtime_game_tick_interval = g'.m_realtime_game_tick_interval ∧
      g1.m_prev_drawable_worldstate = g.m_prev_drawable_worldstate ∧
      g'.m_prev_finalized_game_tick.simtime =
        g.m_prev_finalized_game_tick.simtime + k * g.m_simtime_step_size ∧
      (g.m_prev_finalized_game_tick.is_interpolated = false →
        g'.m_prev_finalized_game_tick.is_interpolated = false) := by
  obtain ⟨g1, hg1, hdraw⟩ := ProcessNewPlayerInput_ok env fuel g inp sub g' h
  obtain ⟨k, hle, hj, hfin⟩ := catchUpAndFinalize_ok env fuel g inp g1 hg1
  obtain ⟨f1, f2, f3, f4, f5, f6, f7, -, f9, f10⟩ := finalizeTicks_ok env k _ g1 hfin
  obtain ⟨⟨d1, d2, d3, d4, d5, d6, d7, -⟩, -, -⟩ := predictAndDraw_ok env _ g' _ sub hdraw
  obtain ⟨b1, b2, b3, b4, b5, b6, -, -, -⟩ := bufferInput_frame g1 inp sub
  simp only at f1 f2 f3 f4 f5 f6 f7 f9 f10
  refine ⟨k, g1, hg1, hdraw, hle, hj, ?_, ?_, ?_, ?_, ?_, f6, ?_, ?_, ?_, ?_, ?_, f7, ?_, ?_⟩
  · rw [d1, b1, f1]
  · rw [d2, b2, f2]
  · rw [d3, b3, f3]
  · rw [d4, b4, f4]
  · rw [d5, b5, f5]
  · rw [d6]; rfl
  · rw [d7, b6]
  · rw [d1, b1]
  · rw [d2, b2]
  · rw [d3, b3]
  · rw [d7, b6, f9]
  · intro hni; rw [d7, b6]; exact f10 hni

/-! ## Claims on the subtick ledger -/

/-- C11: let `base` be the ledger after the finalizing loop of a call of
`ProcessNewPlayerInput` and `active` its last bitmask, or the button mask of the
finalized state's `prev_input` when `base` is empty. The call leaves the ledger
`base` unchanged exactly when the sample's button mask equals `active` and the
sample carries no scroll-wheel jump. Without a jump and with another mask it
appends one entry with the sample's mask, the finalized tick id and the offset
`(t - boundary) / interval` for a subtick-precise sample, 0 otherwise. With a
jump and a subtick-precise sample it appends two entries of that same offset,
the first with bit 1 (jump) set, the second with it cleared; with a jump and any
other sample it appends one entry at offset 0 with bit 1 set. The tick interval
is taken to be other than 0, and the call runs to its end on every ready
driver. -/
theorem ProcessNewPlayerInput_ledger (env : Env) (fuel : Nat) (g : CsgoGame)
    (inp : PlayerInputState) (sub : Bool) (_hI : g.m_realtime_game_tick_interval ≠ 0) :
    (∀ g', g.ProcessNewPlayerInput env fuel inp sub = .ok g' →
      (inp.nButtons = lastMask g'.m_prev_finalized_game_tick.prev_input.nButtons
          (ledgerAfterFinalize g g') →
        inp.scrollwheel_jumped = false → g'.SubtickSteps = ledgerAfterFinalize g g') ∧
      (inp.nButtons ≠ lastMask g'.m_prev_finalized_game_tick.prev_input.nButtons
          (ledgerAfterFinalize g g') →
        inp.scrollwheel_jumped = false →
        g'.SubtickSteps = ledgerAfterFinalize g g' ++
          [⟨inp.nButtons, g'.m_prev_finalized_game_tick_id, sampleOffset g' inp sub⟩]) ∧
      (inp.scrollwheel_jumped = true → sub = true →
        g'.SubtickSteps = ledgerAfterFinalize g g' ++
          [⟨inp.nButtons ||| 2, g'.m_prev_finalized_game_tick_id, sampleOffset g' inp true⟩,
            ⟨(inp.nButtons ||| 2) &&& (2 ^ 64 - 3), g'.m_prev_finalized_game_tick_id,
              sampleOffset g' inp true⟩] ∧
        (inp.nButtons ||| 2).testBit 1 = true ∧
        ((inp.nButtons ||| 2) &&& (2 ^ 64 - 3)).testBit 1 = false) ∧
      (inp.scrollwheel_jumped = true → sub = false →
        g'.SubtickSteps = ledgerAfterFinalize g g' ++
          [⟨inp.nButtons ||| 2, g'.m_prev_finalized_game_tick_id, 0⟩] ∧
        (inp.nButtons ||| 2).testBit 1 = true)) ∧
    (DriverReady g inp sub fuel → ∃ g', g.ProcessNewPlayerInput env fuel inp sub = .ok g') := by
  refine ⟨?_, ProcessNewPlayerInput_total env fuel g inp sub⟩
  intro g' h
  obtain ⟨k, g1, -, -, -, -, hid, -, -, -, -, hbase, hled, hfz, hid1, hb1, hI1, -⟩ :=
    ProcessNewPlayerInput_shape env fuel g inp sub g' h
  have hb : ledgerAfterFinalize g g' = g1.SubtickSteps := by
    rw [hbase, ledgerAfterFinalize, hid]
    by_cases hk : k = 0
    · rw [if_pos hk, if_pos (by omega)]
    · rw [if_neg hk, if_neg (by omega)]
  obtain ⟨c1, c2, c3, c4⟩ := updateLedger_cases g1 inp sub inp.sample_time
  rw [hb, hled, hfz, ← hid1]
  unfold sampleOffset
  rw [← hb1, ← hI1]
  refine ⟨c1, c2, ?_, ?_⟩
  · intro hj hs
    exact ⟨by simpa using c3 hj hs, jumpBit_set _, jumpBit_cleared _⟩
  · intro hj hs
    exact ⟨c4 hj hs, jumpBit_set _⟩

/-- Witness of C11: on the driver started at 0 with a 50 ms tick, a
subtick-precise sample at 20 ms holding forward (mask 8) with a scroll-wheel
jump appends the entries `(10, tick 0, 2/5)` and `(8, tick 0, 2/5)`. -/
theorem ProcessNewPlayerInput_ledger_witness :
    demoStarted.ProcessNewPlayerInput demoEnv 2 (demoInput 20000000 8 true) true
      = .ok demoAfterSubtick ∧
    demoAfterSubtick.SubtickSteps = [⟨10, 0, 2 / 5⟩, ⟨8, 0, 2 / 5⟩] := by
  have hrun : demoStarted.ProcessNewPlayerInput demoEnv 2 (demoInput 20000000 8 true) true
      = .ok demoAfterSubtick := by decide!
  refine ⟨hrun, ?_⟩
  obtain ⟨-, -, h3, -⟩ := (ProcessNewPlayerInput_ledger demoEnv 2 demoStarted
    (demoInput 20000000 8 true) true (by decide!)).1 demoAfterSubtick hrun
  rw [(h3 rfl rfl).1]
  decide!

/-! ## Lemmas on the entity pass -/

theorem applyInput_buttons (env : Env) (w : WorldState) (chro : List PlayerInputState) :
    (applyInput env w chro).csgo_mv.m_nButtons = resolvedButtons env w chro ∧
      (applyInput env w chro).player = w.player ∧
      (applyInput env w chro).bumpmine_projectiles = w.bumpmine_projectiles := by
  unfold applyInput resolvedButtons
  refine ⟨?_, rfl, rfl⟩
  simp only
  split_ifs <;> rfl

theorem simulateProjectiles_list (env : Env) (T : ℚ) (todo : List BumpmineProjectile)
    (w : WorldState) (done : List BumpmineProjectile) :
    ∃ advanced, (simulateProjectiles env T w done todo).bumpmine_projectiles = done ++ advanced ∧
      List.Forall₂ (fun bm bm' => ∃ w', bm' = (env.BumpmineAdvance T w' bm).1) todo advanced := by
  induction todo generalizing w done with
  | nil => exact ⟨[], by simp [simulateProjectiles], List.Forall₂.nil⟩
  | cons bm rest ih =>
    rw [simulateProjectiles]
    obtain ⟨adv, h1, h2⟩ := ih
      { w with csgo_mv := (env.BumpmineAdvance T
          { w with bumpmine_projectiles := done ++ bm :: rest } bm).2 }
      (done ++ [(env.BumpmineAdvance T
          { w with bumpmine_projectiles := done ++ bm :: rest } bm).1])
    refine ⟨(env.BumpmineAdvance T
      { w with bumpmine_projectiles := done ++ bm :: rest } bm).1 :: adv, ?_, ?_⟩
    · rw [h1]; simp
    · exact List.Forall₂.cons ⟨_, rfl⟩ h2

theorem simulateProjectiles_buttons (env : Env) (T : ℚ)
    (hhook : ∀ dt w bm, (env.BumpmineAdvance dt w bm).2.m_nButtons = w.csgo_mv.m_nButtons)
    (todo : List BumpmineProjectile) (w : WorldState) (done : List BumpmineProjectile) :
    (simulateProjectiles env T w done todo).csgo_mv.m_nButtons = w.csgo_mv.m_nButtons := by
  induction todo generalizing w done with
  | nil => rfl
  | cons bm rest ih =>
    rw [simulateProjectiles, ih]
    exact hhook _ _ _

theorem spawnBumpmine_cases (env : Env) (T : ℚ) (uid : Nat) (w : WorldState) :
    (w.csgo_mv.m_nButtons &&& env.IN_ATTACK ≠ 0 ∧ w.player.next_primary_attack ≤ w.simtime →
      (spawnBumpmine env T uid w).1.bumpmine_projectiles =
          w.bumpmine_projectiles ++ [thrownBumpmine env uid w] ∧
        (spawnBumpmine env T uid w).1.player = { w.player with
          next_primary_attack := w.simtime +
            env.RoundToNearestSimTimeStep env.CSGO_BUMP_THROW_INTERVAL_SECS T } ∧
        (spawnBumpmine env T uid w).2 = uid + 1) ∧
    (¬ (w.csgo_mv.m_nButtons &&& env.IN_ATTACK ≠ 0 ∧ w.player.next_primary_attack ≤ w.simtime) →
      spawnBumpmine env T uid w = (w, uid)) := by
  unfold spawnBumpmine thrownBumpmine
  constructor
  · rintro ⟨h1, h2⟩
    rw [if_pos h1, if_pos h2]
    exact ⟨rfl, rfl, rfl⟩
  · intro h
    by_cases h1 : w.csgo_mv.m_nButtons &&& env.IN_ATTACK ≠ 0
    · rw [if_pos h1, if_neg (fun h2 => h ⟨h1, h2⟩)]
    · rw [if_neg h1]

/-! ## Claims on the entity pass -/

/-- C14: on a call of `AdvanceSimulation` with a map loaded that meets the
preconditions, the projectiles flagged detonated are removed and the remaining
ones advanced in order (`advanced`). When the resolved button mask has the
attack button and the advanced `simtime` has reached `next_primary_attack`,
exactly one new projectile is appended behind them and `next_primary_attack`
becomes `simtime + RoundToNearestSimTimeStep(throw interval, step)`; otherwise
nothing is appended and the player (cooldown included) is unchanged. So a held
attack button spawns no second projectile while `simtime` is below the
rescheduled cooldown. The projectile integrator is taken to leave the button
mask of the movement state alone. -/
theorem AdvanceSimulation_projectiles (env : Env) (uid : Nat) (self : WorldState) (T : ℚ)
    (chro : List PlayerInputState) (steps : List CsgoSubtickStep) (f : ℚ)
    (hworld : env.g_coll_world = true) (hni : self.is_interpolated = false) (hf : f ≤ 1)
    (hlast : ∀ last, steps.getLast? = some last → last.when ≤ f)
    (hhook : ∀ dt w bm, (env.BumpmineAdvance dt w bm).2.m_nButtons = w.csgo_mv.m_nButtons) :
    ∃ s moves uid' advanced,
      self.AdvanceSimulation env uid T chro steps f = .returned s moves uid' ∧
      List.Forall₂ (fun bm bm' => ∃ w', bm' = (env.BumpmineAdvance T w' bm).1)
        (self.bumpmine_projectiles.filter (fun bm => ! bm.has_detonated)) advanced ∧
      (resolvedButtons env self chro &&& env.IN_ATTACK ≠ 0 ∧
          self.player.next_primary_attack ≤ self.simtime + T →
        (∃ w', s.bumpmine_projectiles = advanced ++ [thrownBumpmine env uid w']) ∧
        s.player = { self.player with
          next_primary_attack := self.simtime + T +
            env.RoundToNearestSimTimeStep env.CSGO_BUMP_THROW_INTERVAL_SECS T } ∧
        uid' = uid + 1) ∧
      (¬ (resolvedButtons env self chro &&& env.IN_ATTACK ≠ 0 ∧
          self.player.next_primary_attack ≤ self.simtime + T) →
        s.bumpmine_projectiles = advanced ∧ s.player = self.player ∧ uid' = uid) := by
  rw [AdvanceSimulation_of_pre env uid self T chro steps f ⟨hni, hf, hlast⟩, if_pos hworld]
  obtain ⟨hb2, hp2, hl2⟩ := applyInput_buttons env { self with simtime := self.simtime + T } chro
  obtain ⟨ht2, -, -⟩ := applyInput_frame env { self with simtime := self.simtime + T } chro
  obtain ⟨advanced, hadv, hall⟩ := simulateProjectiles_list env T
    ((applyInput env { self with simtime := self.simtime + T } chro).bumpmine_projectiles.filter
      (fun bm => ! bm.has_detonated))
    (applyInput env { self with simtime := self.simtime + T } chro) []
  obtain ⟨ht3, -, -, hp3⟩ := simulateProjectiles_frame env T
    ((applyInput env { self with simtime := self.simtime + T } chro).bumpmine_projectiles.filter
      (fun bm => ! bm.has_detonated))
    (applyInput env { self with simtime := self.simtime + T } chro) []
  have hb3 := simulateProjectiles_buttons env T hhook
    ((applyInput env { self with simtime := self.simtime + T } chro).bumpmine_projectiles.filter
      (fun bm => ! bm.has_detonated))
    (applyInput env { self with simtime := self.simtime + T } chro) []
  obtain ⟨hyes, hno⟩ := spawnBumpmine_cases env T uid
    (simulateProjectiles env T (applyInput env { self with simtime := self.simtime + T } chro) []
      ((applyInput env { self with simtime := self.simtime + T } chro).bumpmine_projectiles.filter
        (fun bm => ! bm.has_detonated)))
  rw [hb3, hb2, hp3, hp2, ht3, ht2] at hyes hno
  rw [hl2] at hall
  simp only [List.nil_append] at hadv
  refine ⟨_, _, _, advanced, rfl, hall, ?_, ?_⟩
  · intro hc
    obtain ⟨h1, h2, h3⟩ := hyes hc
    simp only [advanceLoaded, simulateEntities, (segmentLoop_frame env T steps f _).2.2.1,
      (segmentLoop_frame env T steps f _).2.2.2]
    exact ⟨⟨_, by rw [h1, hadv]⟩, h2, h3⟩
  · intro hc
    have h := hno hc
    simp only [advanceLoaded, simulateEntities, (segmentLoop_frame env T steps f _).2.2.1,
      (segmentLoop_frame env T steps f _).2.2.2]
    rw [h]
    exact ⟨hadv, by rw [hp3, hp2], rfl⟩

/-- Witness of C14: a first step with the attack button newly held removes the
detonated projectile 4, keeps projectile 5 and appends projectile 1, moving the
cooldown to `1/64 + 1/2`; a second step with the button still held appends
nothing. -/
theorem AdvanceSimulation_projectiles_witness :
    (∃ s moves uid',
      demoArmed.AdvanceSimulation demoEnv 0 (1 / 64) [demoInput 5 1 false] [] 1
        = .returned s moves uid' ∧
      s = demoTick1 ∧ uid' = 1 ∧
      s.player = { demoArmed.player with next_primary_attack := 0 + 1 / 64 + 1 / 2 } ∧
      demoTick1.bumpmine_projectiles.map BumpmineProjectile.unique_id = [5, 1]) ∧
    (∃ s moves uid',
      demoTick1.AdvanceSimulation demoEnv 1 (1 / 64) [demoInput 6 1 false] [] 1
        = .returned s moves uid' ∧
      s.bumpmine_projectiles.length = 2 ∧ s.player = demoTick1.player ∧ uid' = 1) := by
  constructor
  · obtain ⟨s, m, u, adv, hcall, -, hyes, -⟩ := AdvanceSimulation_projectiles demoEnv 0 demoArmed
      (1 / 64) [demoInput 5 1 false] [] 1 rfl rfl (le_refl 1) (by simp) (fun _ _ _ => rfl)
    obtain ⟨-, hp, hu⟩ := hyes (by decide!)
    refine ⟨s, m, u, hcall, ?_, hu, ?_, by decide!⟩
    · unfold demoTick1
      rw [hcall]
    · rw [hp]
      have : demoEnv.RoundToNearestSimTimeStep demoEnv.CSGO_BUMP_THROW_INTERVAL_SECS (1 / 64)
          = 1 / 2 := by decide!
      rw [this]
      rfl
  · obtain ⟨s, m, u, adv, hcall, hall, -, hno⟩ := AdvanceSimulation_projectiles demoEnv 1 demoTick1
      (1 / 64) [demoInput 6 1 false] [] 1 rfl (by decide!) (le_refl 1) (by simp)
      (fun _ _ _ => rfl)
    obtain ⟨hl, hp, hu⟩ := hno (by decide!)
    refine ⟨s, m, u, hcall, ?_, hp, hu⟩
    rw [hl, ← hall.length_eq]
    decide!

/-! ## Evaluations of the code where it departs from a claim -/

/-- C15: the code at a failing input. A full advance with a map loaded, the
player walking (not noclip), one buffered sample that carries a scroll-wheel
jump and an empty ledger returns; the resolved input carries the jump and the
mask of lines 131-136 has the jump button, yet the one invocation of the
movement integrator runs with the button mask 0 of `prev_input`, without the
jump button. -/
theorem jump_injection_is_overwritten :
    (demoState.AdvanceSimulation demoEnv 0 (1 / 64) [demoInput 5 0 true] [] 1).failed = false ∧
    (resolveInput demoState.prev_input [demoInput 5 0 true]).scrollwheel_jumped = true ∧
    demoState.csgo_mv.m_MoveType ≠ demoEnv.MOVETYPE_NOCLIP ∧
    resolvedButtons demoEnv demoState [demoInput 5 0 true] &&& demoEnv.IN_JUMP ≠ 0 ∧
    (demoState.AdvanceSimulation demoEnv 0 (1 / 64) [demoInput 5 0 true] [] 1).moveCalls.map
      MoveCall.buttons = [0] ∧
    (0 &&& demoEnv.IN_JUMP = 0) := by
  decide!

/-- C18: the code at a failing input. `Start` called on a driver whose ledger
holds two entries returns with the buffered inputs empty but the ledger still
holding the two entries, a state other than the one `Start` gives with the same
arguments on a fresh driver; the tick finalized by the next sample (60 ms, no
button held) is then advanced with those entries and ends with their last
button mask 8 in `prev_input`. -/
theorem restart_keeps_ledger :
    CsgoGame.Start demoEnv 0 demoAfterSubtick (1 / 20) 1 demoState = .ok demoRestarted ∧
    CsgoGame.Start demoEnv 0 demoUnstarted (1 / 20) 1 demoState = .ok demoStarted ∧
    demoRestarted.m_inputs_since_prev_finalized_game_tick = [] ∧
    demoRestarted.SubtickSteps = [⟨10, 0, 2 / 5⟩, ⟨8, 0, 2 / 5⟩] ∧
    demoStarted.SubtickSteps = [] ∧
    demoRestarted.ProcessNewPlayerInput demoEnv 2 (demoInput 60000000 0 false) false
      = .ok demoRestartedNext ∧
    demoRestartedNext.m_prev_finalized_game_tick_id = 1 ∧
    demoRestartedNext.m_prev_finalized_game_tick.prev_input.nButtons = 8 := by
  decide!

theorem catchUp_stuck (I t : Int) (hI : I ≤ 0) (fuel : Nat) (b : Int) (id : Nat) (hb : b < t) :
    catchUp I t fuel b id = none := by
  induction fuel generalizing b id with
  | zero => rfl
  | succ n ih =>
    rw [catchUp, if_pos (by linarith)]
    exact ih _ _ (by linarith)

theorem ProcessNewPlayerInput_stuck (env : Env) (g : CsgoGame) (inp : PlayerInputState)
    (sub : Bool) (hs : g.HasBeenStarted = true)
    (hin : g.m_inputs_since_prev_finalized_game_tick = [])
    (hI : g.m_realtime_game_tick_interval ≤ 0) (hb : g.m_realtime_last_tick < inp.sample_time)
    (fuel : Nat) : g.ProcessNewPlayerInput env fuel inp sub = .outOfFuel := by
  unfold CsgoGame.ProcessNewPlayerInput catchUpAndFinalize
  rw [if_neg (by simp [hs]), hin, if_neg (by simp), catchUp_stuck _ _ hI _ _ _ hb]

/-- C19: the code at a failing input. `Start(step = 1/64 s, timescale = 10^9)`,
both above 0, returns with the tick interval 0 ns; on that driver the catch-up
loop of `ProcessNewPlayerInput` for a sample 1 ns after the start is still
running after any number of tests of its condition. The same holds on the
driver started with a 50 ms tick after `UpdateTimescale(-1)`. -/
theorem catch_up_never_ends :
    (CsgoGame.Start demoEnv 0 demoUnstarted (1 / 64) 1000000000 demoState = .ok demoFastForward ∧
      demoFastForward.m_realtime_game_tick_interval = 0 ∧
      ∀ fuel : Nat, demoFastForward.ProcessNewPlayerInput demoEnv fuel (demoInput 1 0 false) false
        = .outOfFuel) ∧
    ((demoStarted.UpdateTimescale (-1)).m_realtime_game_tick_interval = -50000000 ∧
      ∀ fuel : Nat, (demoStarted.UpdateTimescale (-1)).ProcessNewPlayerInput demoEnv fuel
        (demoInput 1 0 false) false = .outOfFuel) := by
  refine ⟨⟨by decide!, by decide!, fun fuel => ?_⟩, ⟨by decide!, fun fuel => ?_⟩⟩
  · exact ProcessNewPlayerInput_stuck demoEnv demoFastForward _ false (by decide!) (by decide!)
      (by decide!) (by decide!) fuel
  · exact ProcessNewPlayerInput_stuck demoEnv (demoStarted.UpdateTimescale (-1)) _ false
      (by decide!) (by decide!) (by decide!) (by decide!) fuel

/-! ## Claims on sequences of calls -/

theorem samplesOrdered_mono (t0 t1 : Int) (h : t1 ≤ t0)
    (samples : List (PlayerInputState × Bool)) (hs : samplesOrdered t0 samples) :
    samplesOrdered t1 samples := by
  cases samples with
  | nil => trivial
  | cons p rest => exact ⟨le_trans h hs.1, hs.2⟩

theorem updateLedger_mem (g : CsgoGame) (inp : PlayerInputState) (sub : Bool) (t : Int)
    (e : CsgoSubtickStep) (he : e ∈ updateLedger g inp sub t) :
    e ∈ g.SubtickSteps ∨
      e.when = (if sub then ((t - g.m_realtime_last_tick : Int) : ℚ) /
        (g.m_realtime_game_tick_interval : ℚ) else 0) := by
  obtain ⟨c1, c2, c3, c4⟩ := updateLedger_cases g inp sub t
  by_cases hj : inp.scrollwheel_jumped = true
  · cases sub with
    | true =>
      rw [c3 hj rfl] at he
      simp only [List.mem_append, List.mem_cons, List.mem_singleton, List.not_mem_nil,
        or_false] at he
      rcases he with h | h | h
      · exact Or.inl h
      · right; rw [h]; rfl
      · right; rw [h]; rfl
    | false =>
      rw [c4 hj rfl] at he
      simp only [List.mem_append, List.mem_singleton] at he
      rcases he with h | h
      · exact Or.inl h
      · right; rw [h]; rfl
  · have hj' : inp.scrollwheel_jumped = false := by simpa using hj
    by_cases hm : inp.nButtons =
        lastMask g.m_prev_finalized_game_tick.prev_input.nButtons g.SubtickSteps
    · rw [c1 hm hj'] at he
      exact Or.inl he
    · rw [c2 hm hj'] at he
      simp only [List.mem_append, List.mem_singleton] at he
      rcases he with h | h
      · exact Or.inl h
      · right; rw [h]

theorem ProcessNewPlayerInput_offsets (env : Env) (fuel : Nat) (g : CsgoGame)
    (inp : PlayerInputState) (sub : Bool) (g' : CsgoGame)
    (hI : 0 < g.m_realtime_game_tick_interval) (hb : g.m_realtime_last_tick ≤ inp.sample_time)
    (h : g.ProcessNewPlayerInput env fuel inp sub = .ok g') :
    g'.m_realtime_game_tick_interval = g.m_realtime_game_tick_interval ∧
    g'.m_realtime_last_tick ≤ inp.sample_time ∧
    inp.sample_time ≤ g'.m_realtime_last_tick + g'.m_realtime_game_tick_interval ∧
    g.m_realtime_last_tick ≤ g'.m_realtime_last_tick ∧
    ∀ e ∈ g'.SubtickSteps, e ∈ g.SubtickSteps ∨ (0 ≤ e.when ∧ e.when ≤ 1) := by
  obtain ⟨k, g1, -, -, hle, hj, -, hb', hI', -, -, hbase, hled, -, -, hb1, hI1, -⟩ :=
    ProcessNewPlayerInput_shape env fuel g inp sub g' h
  have hlow : g'.m_realtime_last_tick ≤ inp.sample_time := by
    rw [hb']
    rcases Nat.eq_zero_or_pos k with hk | hk
    · subst hk; simpa using hb
    · have := hj (k - 1) (by omega)
      have hc : ((k - 1 : Nat) : Int) + 1 = (k : Int) := by omega
      rw [hc] at this
      exact le_of_lt this
  have hhigh : inp.sample_time ≤ g'.m_realtime_last_tick + g'.m_realtime_game_tick_interval := by
    rw [hb', hI']; linarith
  have hmono : g.m_realtime_last_tick ≤ g'.m_realtime_last_tick := by
    rw [hb']
    have : 0 ≤ (k : Int) * g.m_realtime_game_tick_interval :=
      mul_nonneg (Int.ofNat_nonneg k) (le_of_lt hI)
    linarith
  refine ⟨hI', hlow, hhigh, hmono, ?_⟩
  intro e he
  rw [hled] at he
  rcases updateLedger_mem g1 inp sub inp.sample_time e he with hold | hnew
  · left
    rw [hbase] at hold
    by_cases hk : k = 0
    · rw [if_pos hk] at hold; exact hold
    · rw [if_neg hk] at hold; cases hold
  · right
    rw [hnew, hb1, hI1]
    have hIq : (0 : ℚ) < (g'.m_realtime_game_tick_interval : ℚ) := by
      rw [hI']; exact_mod_cast hI
    cases sub with
    | false => simp
    | true =>
      simp only [if_true]
      constructor
      · apply div_nonneg
        · have : (0 : Int) ≤ inp.sample_time - g'.m_realtime_last_tick := by linarith
          exact_mod_cast this
        · exact le_of_lt hIq
      · rw [div_le_one hIq]
        have : inp.sample_time - g'.m_realtime_last_tick ≤ g'.m_realtime_game_tick_interval := by
          linarith
        exact_mod_cast this

theorem processInputs_cons_ok (env : Env) (fuel : Nat) (g : CsgoGame) (inp : PlayerInputState)
    (sub : Bool) (rest : List (PlayerInputState × Bool)) (g' : CsgoGame)
    (h : processInputs env fuel g ((inp, sub) :: rest) = .ok g') :
    ∃ g1, g.ProcessNewPlayerInput env fuel inp sub = .ok g1 ∧
      processInputs env fuel g1 rest = .ok g' := by
  rw [processInputs] at h
  cases hc : g.ProcessNewPlayerInput env fuel inp sub with
  | ok g1 => rw [hc] at h; exact ⟨g1, rfl, h⟩
  | assertFailed => rw [hc] at h; cases h
  | outOfFuel => rw [hc] at h; cases h

/-- C12 fails as stated: on the driver started at 0 with a 50 ms tick, a
subtick-precise sample exactly at the next tick boundary (50 ms) is written to
the ledger with offset 1, and one taken 10 ms before the start with offset
`-1/5`; neither lies in `[0, 1)`. -/
theorem ledger_offset_reaches_one :
    0 < demoStarted.m_realtime_game_tick_interval ∧
    demoStarted.ProcessNewPlayerInput demoEnv 2 (demoInput 50000000 8 false) true
      = .ok demoAfterBoundary ∧
    demoAfterBoundary.SubtickSteps = [⟨8, 0, 1⟩] ∧
    demoStarted.ProcessNewPlayerInput demoEnv 2 (demoInput (-10000000) 8 false) true
      = .ok demoAfterEarly ∧
    demoAfterEarly.SubtickSteps = [⟨8, 0, -1 / 5⟩] := by
  decide!

/-- C12 (amended): on a driver with a tick interval above 0, after every
sequence of `ProcessNewPlayerInput` calls that returns, with non-decreasing
sample times none of which is earlier than the tick boundary the driver had
before the sequence, every ledger entry that was not in the ledger before the
sequence has an offset `when` with `0 ≤ when ≤ 1`. -/
theorem processInputs_offsets (env : Env) (fuel : Nat) (g : CsgoGame)
    (samples : List (PlayerInputState × Bool))
    (hI : 0 < g.m_realtime_game_tick_interval)
    (hord : samplesOrdered g.m_realtime_last_tick samples) :
    ∀ g', processInputs env fuel g samples = .ok g' →
      ∀ e ∈ g'.SubtickSteps, e ∈ g.SubtickSteps ∨ (0 ≤ e.when ∧ e.when ≤ 1) := by
  induction samples generalizing g with
  | nil =>
    intro g' h e he
    rw [processInputs] at h
    cases h
    exact Or.inl he
  | cons p rest ih =>
    obtain ⟨inp, sub⟩ := p
    intro g' h e he
    obtain ⟨g1, h1, hrest⟩ := processInputs_cons_ok env fuel g inp sub rest g' h
    obtain ⟨hI1, hlow, -, -, hstep⟩ := ProcessNewPlayerInput_offsets env fuel g inp sub g1 hI
      hord.1 h1
    rcases ih g1 (by rw [hI1]; exact hI) (samplesOrdered_mono _ _ hlow rest hord.2) g' hrest e he
      with hin | hr
    · exact hstep e hin
    · exact Or.inr hr

/-- Witness of C12 (amended): two subtick-precise samples at 20 ms (forward,
with a jump) and at 50 ms (nothing held) on the driver started at 0 with a
50 ms tick leave a ledger whose offsets all lie in `[0, 1]`. -/
theorem processInputs_offsets_witness :
    processInputs demoEnv 2 demoStarted
      [(demoInput 20000000 8 true, true), (demoInput 50000000 0 false, true)]
        = .ok demoTwoSubticks ∧
    demoTwoSubticks.SubtickSteps.length = 3 ∧
    ∀ e ∈ demoTwoSubticks.SubtickSteps, 0 ≤ e.when ∧ e.when ≤ 1 := by
  have hrun : processInputs demoEnv 2 demoStarted
      [(demoInput 20000000 8 true, true), (demoInput 50000000 0 false, true)]
        = .ok demoTwoSubticks := by decide!
  refine ⟨hrun, by decide!, fun e he => ?_⟩
  rcases processInputs_offsets demoEnv 2 demoStarted
    [(demoInput 20000000 8 true, true), (demoInput 50000000 0 false, true)]
    (by decide!) ⟨by decide!, by decide!, trivial⟩ demoTwoSubticks hrun e he with hin | hr
  · have hst : demoStarted.SubtickSteps = [] := by decide!
    rw [hst] at hin
    cases hin
  · exact hr

/-- C13: the code at a failing input. On the driver started at 0 with a 50 ms
tick, a subtick-precise sample at 20 ms holding forward followed by a sample at
30 ms that is not subtick-precise and holds nothing leaves the ledger
`(8, 2/5), (0, 0)`: the second offset is below the first. -/
theorem mixed_samples_break_order :
    processInputs demoEnv 2 demoStarted
      [(demoInput 20000000 8 false, true), (demoInput 30000000 0 false, false)] = .ok demoMixed ∧
    demoMixed.SubtickSteps = [⟨8, 0, 2 / 5⟩, ⟨0, 0, 0⟩] ∧
    demoMixed.m_prev_finalized_game_tick_id = 0 ∧
    ((0 : ℚ) < 2 / 5) := by
  decide!

/-! ## The driver invariant -/

theorem Interpolate_some_le (A B d : WorldState) (phase : ℚ)
    (h : WorldState.Interpolate A B phase = some d) : d.simtime ≤ B.simtime := by
  by_cases hAB : A.simtime ≤ B.simtime
  · obtain ⟨s, hs, ht⟩ := Interpolate_simtime A B phase hAB
    rw [hs] at h
    cases h
    rw [ht]
    have h1 : max 0 (min 1 phase) ≤ 1 := max_le (by norm_num) (min_le_left _ _)
    have h2 : 0 ≤ B.simtime - A.simtime := sub_nonneg.mpr hAB
    have := mul_le_mul_of_nonneg_left h1 h2
    linarith
  · unfold WorldState.Interpolate at h
    rw [if_pos hAB] at h
    cases h

theorem predictAndDraw_drawable_le (env : Env) (g g' : CsgoGame) (t : Int) (sub : Bool)
    (h : predictAndDraw env g t sub = .ok g') :
    g'.m_prev_drawable_worldstate.simtime ≤
      g.m_prev_finalized_game_tick.simtime + g.m_simtime_step_size := by
  obtain ⟨-, hsub, hnot⟩ := predictAndDraw_ok env g g' t sub h
  cases sub with
  | true =>
    obtain ⟨s, m, u, hadv, -, hd⟩ := hsub rfl
    obtain ⟨-, ht, -⟩ := AdvanceSimulation_returned_inv env _ _ _ _ _ _ s m u hadv
    rw [hd, ← ht]
    exact le_refl _
  | false =>
    obtain ⟨pred, m, u, hadv, -, hz, hnz⟩ := hnot rfl
    obtain ⟨-, ht, -⟩ := AdvanceSimulation_returned_inv env _ _ _ _ _ _ pred m u hadv
    rw [← ht]
    by_cases hr : g.m_realtime_last_tick + g.m_realtime_game_tick_interval
        - g.m_prev_drawable_worldstate_timepoint = 0
    · rw [hz hr]
    · exact Interpolate_some_le _ _ _ _ (hnz hr)

theorem DriverInv_ready (g : CsgoGame) (tlast : Int) (inp : PlayerInputState) (sub : Bool)
    (fuel : Nat) (hinv : DriverInv g tlast) (ht : tlast ≤ inp.sample_time) (hf0 : 0 < fuel)
    (hfuel : inp.sample_time - g.m_realtime_last_tick ≤ fuel * g.m_realtime_game_tick_interval) :
    DriverReady g inp sub fuel := by
  obtain ⟨h1, h2, h3, h4, h5, h6, h7⟩ := hinv
  refine ⟨h1, h2, hf0, hfuel, fun o ho => le_trans (h4 o ho) ht, h5, ?_, fun _ => h7⟩
  intro last hl
  refine ⟨(h6 last hl).1, fun _ => le_trans (h6 last hl).2 ?_⟩
  have : tlast - g.m_realtime_last_tick ≤ inp.sample_time - g.m_realtime_last_tick := by linarith
  exact_mod_cast this

theorem ProcessNewPlayerInput_keeps_inv (env : Env) (fuel : Nat) (g : CsgoGame)
    (inp : PlayerInputState) (sub : Bool) (tlast : Int)
    (hinv : DriverInv g tlast) (ht : tlast ≤ inp.sample_time) (hf0 : 0 < fuel)
    (hfuel : inp.sample_time - g.m_realtime_last_tick ≤ fuel * g.m_realtime_game_tick_interval) :
    ∃ g', g.ProcessNewPlayerInput env fuel inp sub = .ok g' ∧ DriverInv g' inp.sample_time ∧
      g'.m_realtime_game_tick_interval = g.m_realtime_game_tick_interval ∧
      g.m_realtime_last_tick ≤ g'.m_realtime_last_tick := by
  obtain ⟨g', hg'⟩ := ProcessNewPlayerInput_total env fuel g inp sub
    (DriverInv_ready g tlast inp sub fuel hinv ht hf0 hfuel)
  obtain ⟨h1, h2, h3, h4, h5, h6, h7⟩ := hinv
  obtain ⟨k, g1, -, hdraw, -, -, -, hb', -, hT', hin', hbase, hled, hfz, -, hb1, hI1, -, -,
    hni'⟩ := ProcessNewPlayerInput_shape env fuel g inp sub g' hg'
  obtain ⟨hI', hlow, hhigh, hmono, -⟩ := ProcessNewPlayerInput_offsets env fuel g inp sub g' h2
    (le_trans h3 ht) hg'
  have hIq : (0 : ℚ) < (g'.m_realtime_game_tick_interval : ℚ) := by
    rw [hI']; exact_mod_cast h2
  have hspan : ((inp.sample_time - g'.m_realtime_last_tick : Int) : ℚ) ≤
      (g'.m_realtime_game_tick_interval : ℚ) := by
    have : inp.sample_time - g'.m_realtime_last_tick ≤ g'.m_realtime_game_tick_interval := by
      linarith
    exact_mod_cast this
  have hpos : (0 : ℚ) ≤ ((inp.sample_time - g'.m_realtime_last_tick : Int) : ℚ) := by
    have : (0 : Int) ≤ inp.sample_time - g'.m_realtime_last_tick := by linarith
    exact_mod_cast this
  refine ⟨g', hg', ⟨?_, ?_, hlow, ?_, hni' h5, ?_, ?_⟩, hI', hmono⟩
  · unfold CsgoGame.HasBeenStarted at h1 ⊢
    rw [hT']; exact h1
  · rw [hI']; exact h2
  · intro o ho
    rw [hin'] at ho
    rcases List.mem_append.mp ho with ho | ho
    · by_cases hk : k = 0
      · rw [if_pos hk] at ho; exact le_trans (h4 o ho) ht
      · rw [if_neg hk] at ho; cases ho
    · rw [List.mem_singleton.mp ho]
  · intro last hl
    rw [hled] at hl
    rcases updateLedger_last g1 inp sub inp.sample_time last hl with hold | hnew
    · rw [hbase] at hold
      by_cases hk : k = 0
      · rw [if_pos hk] at hold
        obtain ⟨ha, hb⟩ := h6 last hold
        refine ⟨ha, ?_⟩
        rw [hI', hb', hk]
        have : tlast - g.m_realtime_last_tick ≤
            inp.sample_time - (g.m_realtime_last_tick + ((0 : Nat) : Int) *
              g.m_realtime_game_tick_interval) := by
          simp only [Nat.cast_zero, zero_mul, add_zero]; linarith
        exact le_trans hb (by exact_mod_cast this)
      · rw [if_neg hk] at hold; cases hold
    · rw [hnew, hb1, hI1]
      cases sub with
      | false =>
        simp only [Bool.false_eq_true, if_false, zero_mul]
        exact ⟨by norm_num, hpos⟩
      | true =>
        simp only [if_true]
        refine ⟨(div_le_one hIq).mpr hspan, ?_⟩
        rw [div_mul_cancel₀ _ (ne_of_gt hIq)]
  · have := predictAndDraw_drawable_le env _ g' _ sub hdraw
    obtain ⟨⟨-, -, -, d4, -, -, d7, -⟩, -, -⟩ := predictAndDraw_ok env _ g' _ sub hdraw
    rw [← d7, ← d4] at this
    exact this

theorem processInputs_keeps_inv (env : Env) (fuel : Nat) (b0 I : Int) (hf0 : 0 < fuel)
    (samples : List (PlayerInputState × Bool)) :
    ∀ (g : CsgoGame) (tlast : Int), DriverInv g tlast →
      g.m_realtime_game_tick_interval = I → b0 ≤ g.m_realtime_last_tick →
      samplesOrdered tlast samples →
      (∀ p ∈ samples, p.1.sample_time - b0 ≤ fuel * I) →
      ∃ g' t', processInputs env fuel g samples = .ok g' ∧ DriverInv g' t' := by
  induction samples with
  | nil =>
    intro g tlast hinv _ _ _ _
    exact ⟨g, tlast, rfl, hinv⟩
  | cons p rest ih =>
    obtain ⟨inp, sub⟩ := p
    intro g tlast hinv hI hb hord hfuel
    have hf1 : inp.sample_time - g.m_realtime_last_tick ≤
        fuel * g.m_realtime_game_tick_interval := by
      have := hfuel (inp, sub) (List.mem_cons_self _ _)
      rw [hI]
      simp only at this
      linarith
    obtain ⟨g1, h1, hinv1, hI1, hmono⟩ := ProcessNewPlayerInput_keeps_inv env fuel g inp sub
      tlast hinv hord.1 hf0 hf1
    obtain ⟨g', t', hrest, hinv'⟩ := ih g1 inp.sample_time hinv1 (by rw [hI1, hI])
      (le_trans hb hmono) hord.2 (fun q hq => hfuel q (List.mem_cons_of_mem _ hq))
    refine ⟨g', t', ?_, hinv'⟩
    rw [processInputs, h1]
    exact hrest

theorem Start_fields (env : Env) (now : Int) (g0 g : CsgoGame) (step scale : ℚ)
    (S : WorldState) (h : CsgoGame.Start env now g0 step scale S = .ok g) :
    0 < step ∧
    g.m_simtime_step_size = step ∧
    g.m_realtime_game_tick_interval = toNanoseconds (step / scale) ∧
    g.m_realtime_last_tick = now ∧
    g.m_inputs_since_prev_finalized_game_tick = [] ∧
    g.m_prev_finalized_game_tick = S ∧
    g.m_prev_drawable_worldstate = S ∧
    g.SubtickSteps = g0.SubtickSteps ∧
    S.is_interpolated = false := by
  unfold CsgoGame.Start at h
  split_ifs at h with h1 h2
  cases hadv : S.AdvanceSimulation env g0.uid_calls step [] [] 1 with
  | aborted s => rw [hadv] at h; cases h
  | returned pred m u =>
    rw [hadv] at h
    cases h
    obtain ⟨hpre, -, -⟩ := AdvanceSimulation_returned_inv env _ _ _ _ _ _ pred m u hadv
    exact ⟨h1, rfl, rfl, rfl, rfl, rfl, rfl, rfl, hpre.1⟩

/-- C20: a fresh driver (empty ledger) started once with a step and a timescale
above 0, a state that is not interpolated and a tick interval above 0 runs every
sequence of `ProcessNewPlayerInput` calls with non-decreasing sample times, none
earlier than the start, to its end without a fired assertion, whatever the mix
of subtick-precise and other samples. Every `AdvanceSimulation` call made on the
way (finalizing, predicting, subtick drawing) therefore met the three asserted
preconditions, since a call that misses one aborts the driver call. After the
sequence the finalized state is not interpolated and the last ledger offset is
at most 1. -/
theorem driver_meets_preconditions (env : Env) (now : Int) (fuel : Nat) (g0 : CsgoGame)
    (step scale : ℚ) (S : WorldState) (samples : List (PlayerInputState × Bool))
    (hfresh : g0.SubtickSteps = []) (hstep : 0 < step) (hscale : 0 < scale)
    (hS : S.is_interpolated = false) (hI : 0 < toNanoseconds (step / scale))
    (hord : samplesOrdered now samples) (hf0 : 0 < fuel)
    (hfuel : ∀ p ∈ samples, p.1.sample_time - now ≤ fuel * toNanoseconds (step / scale)) :
    ∃ g g', CsgoGame.Start env now g0 step scale S = .ok g ∧
      processInputs env fuel g samples = .ok g' ∧
      g'.m_prev_finalized_game_tick.is_interpolated = false ∧
      ∀ last, g'.SubtickSteps.getLast? = some last → last.when ≤ 1 := by
  have hstart : ∃ g, CsgoGame.Start env now g0 step scale S = .ok g := by
    unfold CsgoGame.Start
    rw [if_neg (not_not.mpr hstep), if_neg (not_not.mpr hscale)]
    obtain ⟨pred, m, u, hadv, -⟩ := AdvanceSimulation_returned env g0.uid_calls S step [] [] 1
      ⟨hS, le_refl 1, by simp⟩
    rw [hadv]
    exact ⟨_, rfl⟩
  obtain ⟨g, hg⟩ := hstart
  obtain ⟨-, f2, f3, f4, f5, f6, f7, f8, -⟩ := Start_fields env now g0 g step scale S hg
  have hinv : DriverInv g now := by
    refine ⟨?_, ?_, ?_, ?_, ?_, ?_, ?_⟩
    · unfold CsgoGame.HasBeenStarted; rw [f2]; simpa using hstep
    · rw [f3]; exact hI
    · rw [f4]
    · intro o ho; rw [f5] at ho; cases ho
    · rw [f6]; exact hS
    · intro last hl; rw [f8, hfresh] at hl; cases hl
    · rw [f7, f6, f2]; linarith
  obtain ⟨g', t', hrun, hinv'⟩ := processInputs_keeps_inv env fuel now
    (toNanoseconds (step / scale)) hf0 samples g now hinv f3 (by rw [f4]) hord hfuel
  exact ⟨g, g', hg, hrun, hinv'.2.2.2.2.1, fun last hl => (hinv'.2.2.2.2.2.1 last hl).1⟩

/-- Witness of C20: the fresh driver started at 0 with a 50 ms tick runs the
three samples of `demoSamples` (20 ms subtick-precise, 30 ms not, 110 ms
subtick-precise) without a fired assertion. -/
theorem driver_meets_preconditions_witness :
    ∃ g g', CsgoGame.Start demoEnv 0 demoUnstarted (1 / 20) 1 demoState = .ok g ∧
      processInputs demoEnv 3 g demoSamples = .ok g' ∧
      g'.m_prev_finalized_game_tick.is_interpolated = false ∧
      ∀ last, g'.SubtickSteps.getLast? = some last → last.when ≤ 1 :=
  driver_meets_preconditions demoEnv 0 3 demoUnstarted (1 / 20) 1 demoState demoSamples rfl
    (by norm_num) (by norm_num) rfl (by decide!)
    ⟨by decide, by decide, by decide, trivial⟩ (by decide)
    (by
      intro p hp
      simp only [demoSamples, List.mem_cons, List.mem_singleton, List.not_mem_nil,
        or_false] at hp
      have hI : toNanoseconds ((1 : ℚ) / 20 / 1) = 50000000 := by decide!
      rw [hI]
      rcases hp with h | h | h <;> rw [h] <;> decide)

/-! ## The time slices of a call -/

theorem zipWith_slices_sum (T f : ℚ) (ws : List ℚ) (p : ℚ) :
    (List.zipWith (fun a b => (b - a) * T) (p :: ws) (ws ++ [f])).sum = (f - p) * T := by
  induction ws generalizing p with
  | nil => simp
  | cons w ws ih =>
    rw [List.cons_append, List.zipWith_cons_cons, List.sum_cons, ih w]
    ring

/-- C23: a call of `AdvanceSimulation` with a map loaded that passes the three
assertions returns, for every step duration `T`, every ledger and every
fraction `f`, after invocations of `PlayerMove` whose time slices add up to
exactly `f * T` (to `T` for a full advance); the movement state it returns is
the result of running the integrator over these very slices in order, so every
quantity that `PlayerMove` advances by the time slice it is given, and that
`FinishMove` and the set-up of a segment leave alone, has advanced by exactly
`f * T` over the segment loop. The same holds of the segment loop on its own,
for every ledger (empty, long, ordered or not) and every fraction. -/
theorem time_slices_sum (env : Env) (uid : Nat) (self : WorldState) (T : ℚ)
    (chro : List PlayerInputState) (steps : List CsgoSubtickStep) (f : ℚ)
    (hworld : env.g_coll_world = true) :
    (((segmentLoop env T steps f self).2.map MoveCall.time_delta).sum = f * T ∧
      (segmentLoop env T steps f self).1.csgo_mv =
        (List.zip ((segmentLoop env T steps f self).2.map MoveCall.time_delta)
          ((segmentLoop env T steps f self).2.map MoveCall.buttons)).foldl
          (integrateSegment env self.player.loadout) self.csgo_mv ∧
      ∀ elapsed : CsgoMovement → ℚ,
        (∀ dt mv, elapsed (env.PlayerMove dt mv) = elapsed mv + dt) →
        (∀ mv, elapsed (env.FinishMove mv) = elapsed mv) →
        (∀ b mv, elapsed (segmentSetup env self.player.loadout b mv) = elapsed mv) →
        elapsed (segmentLoop env T steps f self).1.csgo_mv = elapsed self.csgo_mv + f * T) ∧
    (self.is_interpolated = false → f ≤ 1 →
      (∀ last, steps.getLast? = some last → last.when ≤ f) →
      ∃ s moves uid', self.AdvanceSimulation env uid T chro steps f = .returned s moves uid' ∧
        (moves.map MoveCall.time_delta).sum = f * T ∧
        (f = 1 → (moves.map MoveCall.time_delta).sum = T) ∧
        s.csgo_mv =
          (List.zip (moves.map MoveCall.time_delta) (moves.map MoveCall.buttons)).foldl
            (integrateSegment env self.player.loadout)
            (stateBeforeSegments env uid self T chro).csgo_mv ∧
        ∀ elapsed : CsgoMovement → ℚ,
          (∀ dt mv, elapsed (env.PlayerMove dt mv) = elapsed mv + dt) →
          (∀ mv, elapsed (env.FinishMove mv) = elapsed mv) →
          (∀ b mv, elapsed (segmentSetup env self.player.loadout b mv) = elapsed mv) →
          elapsed s.csgo_mv =
            elapsed (stateBeforeSegments env uid self T chro).csgo_mv + f * T) := by
  have hsegs : ((segmentsOf T self.prev_input.nButtons steps f).map Prod.fst).sum = f * T := by
    rw [segmentsOf_slices, zipWith_slices_sum]
    ring
  constructor
  · have hzip : List.zip ((segmentLoop env T steps f self).2.map MoveCall.time_delta)
        ((segmentLoop env T steps f self).2.map MoveCall.buttons) =
        segmentsOf T self.prev_input.nButtons steps f := by
      rw [(segmentLoop_moves env T steps f self).1, (segmentLoop_moves env T steps f self).2]
      rfl
    refine ⟨?_, ?_, ?_⟩
    · rw [(segmentLoop_moves env T steps f self).1, zipWith_slices_sum]
      ring
    · rw [hzip]
      exact (segmentLoop_run env T steps f self).1
    · intro elapsed hmove hfinish hsetup
      rw [(segmentLoop_run env T steps f self).1,
        integrateSegments_elapsed env self.player.loadout elapsed hmove hfinish hsetup, hsegs]
  · intro hni hf hlast
    rw [AdvanceSimulation_of_pre env uid self T chro steps f ⟨hni, hf, hlast⟩, if_pos hworld]
    have hsum : ((advanceLoaded env uid { self with simtime := self.simtime + T } T chro steps
        f).2.1.map MoveCall.time_delta).sum = f * T := by
      rw [(advanceLoaded_moves env uid _ T chro steps f).1, zipWith_slices_sum]
      ring
    have hzip : List.zip
        ((advanceLoaded env uid { self with simtime := self.simtime + T } T chro steps
          f).2.1.map MoveCall.time_delta)
        ((advanceLoaded env uid { self with simtime := self.simtime + T } T chro steps
          f).2.1.map MoveCall.buttons) =
        segmentsOf T self.prev_input.nButtons steps f := by
      rw [(advanceLoaded_moves env uid _ T chro steps f).1,
        (advanceLoaded_moves env uid _ T chro steps f).2]
      rfl
    refine ⟨_, _, _, rfl, hsum, fun h1 => ?_, ?_, ?_⟩
    · rw [hsum, h1, one_mul]
    · rw [hzip]
      exact (advanceLoaded_run env uid self T chro steps f).1
    · intro elapsed hmove hfinish hsetup
      rw [(advanceLoaded_run env uid self T chro steps f).1,
        integrateSegments_elapsed env self.player.loadout elapsed hmove hfinish hsetup, hsegs]

/-- Witness of C23: with a step of `1/64`, the ledger offsets `0, 3/10, 7/10`
and fraction 1 give slices that add up to `1/64`, and the player of `demoEnv`,
moving at velocity (1, 0, 0), ends `1/64` further along x; the unordered
offsets `1/2, 1/5` with fraction `3/4` give slices that add up to
`3/4 * 1/64`, and with the integrator of `demoDriftEnv` the x coordinate of the
origin, which that integrator advances by the slice it is given, ends at
`3/4 * 1/64 = 3/256` after the slices `1/128`, `-3/640` and `11/1280`, with
the y coordinate at 3 for the three invocations of `FinishMove`. -/
theorem time_slices_sum_witness :
    (∃ s moves uid',
      demoState.AdvanceSimulation demoEnv 0 (1 / 64) []
        [⟨8, 0, 0⟩, ⟨520, 0, 3 / 10⟩, ⟨512, 0, 7 / 10⟩] 1 = .returned s moves uid' ∧
      (moves.map MoveCall.time_delta).sum = 1 / 64 ∧
      s.csgo_mv.m_vecAbsOrigin = ⟨1 / 64, 0, 0⟩) ∧
    (∃ s moves uid',
      demoState.AdvanceSimulation demoDriftEnv 0 (1 / 64) []
        [⟨8, 0, 1 / 2⟩, ⟨0, 0, 1 / 5⟩] (3 / 4) = .returned s moves uid' ∧
      (moves.map MoveCall.time_delta).sum = 3 / 4 * (1 / 64) ∧
      s.csgo_mv.m_vecAbsOrigin.x = 0 + 3 / 4 * (1 / 64) ∧
      moves.map MoveCall.time_delta = [1 / 128, -3 / 640, 11 / 1280] ∧
      s.csgo_mv.m_vecAbsOrigin = ⟨3 / 256, 3, 0⟩) := by
  constructor
  · obtain ⟨s, m, u, h, -, h1, -⟩ := (time_slices_sum demoEnv 0 demoState (1 / 64) []
      [⟨8, 0, 0⟩, ⟨520, 0, 3 / 10⟩, ⟨512, 0, 7 / 10⟩] 1 rfl).2 rfl (le_refl 1)
      (by intro last hl; simp at hl; subst hl; norm_num)
    have hs : s = (demoState.AdvanceSimulation demoEnv 0 (1 / 64) []
        [⟨8, 0, 0⟩, ⟨520, 0, 3 / 10⟩, ⟨512, 0, 7 / 10⟩] 1).finalState := by
      rw [h]; rfl
    refine ⟨s, m, u, h, h1 rfl, ?_⟩
    rw [hs]
    decide!
  · obtain ⟨s, m, u, h, hs, -, -, hel⟩ := (time_slices_sum demoDriftEnv 0 demoState (1 / 64) []
      [⟨8, 0, 1 / 2⟩, ⟨0, 0, 1 / 5⟩] (3 / 4) rfl).2 rfl (by norm_num)
      (by intro last hl; simp at hl; subst hl; norm_num)
    have hm : m = (demoState.AdvanceSimulation demoDriftEnv 0 (1 / 64) []
        [⟨8, 0, 1 / 2⟩, ⟨0, 0, 1 / 5⟩] (3 / 4)).moveCalls := by
      rw [h]; rfl
    have hst : s = (demoState.AdvanceSimulation demoDriftEnv 0 (1 / 64) []
        [⟨8, 0, 1 / 2⟩, ⟨0, 0, 1 / 5⟩] (3 / 4)).finalState := by
      rw [h]; rfl
    refine ⟨s, m, u, h, hs, hel (fun mv => mv.m_vecAbsOrigin.x) (fun _ _ => rfl) (fun _ => rfl)
      (fun _ _ => rfl), ?_, ?_⟩
    · rw [hm]; decide!
    · rw [hst]; decide!

/-! ## Simulation time along a session -/

theorem Start_tick_id (env : Env) (now : Int) (g0 g : CsgoGame) (step scale : ℚ)
    (S : WorldState) (h : CsgoGame.Start env now g0 step scale S = .ok g) :
    g.m_prev_finalized_game_tick_id = 0 := by
  unfold CsgoGame.Start at h
  split_ifs at h
  cases hadv : S.AdvanceSimulation env g0.uid_calls step [] [] 1 with
  | aborted s => rw [hadv] at h; cases h
  | returned pred m u =>
    rw [hadv] at h
    cases h
    rfl

theorem processInputs_simtime (env : Env) (fuel : Nat) (s0 T : ℚ)
    (samples : List (PlayerInputState × Bool)) :
    ∀ (g g' : CsgoGame), g.m_simtime_step_size = T →
      g.m_prev_finalized_game_tick.simtime = s0 + g.m_prev_finalized_game_tick_id * T →
      processInputs env fuel g samples = .ok g' →
      g'.m_simtime_step_size = T ∧
      g'.m_prev_finalized_game_tick.simtime = s0 + g'.m_prev_finalized_game_tick_id * T := by
  induction samples with
  | nil =>
    intro g g' hT hsim h
    rw [processInputs] at h
    cases h
    exact ⟨hT, hsim⟩
  | cons p rest ih =>
    obtain ⟨inp, sub⟩ := p
    intro g g' hT hsim h
    obtain ⟨g1, h1, hrest⟩ := processInputs_cons_ok env fuel g inp sub rest g' h
    obtain ⟨k, -, -, -, -, -, hid, -, -, hT1, -, -, -, -, -, -, -, -, hsim1, -⟩ :=
      ProcessNewPlayerInput_shape env fuel g inp sub g1 h1
    refine ih g1 g' (by rw [hT1, hT]) ?_ hrest
    rw [hsim1, hsim, hid, hT]
    push_cast
    ring

/-- C22: for a driver started with the state `S` and the step size `T`
(whatever the timescale), after `Start` and after every sequence of
`ProcessNewPlayerInput` calls that returns (whatever the samples and their
subtick mode), the `simtime` of the finalized state is
`S.simtime + (finalized tick id) * T`; the relation is kept by every
`UpdateTimescale` and every returning `ProcessNewPlayerInput` call on a driver
that has it. -/
theorem finalized_simtime_by_tick (env : Env) (now : Int) (g0 g : CsgoGame) (T scale : ℚ)
    (S : WorldState) (hstart : CsgoGame.Start env now g0 T scale S = .ok g) :
    g.m_simtime_step_size = T ∧
    g.m_prev_finalized_game_tick.simtime = S.simtime + g.m_prev_finalized_game_tick_id * T ∧
    (∀ (fuel : Nat) (samples : List (PlayerInputState × Bool)) (g' : CsgoGame),
      processInputs env fuel g samples = .ok g' →
      g'.m_prev_finalized_game_tick.simtime =
        S.simtime + g'.m_prev_finalized_game_tick_id * T) ∧
    (∀ g1 : CsgoGame, g1.m_simtime_step_size = T →
      g1.m_prev_finalized_game_tick.simtime =
        S.simtime + g1.m_prev_finalized_game_tick_id * T →
      (∀ scale' : ℚ, (g1.UpdateTimescale scale').m_simtime_step_size = T ∧
        (g1.UpdateTimescale scale').m_prev_finalized_game_tick.simtime =
          S.simtime + (g1.UpdateTimescale scale').m_prev_finalized_game_tick_id * T) ∧
      (∀ (fuel : Nat) (inp : PlayerInputState) (sub : Bool) (g2 : CsgoGame),
        g1.ProcessNewPlayerInput env fuel inp sub = .ok g2 →
        g2.m_simtime_step_size = T ∧
        g2.m_prev_finalized_game_tick.simtime =
          S.simtime + g2.m_prev_finalized_game_tick_id * T)) := by
  obtain ⟨-, hT, -, -, -, hfin, -, -, -⟩ := Start_fields env now g0 g T scale S hstart
  have hid := Start_tick_id env now g0 g T scale S hstart
  have hbase : g.m_prev_finalized_game_tick.simtime =
      S.simtime + g.m_prev_finalized_game_tick_id * T := by
    rw [hfin, hid]; simp
  refine ⟨hT, hbase, fun fuel samples g' h => ?_, fun g1 hT1 hs1 => ⟨fun _ => ⟨hT1, hs1⟩, ?_⟩⟩
  · exact (processInputs_simtime env fuel S.simtime T samples g g' hT hbase h).2
  · intro fuel inp sub g2 h
    have hseq : processInputs env fuel g1 [(inp, sub)] = .ok g2 := by
      rw [processInputs, h]; rfl
    exact processInputs_simtime env fuel S.simtime T [(inp, sub)] g1 g2 hT1 hs1 hseq

theorem demoAfterSamples_eq :
    processInputs demoEnv 3 demoStarted demoSamples = .ok demoAfterSamples := by
  decide!

/-- Witness of C22: the driver started at 0 with `demoState` (time 0) and a
step of `1/20` has finalized two ticks after the three samples of `demoSamples`
and its finalized state is at time `0 + 2 * (1/20)`. -/
theorem finalized_simtime_by_tick_witness :
    CsgoGame.Start demoEnv 0 demoUnstarted (1 / 20) 1 demoState = .ok demoStarted ∧
    processInputs demoEnv 3 demoStarted demoSamples = .ok demoAfterSamples ∧
    demoAfterSamples.m_prev_finalized_game_tick_id = 2 ∧
    demoAfterSamples.m_prev_finalized_game_tick.simtime =
      demoState.simtime + demoAfterSamples.m_prev_finalized_game_tick_id * (1 / 20) :=
  ⟨demoStarted_eq, demoAfterSamples_eq, by decide!,
    (finalized_simtime_by_tick demoEnv 0 demoUnstarted demoStarted (1 / 20) 1 demoState
      demoStarted_eq).2.2.1 3 demoSamples demoAfterSamples demoAfterSamples_eq⟩

theorem ProcessNewPlayerInput_drawable_le (env : Env) (fuel : Nat) (g : CsgoGame)
    (inp : PlayerInputState) (sub : Bool) (g' : CsgoGame)
    (h : g.ProcessNewPlayerInput env fuel inp sub = .ok g') :
    g'.m_simtime_step_size = g.m_simtime_step_size ∧
    g'.m_prev_drawable_worldstate.simtime ≤
      g'.m_prev_finalized_game_tick.simtime + g'.m_simtime_step_size := by
  obtain ⟨k, g1, -, hdraw, -, -, -, -, -, hT, -⟩ :=
    ProcessNewPlayerInput_shape env fuel g inp sub g' h
  refine ⟨hT, ?_⟩
  have := predictAndDraw_drawable_le env _ g' _ sub hdraw
  obtain ⟨⟨-, -, -, d4, -, -, d7, -⟩, -, -⟩ := predictAndDraw_ok env _ g' _ sub hdraw
  rw [← d7, ← d4] at this
  exact this

theorem processInputs_drawable_le (env : Env) (fuel : Nat)
    (samples : List (PlayerInputState × Bool)) :
    ∀ (g g' : CsgoGame), 0 < g.m_simtime_step_size →
      g.m_prev_drawable_worldstate.simtime ≤
        g.m_prev_finalized_game_tick.simtime + g.m_simtime_step_size →
      processInputs env fuel g samples = .ok g' →
      0 < g'.m_simtime_step_size ∧
      g'.m_prev_drawable_worldstate.simtime ≤
        g'.m_prev_finalized_game_tick.simtime + g'.m_simtime_step_size := by
  induction samples with
  | nil =>
    intro g g' hT hle h
    rw [processInputs] at h
    cases h
    exact ⟨hT, hle⟩
  | cons p rest ih =>
    obtain ⟨inp, sub⟩ := p
    intro g g' hT _ h
    obtain ⟨g1, h1, hrest⟩ := processInputs_cons_ok env fuel g inp sub rest g' h
    obtain ⟨hT1, hle1⟩ := ProcessNewPlayerInput_drawable_le env fuel g inp sub g1 h1
    exact ih g1 g' (by rw [hT1]; exact hT) hle1 hrest

theorem predicted_not_behind_drawable (env : Env) (fuel : Nat) (g : CsgoGame)
    (inp : PlayerInputState) (g1 : CsgoGame) (hT : 0 < g.m_simtime_step_size)
    (hle : g.m_prev_drawable_worldstate.simtime ≤
      g.m_prev_finalized_game_tick.simtime + g.m_simtime_step_size)
    (h1 : catchUpAndFinalize env fuel g inp = .ok g1)
    (uid : Nat) (chro : List PlayerInputState) (steps : List CsgoSubtickStep)
    (pred : WorldState) (m : List MoveCall) (u : Nat)
    (hadv : g1.m_prev_finalized_game_tick.AdvanceSimulation env uid g1.m_simtime_step_size
      chro steps 1 = .returned pred m u) :
    g1.m_prev_drawable_worldstate = g.m_prev_drawable_worldstate ∧
    g.m_prev_drawable_worldstate.simtime ≤ pred.simtime := by
  obtain ⟨k, -, -, hfin⟩ := catchUpAndFinalize_ok env fuel g inp g1 h1
  obtain ⟨-, -, -, f4, -, -, f7, -, f9, -⟩ := finalizeTicks_ok env k _ g1 hfin
  simp only at f4 f7 f9
  obtain ⟨-, ht, -⟩ := AdvanceSimulation_returned_inv env _ _ _ _ _ _ pred m u hadv
  refine ⟨f7, ?_⟩
  rw [ht, f9, f4]
  have : (0 : ℚ) ≤ (k : ℚ) * g.m_simtime_step_size :=
    mul_nonneg (Nat.cast_nonneg k) (le_of_lt hT)
  linarith

/-- C21: for a driver started with a step above 0, after `Start` and after
every sequence of `ProcessNewPlayerInput` calls that returns (subtick-precise or
not, in any mix), the `simtime` of the drawable state is at most the `simtime`
of the finalized state plus one step. On every driver with that bound, whatever
ticks the next call finalizes, the next tick predicted by a full advance of the
finalized state is not earlier than the previous drawable state, so
`Interpolate(previous drawable, predicted, phase)` meets its assertion and
gives a state for every phase. -/
theorem Interpolate_precondition_kept (env : Env) (now : Int) (g0 g : CsgoGame)
    (step scale : ℚ) (S : WorldState)
    (hstart : CsgoGame.Start env now g0 step scale S = .ok g) :
    (0 < g.m_simtime_step_size ∧
      g.m_prev_drawable_worldstate.simtime ≤
        g.m_prev_finalized_game_tick.simtime + g.m_simtime_step_size) ∧
    (∀ (fuel : Nat) (samples : List (PlayerInputState × Bool)) (g' : CsgoGame),
      processInputs env fuel g samples = .ok g' →
      0 < g'.m_simtime_step_size ∧
      g'.m_prev_drawable_worldstate.simtime ≤
        g'.m_prev_finalized_game_tick.simtime + g'.m_simtime_step_size) ∧
    (∀ g' : CsgoGame, 0 < g'.m_simtime_step_size →
      g'.m_prev_drawable_worldstate.simtime ≤
        g'.m_prev_finalized_game_tick.simtime + g'.m_simtime_step_size →
      ∀ (fuel : Nat) (inp : PlayerInputState) (g1 : CsgoGame),
        catchUpAndFinalize env fuel g' inp = .ok g1 →
        g1.m_prev_drawable_worldstate = g'.m_prev_drawable_worldstate ∧
        ∀ (uid : Nat) (chro : List PlayerInputState) (steps : List CsgoSubtickStep)
          (pred : WorldState) (m : List MoveCall) (u : Nat),
          g1.m_prev_finalized_game_tick.AdvanceSimulation env uid g1.m_simtime_step_size
            chro steps 1 = .returned pred m u →
          g'.m_prev_drawable_worldstate.simtime ≤ pred.simtime ∧
          ∀ phase : ℚ, ∃ d,
            WorldState.Interpolate g'.m_prev_drawable_worldstate pred phase = some d) := by
  obtain ⟨hpos, hT, -, -, -, hfin, hdr, -, -⟩ := Start_fields env now g0 g step scale S hstart
  have hbase : 0 < g.m_simtime_step_size ∧ g.m_prev_drawable_worldstate.simtime ≤
      g.m_prev_finalized_game_tick.simtime + g.m_simtime_step_size := by
    rw [hT, hfin, hdr]
    exact ⟨hpos, by linarith⟩
  refine ⟨hbase, fun fuel samples g' h => ?_, fun g' hT' hle fuel inp g1 h1 => ?_⟩
  · exact processInputs_drawable_le env fuel samples g g' hbase.1 hbase.2 h
  · refine ⟨?_, fun uid chro steps pred m u hadv => ?_⟩
    · obtain ⟨k, -, -, hf⟩ := catchUpAndFinalize_ok env fuel g' inp g1 h1
      exact (finalizeTicks_ok env k _ g1 hf).2.2.2.2.2.2.1
    · have hle' := (predicted_not_behind_drawable env fuel g' inp g1 hT' hle h1 uid chro steps
        pred m u hadv).2
      refine ⟨hle', fun phase => ?_⟩
      obtain ⟨d, hd, -⟩ := Interpolate_simtime g'.m_prev_drawable_worldstate pred phase hle'
      exact ⟨d, hd⟩

/-- Witness of C21: on the driver started at 0 with a 50 ms tick, after the
three samples of `demoSamples` (subtick-precise and not, mixed) the drawable
state is not ahead of the finalized state by more than one step. -/
theorem Interpolate_precondition_kept_witness :
    CsgoGame.Start demoEnv 0 demoUnstarted (1 / 20) 1 demoState = .ok demoStarted ∧
    processInputs demoEnv 3 demoStarted demoSamples = .ok demoAfterSamples ∧
    demoAfterSamples.m_prev_drawable_worldstate.simtime ≤
      demoAfterSamples.m_prev_finalized_game_tick.simtime + demoAfterSamples.m_simtime_step_size :=
  ⟨demoStarted_eq, demoAfterSamples_eq,
    ((Interpolate_precondition_kept demoEnv 0 demoUnstarted demoStarted (1 / 20) 1 demoState
      demoStarted_eq).2.1 3 demoSamples demoAfterSamples demoAfterSamples_eq).2⟩

end DZSim
